import Mathlib

/-!
# Amorfly: pod assignment, the progress ledger and 1:1 connections

A shallow embedding of `Backend/utils/podUtils.js`,
`Backend/utils/progressUtils.js`, `Backend/utils/generateAnonymousName.js`, the
handlers of `Backend/routes/connections.js`, the message and feedback handlers
of `Backend/routes/pods.js`, the score of `Backend/routes/message.js` and the
scheduled job of `Backend/server.js`, over an explicit document store.

Modelling conventions.

* An `ObjectId` is a natural number; the `_id` of a document is its key.
* A `Date` is its `valueOf()`: milliseconds since the epoch, a natural number.
  Calendar arithmetic (`setDate(getDate() + 7)`) is taken on a clock without
  daylight-saving shifts, so seven days are `7 * 86400000` milliseconds.
* Counters are natural numbers (the schema defaults them to `0` and the code
  only ever adds to them or stores `0`).
* The weights `0.4`, `0.35`, `0.25` and the threshold `0.5` are kept in
  hundredths (`40`, `35`, `25`, `50`).  The eight sums the code can form differ
  pairwise by at least `0.05`, so comparing hundredths orders them exactly as
  the double-precision comparison does.
* A schema path of type `String` that a document may lack is an `Option String`;
  `===` on two such values is equality of the options (`undefined === undefined`).
* A collection is the list of its documents in the order a query returns them.
* A nested path no field of which is set is not stored (the schema option
  `minimize`, on by default), and a query with `.lean()` returns the stored
  document as it is: the `personalitySummary` of a pod is an `Option`, `none`
  for a stored pod without that key.
* A route handler is a function of the store, the clock reading and the request;
  it returns the response and the store it leaves.  Only the paths a schema
  declares are stored: a property a handler puts on a loaded document lives as
  long as the request.
* `Math.random()` is a random source `rand : Nat → ℚ`, read in the order of the
  calls; its values lie in `[0, 1)`, which the statements that need it assume.
* Concurrent calls interleave at their `await`s: a call is cut into the part
  that queries and the part that writes, and a schedule orders the parts.
-/

namespace Amorfly

abbrev ObjectId := Nat

abbrev Time := Nat

/-- The nested path `personality` / `personalitySummary` of the two schemas:
three optional strings. -/
structure Personality where
  learningStyle : Option String := none
  motivation : Option String := none
  timeCommitment : Option String := none
deriving DecidableEq, Repr

/-- The nested path `progress` of `UserSchema`. -/
structure Progress where
  messages : Nat := 0
  resources : Nat := 0
  points : Nat := 0
deriving DecidableEq, Repr

/-- The nested path `podParticipation` of `UserSchema`. -/
structure PodParticipation where
  messagesCount : Nat := 0
  resourcesShared : Nat := 0
deriving DecidableEq, Repr

/-- An element of the array `feedbackHistory` of `UserSchema`. -/
structure FeedbackEntry where
  fromUserId : ObjectId
  feedbackMessage : String
  timestamp : Time
deriving DecidableEq, Repr

/-- A document of `models/User.js`, restricted to the paths the utilities and
the routes below read or write.  `podParticipation` is optional because the
code tests it for absence before use; `anonymousName` has no default. -/
structure User where
  _id : ObjectId
  selectedSkills : List String := []
  personality : Personality := {}
  progressPoints : Nat := 0
  podParticipation : Option PodParticipation := some {}
  currentPod : Option ObjectId := none
  progress : Progress := {}
  nextWeeklyReset : Time := 0
  anonymousName : Option String := none
  feedbackReceived : Nat := 0
  connectionUnlocked : Bool := false
  feedbackHistory : List FeedbackEntry := []
deriving DecidableEq, Repr

/-- A stored document of `models/Pod.js` (`skill` is `required`, `isActive`
defaults to `true`; `lastActivity` is the path `analytics.lastActivity`, `null`
by default).  The path `personalitySummary` has no default: it is `none` on a
document stored without that key. -/
structure Pod where
  _id : ObjectId
  skill : String
  members : List ObjectId := []
  personalitySummary : Option Personality := none
  isActive : Bool := true
  lastActivity : Option Time := none
deriving DecidableEq, Repr

/-- The two collections the utilities work on. -/
structure Store where
  users : List User := []
  pods : List Pod := []
deriving DecidableEq, Repr

/-! ## podUtils.js -/

/-- The function `personalityMatchScore(userP, podP)`, in hundredths. -/
def personalityMatchScore (userP podP : Personality) : Nat :=
  let score := 0
  let score := if userP.learningStyle = podP.learningStyle then score + 40 else score
  let score := if userP.motivation = podP.motivation then score + 35 else score
  let score := if userP.timeCommitment = podP.timeCommitment then score + 25 else score
  score

/-- The query `User.findById(id)`: the first document with that `_id`, if any. -/
def findUserById (st : Store) (id : ObjectId) : Option User :=
  st.users.find? (fun u => u._id == id)

/-- The write `user.save()`: the stored document with the same `_id` is replaced. -/
def saveUser (st : Store) (user : User) : Store :=
  { st with users := st.users.map (fun v => if v._id = user._id then user else v) }

/-- The query `Pod.findOne({ members: userId })`: the first pod listing the user. -/
def findPodByMember (st : Store) (userId : ObjectId) : Option Pod :=
  st.pods.find? (fun p => decide (userId ∈ p.members))

/-- The query `Pod.find({ skill: primarySkill, $expr: { $lt: [{ $size: "$members" }, 6] } })`.
The filter has no `isActive` clause.  An absent primary skill matches no pod,
since every stored pod has a skill. -/
def findCandidatePods (st : Store) (primarySkill : Option String) : List Pod :=
  st.pods.filter (fun p => decide (some p.skill = primarySkill) && decide (p.members.length < 6))

/-- One iteration of the `for (const pod of candidatePods)` loop on the pair
`(bestMatch, bestScore)`.  The candidates are read with `.lean()`: on a pod
stored without `personalitySummary` the call `personalityMatchScore(personality,
undefined)` throws a `TypeError` at its first line. -/
def bestMatchStep (userId : ObjectId) (personality : Personality)
    (acc : Option Pod × Nat) (pod : Pod) : Except String (Option Pod × Nat) :=
  if pod.members.any (fun m => m == userId) then .ok acc
  else
    match pod.personalitySummary with
    | none => .error "Cannot read properties of undefined"
    | some podP =>
      let score := personalityMatchScore personality podP
      if score > acc.2 then .ok (some pod, score) else .ok acc

/-- The loop over the candidates from a given pair `(bestMatch, bestScore)`; it
ends at the first iteration that throws. -/
def bestMatchLoop (userId : ObjectId) (personality : Personality) :
    List Pod → Option Pod × Nat → Except String (Option Pod × Nat)
  | [], acc => .ok acc
  | pod :: rest, acc =>
    match bestMatchStep userId personality acc pod with
    | .error e => .error e
    | .ok acc => bestMatchLoop userId personality rest acc

/-- The whole loop, started from `bestMatch = null`, `bestScore = 0.5`. -/
def findBestMatch (userId : ObjectId) (personality : Personality)
    (candidatePods : List Pod) : Except String (Option Pod × Nat) :=
  bestMatchLoop userId personality candidatePods (none, 50)

/-- What `save()` stores for the nested path `personalitySummary`: nothing when
none of its fields is set (the schema option `minimize`), the object otherwise. -/
def minimize (personality : Personality) : Option Personality :=
  if personality = ({} : Personality) then none else some personality

/-- The update operator `$addToSet: { members: userId }`. -/
def addToSet (members : List ObjectId) (userId : ObjectId) : List ObjectId :=
  if userId ∈ members then members else members ++ [userId]

/-- The update `Pod.findByIdAndUpdate(id, { $addToSet: { members: userId } }, { new: true })`:
the first pod with that `_id` is updated and returned; `$setOnInsert` has no
effect without `upsert`. -/
def findPodByIdAndAddMember : List Pod → ObjectId → ObjectId → List Pod × Option Pod
  | [], _, _ => ([], none)
  | p :: ps, id, userId =>
    if p._id = id then
      let p' := { p with members := addToSet p.members userId }
      (p' :: ps, some p')
    else
      let r := findPodByIdAndAddMember ps id userId
      (p :: r.1, r.2)

/-- The `_id` a new document receives: one no stored pod carries. -/
def freshPodId (pods : List Pod) : ObjectId :=
  pods.foldl (fun m p => max m p._id) 0 + 1

/-- The object `assignUserToPod` resolves to.  `message` and `matchScore` are
`none` where the returned object has no such property; `matchScore = some none`
is the value `null`. -/
structure AssignResult where
  success : Bool
  pod : Pod
  message : Option String
  isNew : Bool
  matchScore : Option (Option Nat)
deriving DecidableEq, Repr

/-- The function `exports.assignUserToPod`, on an id that passes the format check
of its first line (every `ObjectId` does).  An exception is `Except.error`; no
write has happened when one is thrown.  A new pod is refused by validation when
the user has no first skill or an empty one, `skill` being a `required` string. -/
def assignUserToPod (st : Store) (userId : ObjectId) : Except String (AssignResult × Store) :=
  match findUserById st userId with
  | none => .error "User not found"
  | some user =>
    match findPodByMember st userId with
    | some existingPod =>
      .ok ({ success := true, pod := existingPod, message := some "User already in a pod",
             isNew := false, matchScore := none }, st)
    | none =>
      let primarySkill := user.selectedSkills.head?
      let personality := user.personality
      let candidatePods := findCandidatePods st primarySkill
      match findBestMatch userId personality candidatePods with
      | .error e => .error e
      | .ok (some bestMatch, bestScore) =>
        match findPodByIdAndAddMember st.pods bestMatch._id userId with
        | (_, none) => .error "Cannot read properties of null"
        | (pods', some pod) =>
          let st' := saveUser { st with pods := pods' } { user with currentPod := some pod._id }
          .ok ({ success := true, pod := pod, message := none,
                 isNew := false, matchScore := some (some bestScore) }, st')
      | .ok (none, _) =>
        match primarySkill with
        | none => .error "Pod validation failed: skill is required"
        | some skill =>
          if skill = "" then .error "Pod validation failed: skill is required"
          else
            let pod : Pod :=
              { _id := freshPodId st.pods, skill := skill,
                personalitySummary := minimize personality, members := [userId] }
            let st' := saveUser { st with pods := st.pods ++ [pod] }
              { user with currentPod := some pod._id }
            .ok ({ success := true, pod := pod, message := none,
                   isNew := true, matchScore := some none }, st')

/-! ## progressUtils.js -/

/-- Seven days in milliseconds. -/
def sevenDays : Nat := 7 * 86400000

/-- The `switch (type)` of `updateUserProgress`: the triple
`(points, messageIncrement, resourceIncrement)`. -/
def activityIncrements (type : String) : Nat × Nat × Nat :=
  if type = "text" ∨ type = "feedback" ∨ type = "checkin" ∨ type = "milestone"
      ∨ type = "progress" then (1, 1, 0)
  else if type = "resource" then (3, 0, 1)
  else if type = "feedbackReceived" then (2, 0, 0)
  else if type = "reaction" then (2, 0, 0)
  else (1, 1, 0)

/-- The weekly reset check at the head of `updateUserProgress`. -/
def weeklyResetCheck (now : Time) (user : User) : User :=
  if now > user.nextWeeklyReset then
    { user with progress := { messages := 0, resources := 0, points := 0 },
                nextWeeklyReset := now + sevenDays }
  else user

/-- The body of `updateUserProgress` on the loaded document, up to `save`. -/
def applyActivity (now : Time) (type : String) (user : User) : User :=
  let user := weeklyResetCheck now user
  let inc := activityIncrements type
  let points := inc.1
  let messageIncrement := inc.2.1
  let resourceIncrement := inc.2.2
  let user := { user with progress :=
    { messages := user.progress.messages + messageIncrement,
      resources := user.progress.resources + resourceIncrement,
      points := user.progress.points + points } }
  let user := if user.podParticipation.isNone then
      { user with podParticipation := some { messagesCount := 0, resourcesShared := 0 } }
    else user
  { user with podParticipation := user.podParticipation.map (fun pp =>
      { messagesCount := pp.messagesCount + messageIncrement,
        resourcesShared := pp.resourcesShared + resourceIncrement }) }

/-- The function `updateUserProgress(userId, type)` at clock reading `now`: the returned
value (`none` is `undefined`, for a missing user) and the store afterwards. -/
def updateUserProgress (st : Store) (now : Time) (userId : ObjectId) (type : String) :
    Option Progress × Store :=
  match findUserById st userId with
  | none => (none, st)
  | some user =>
    let user := applyActivity now type user
    (some user.progress, saveUser st user)

/-! ## models/Connection.js -/

/-- The `enum` of the path `status`. -/
inductive ConnectionStatus where
  | pending
  | active
  | completed
deriving DecidableEq, Repr

/-- A subdocument of `feedbackSchema`. -/
structure Feedback where
  fromUser : ObjectId
  rating : Nat
  comment : String := ""
  isAnonymous : Bool := true
  createdAt : Time := 0
deriving DecidableEq, Repr

/-- The nested path `evaluationPeriod`: two optional dates. -/
structure EvaluationPeriod where
  startDate : Option Time := none
  endDate : Option Time := none
deriving DecidableEq, Repr

/-- A document of `models/Connection.js`. -/
structure Connection where
  _id : ObjectId
  users : List ObjectId := []
  sharedSkill : String := ""
  initiatedBy : ObjectId
  status : ConnectionStatus := ConnectionStatus.pending
  evaluationPeriod : EvaluationPeriod := {}
  feedback : List Feedback := []
deriving DecidableEq, Repr

/-- The collections the connection routes work on: users and pods, and the
connections. -/
structure Database extends Store where
  connections : List Connection := []
deriving DecidableEq, Repr

/-! ## routes/connections.js -/

/-- The object the routes keep under `user.weeklyConnections`. -/
structure WeeklyConnections where
  count : Nat
  weekStartDate : Time
deriving DecidableEq, Repr

/-- A user document as a request handler holds it: the stored document, and the
property `weeklyConnections` the handlers put on the object.  `UserSchema`
declares no path `weeklyConnections`, so the property is not part of what
`save()` writes and is absent on every document `findById` returns. -/
structure UserDocument where
  stored : User
  weeklyConnections : Option WeeklyConnections := none
deriving DecidableEq, Repr

/-- The query `User.findById(id)` of a route, as the document the handler holds. -/
def loadUser (db : Database) (id : ObjectId) : Option UserDocument :=
  (findUserById db.toStore id).map (fun u => { stored := u })

/-- One entry of `requirements`. -/
structure Requirement where
  current : Nat
  required : Nat
deriving DecidableEq, Repr

/-- The object `requirements` of the eligibility report. -/
structure Requirements where
  messages : Requirement
  resources : Requirement
  points : Requirement
deriving DecidableEq, Repr

/-- The object `checkConnectionEligibility` resolves to. -/
structure Eligibility where
  eligible : Bool
  requirements : Requirements
deriving DecidableEq, Repr

/-- The function `checkConnectionEligibility(userId)`; reading a property of the
`null` a missing user gives throws. -/
def checkConnectionEligibility (st : Store) (userId : ObjectId) : Except String Eligibility :=
  match findUserById st userId with
  | none => .error "Cannot read properties of null"
  | some user =>
    let minMessages := 5
    let minResourcesShared := 1
    let minProgressPoints := 10
    let participation : PodParticipation :=
      match user.podParticipation with
      | some p => p
      | none => { messagesCount := 0, resourcesShared := 0 }
    let isEligible :=
      decide (participation.messagesCount ≥ minMessages) &&
      decide (participation.resourcesShared ≥ minResourcesShared) &&
      decide (user.progressPoints ≥ minProgressPoints)
    .ok { eligible := isEligible,
          requirements :=
            { messages := { current := participation.messagesCount, required := minMessages },
              resources :=
                { current := participation.resourcesShared, required := minResourcesShared },
              points := { current := user.progressPoints, required := minProgressPoints } } }

/-- The function `resetWeeklyConnections(user)` at clock reading `now`.  Its
`save()` writes nothing, no schema path having changed.  The subtraction is cut
off at `0`, which decides `weekStartDate < oneWeekAgo` as the signed one does. -/
def resetWeeklyConnections (now : Time) (user : UserDocument) : UserDocument :=
  match user.weeklyConnections with
  | none => { user with weeklyConnections := some { count := 0, weekStartDate := now } }
  | some weeklyConnections =>
    let oneWeekAgo := now - 7 * 24 * 60 * 60 * 1000
    if weeklyConnections.weekStartDate < oneWeekAgo then
      { user with weeklyConnections := some { count := 0, weekStartDate := now } }
    else user

/-- An HTTP response, reduced to its status code and its `message`. -/
structure Response where
  status : Nat
  message : String
deriving DecidableEq, Repr

/-- The query `Connection.findById(id)`. -/
def findConnectionById (db : Database) (id : ObjectId) : Option Connection :=
  db.connections.find? (fun c => c._id == id)

/-- The write `conn.save()` of a loaded connection. -/
def saveConnection (db : Database) (conn : Connection) : Database :=
  { db with connections := db.connections.map (fun c => if c._id = conn._id then conn else c) }

/-- The `_id` a new connection receives: one no stored connection carries. -/
def freshConnectionId (connections : List Connection) : ObjectId :=
  connections.foldl (fun m c => max m c._id) 0 + 1

/-- What the handler of `POST /request` leaves behind: the response, its local
`user` object, and the database. -/
structure RequestOutcome where
  response : Response
  user : Option UserDocument
  db : Database
deriving DecidableEq, Repr

/-- The handler of `POST /request` at clock reading `now`, for the caller `userId`
and the body `targetUserId`, `sharedSkill`.  An exception inside `try` is the
response 500.  The two `user.save()` write nothing, no schema path of the user
having changed. -/
def postRequest (db : Database) (now : Time) (userId targetUserId : ObjectId)
    (sharedSkill : String) : RequestOutcome :=
  let user := loadUser db userId
  match findUserById db.toStore targetUserId with
  | none => { response := { status := 404, message := "Target user not found" },
              user := user, db := db }
  | some target =>
    match checkConnectionEligibility db.toStore userId with
    | .error _ => { response := { status := 500, message := "Error sending connection request" },
                    user := user, db := db }
    | .ok eligibility =>
      if !eligibility.eligible then
        { response := { status := 403, message := "Not eligible" }, user := user, db := db }
      else
        match user with
        | none => { response := { status := 500, message := "Error sending connection request" },
                    user := none, db := db }
        | some user =>
          let user := resetWeeklyConnections now user
          match user.weeklyConnections with
          | none =>
            { response := { status := 500, message := "Error sending connection request" },
              user := some user, db := db }
          | some weeklyConnections =>
            if weeklyConnections.count ≥ 1 then
              { response := { status := 429, message := "Weekly connection limit reached" },
                user := some user, db := db }
            else
              let existing := db.connections.find? (fun c =>
                decide (userId ∈ c.users) && decide (targetUserId ∈ c.users) &&
                (decide (c.status = ConnectionStatus.pending) ||
                  decide (c.status = ConnectionStatus.active)))
              match existing with
              | some _ =>
                { response := { status := 400, message := "Connection already exists" },
                  user := some user, db := db }
              | none =>
                if !decide (sharedSkill ∈ user.stored.selectedSkills) ||
                    !decide (sharedSkill ∈ target.selectedSkills) then
                  { response := { status := 400, message := "Skill not shared by both users" },
                    user := some user, db := db }
                else
                  let conn : Connection :=
                    { _id := freshConnectionId db.connections,
                      users := [userId, targetUserId],
                      sharedSkill := sharedSkill,
                      initiatedBy := userId,
                      status := ConnectionStatus.pending }
                  let db := { db with connections := db.connections ++ [conn] }
                  let weeklyConnections : WeeklyConnections :=
                    { weeklyConnections with count := weeklyConnections.count + 1 }
                  let user := { user with weeklyConnections := some weeklyConnections }
                  { response := { status := 201, message := "Connection request sent" },
                    user := some user, db := db }

/-- The handler of `POST /:connectionId/respond` at clock reading `now`; `response`
is the body property, `none` when the body has none. -/
def postRespond (db : Database) (now : Time) (userId connectionId : ObjectId)
    (response : Option String) : Response × Database :=
  match findConnectionById db connectionId with
  | none => ({ status := 404, message := "Connection not found" }, db)
  | some conn =>
    if !decide (userId ∈ conn.users) then
      ({ status := 403, message := "Not authorized" }, db)
    else if conn.initiatedBy = userId then
      ({ status := 400, message := "Cannot respond to your own request" }, db)
    else if response = some "accept" then
      let conn := { conn with
        status := ConnectionStatus.active,
        evaluationPeriod := { conn.evaluationPeriod with startDate := some now } }
      ({ status := 200, message := "Connection accepted" }, saveConnection db conn)
    else
      ({ status := 200, message := "Connection rejected" },
        { db with connections := db.connections.eraseP (fun c => c._id == connectionId) })

/-- Lines 311 to 323 of the feedback handler on the loaded `connection`: the
`push` of the new entry, and the completion once there are two entries. -/
def pushFeedback (connection : Connection) (now : Time) (userId : ObjectId)
    (rating : Nat) (comment : Option String) : Connection :=
  let connection := { connection with feedback := connection.feedback ++
    [{ fromUser := userId, rating := rating, comment := comment.getD "",
       isAnonymous := true, createdAt := now }] }
  if connection.feedback.length ≥ 2 then
    { connection with
      status := ConnectionStatus.completed,
      evaluationPeriod := { connection.evaluationPeriod with endDate := some now } }
  else connection

/-- The `try` block of the handler of `POST /:connectionId/feedback` (lines
278 to 344); `comment` is the body property, `none` when the body has none. -/
def feedbackTryBlock (db : Database) (now : Time) (userId connectionId : ObjectId)
    (rating : Nat) (comment : Option String) : Response × Database :=
  match findConnectionById db connectionId with
  | none => ({ status := 404, message := "Connection not found" }, db)
  | some connection =>
    if !decide (userId ∈ connection.users) then
      ({ status := 403, message := "Not authorized to submit feedback for this connection" }, db)
    else
      match connection.feedback.find? (fun f => f.fromUser == userId) with
      | some _ =>
        ({ status := 400, message := "Feedback already submitted for this connection" }, db)
      | none =>
        ({ status := 200, message := "Feedback submitted successfully" },
          saveConnection db (pushFeedback connection now userId rating comment))

/-- The handler of `POST /:connectionId/feedback`, given whether the identifier
`mongoose` of its line 271 is bound.  That line stands before the `try`: with
the identifier unbound it throws a `ReferenceError` nothing catches, and the
handler neither answers nor writes.  An `ObjectId` passes `isValidObjectId`. -/
def feedbackHandler (mongooseBound : Bool) (db : Database) (now : Time)
    (userId connectionId : ObjectId) (rating : Nat) (comment : Option String) :
    Except String Response × Database :=
  if rating = 0 ∨ rating < 1 ∨ rating > 5 then
    (.ok { status := 400, message := "Rating must be between 1 and 5" }, db)
  else if !mongooseBound then
    (.error "ReferenceError: mongoose is not defined", db)
  else
    let r := feedbackTryBlock db now userId connectionId rating comment
    (.ok r.1, r.2)

/-- The handler of `POST /:connectionId/feedback` as `routes/connections.js` has
it: the module requires `express`, `jsonwebtoken` and the three models, and
never `mongoose`. -/
def submitFeedback (db : Database) (now : Time) (userId connectionId : ObjectId)
    (rating : Nat) (comment : Option String) : Except String Response × Database :=
  feedbackHandler false db now userId connectionId rating comment

/-- A call of one of the three connection routes. -/
inductive ConnectionOp where
  | request (userId targetUserId : ObjectId) (sharedSkill : String)
  | respond (userId connectionId : ObjectId) (response : Option String)
  | feedback (userId connectionId : ObjectId) (rating : Nat) (comment : Option String)
deriving DecidableEq, Repr

/-- The database after one call at clock reading `now`. -/
def applyConnectionOp (mongooseBound : Bool) (db : Database) (now : Time) :
    ConnectionOp → Database
  | .request userId targetUserId sharedSkill =>
    (postRequest db now userId targetUserId sharedSkill).db
  | .respond userId connectionId response =>
    (postRespond db now userId connectionId response).2
  | .feedback userId connectionId rating comment =>
    (feedbackHandler mongooseBound db now userId connectionId rating comment).2

/-- The database after a sequence of feedback submissions, each at its own clock
reading: `(now, userId, connectionId, rating)` with an empty comment. -/
def submitFeedbackAll (mongooseBound : Bool) :
    Database → List (Time × ObjectId × ObjectId × Nat) → Database
  | db, [] => db
  | db, (now, userId, connectionId, rating) :: rest =>
    submitFeedbackAll mongooseBound
      (feedbackHandler mongooseBound db now userId connectionId rating none).2 rest

/-! ## routes/message.js: the compatibility score -/

/-- The lookup `commitment[x]` in the table `{ casual: 1, regular: 2, intensive: 3 }`;
`none` is the `undefined` every other key, or an absent one, gives. -/
def commitmentLevel (timeCommitment : Option String) : Option Nat :=
  if timeCommitment = some "casual" then some 1
  else if timeCommitment = some "regular" then some 2
  else if timeCommitment = some "intensive" then some 3
  else none

/-- The first `if ... else if` of the loop body of `calculateCompatibilityScore`,
in hundredths. -/
def learningStyleCredit (userP memberP : Personality) : Nat :=
  if userP.learningStyle = memberP.learningStyle then 40
  else if (userP.learningStyle = some "visual" ∧ memberP.learningStyle = some "reading") ∨
      (userP.learningStyle = some "reading" ∧ memberP.learningStyle = some "visual") then 20
  else 0

/-- The second `if ... else if` of the loop body, in hundredths. -/
def motivationCredit (userP memberP : Personality) : Nat :=
  if userP.motivation = memberP.motivation then 35
  else if userP.motivation = some "collaborative" ∧ memberP.motivation ≠ some "competitive"
    then 15
  else 0

/-- The third `if ... else if` of the loop body, in hundredths; the difference of
two levels is a number only when both lookups are. -/
def timeCommitmentCredit (userP memberP : Personality) : Nat :=
  if userP.timeCommitment = memberP.timeCommitment then 25
  else
    match commitmentLevel userP.timeCommitment, commitmentLevel memberP.timeCommitment with
    | some a, some b => if a - b = 1 ∨ b - a = 1 then 10 else 0
    | _, _ => 0

/-- The value of `score` at the end of one pass of the loop of
`calculateCompatibilityScore`, for a member with personality `memberP`. -/
def memberScore (userP memberP : Personality) : Nat :=
  0 + learningStyleCredit userP memberP + motivationCredit userP memberP
    + timeCommitmentCredit userP memberP

/-- The function `calculateCompatibilityScore(user, pod)` of `routes/message.js`, in
hundredths; a member is the personality of its populated `userId`, `none` when
the loop skips it. -/
def calculateCompatibilityScore (userP : Personality) (members : List (Option Personality)) :
    ℚ :=
  if members.length = 0 then 100
  else
    let r := members.foldl (fun (acc : Nat × Nat) member =>
      match member with
      | none => acc
      | some memberP => (acc.1 + memberScore userP memberP, acc.2 + 1)) (0, 0)
    if r.2 > 0 then (r.1 : ℚ) / (r.2 : ℚ) else 100

/-! ## routes/connections.js: the score of `GET /discover` -/

/-- An entry of `scored` in `GET /discover`, without the display name and the
`matchStrength` label; `compatibilityScore` is `Math.round(score * 100)`, the
score in hundredths. -/
structure ScoredCandidate where
  id : ObjectId
  progressPoints : Nat
  sharedSkills : List String
  compatibilityScore : Nat
deriving DecidableEq, Repr

/-- The callback of `potentialConnections.map` in `GET /discover` (lines 101 to
121) for the caller `user` and the candidate `p`. -/
def scoreCandidate (user p : User) : ScoredCandidate :=
  let sharedSkills := user.selectedSkills.filter (fun skill => decide (skill ∈ p.selectedSkills))
  let score := 0
  let score := if user.personality.learningStyle = p.personality.learningStyle
    then score + 40 else score
  let score := if user.personality.motivation = p.personality.motivation
    then score + 35 else score
  let score := if user.personality.timeCommitment = p.personality.timeCommitment
    then score + 25 else score
  let skillBonus := min (sharedSkills.length * 10) 30
  let score := score + skillBonus
  { id := p._id, progressPoints := p.progressPoints, sharedSkills := sharedSkills,
    compatibilityScore := score }

/-- The list `scored` of `GET /discover` (lines 101 to 124): the entries above
0.3, by descending score, the first five. -/
def rankCandidates (user : User) (potentialConnections : List User) : List ScoredCandidate :=
  (((potentialConnections.map (scoreCandidate user)).filter
      (fun c => decide (c.compatibilityScore > 30))).insertionSort
      (fun a b => a.compatibilityScore ≥ b.compatibilityScore)).take 5

/-! ## utils/generateAnonymousName.js -/

/-- The array `adjectives`. -/
def adjectives : List String :=
  ["Sky", "Ocean", "Star", "Moon", "Sun", "Cloud", "Dream", "Fire", "Wind", "Stone", "Shiny",
    "Bold"]

/-- The array `nouns`. -/
def nouns : List String :=
  ["Walker", "Seeker", "Rider", "Hunter", "Thinker", "Flier", "Coder", "Builder", "Creator",
    "Explorer"]

/-- The function `getRandomElement(arr)` for the value `r` that `Math.random()`
returns; an index outside the array gives `undefined`, which the template
literal prints. -/
def getRandomElement (arr : List String) (r : ℚ) : String :=
  arr.getD ⌊r * (arr.length : ℚ)⌋₊ "undefined"

/-- The name drawn in the pass of the loop that starts with `attempts = k`; `rand i`
is the value of the `i`-th call of `Math.random()`, three calls a pass. -/
def drawName (rand : Nat → ℚ) (k : Nat) : String :=
  getRandomElement adjectives (rand (3 * k)) ++ getRandomElement nouns (rand (3 * k + 1))
    ++ "_" ++ toString ⌊100 + rand (3 * k + 2) * 900⌋₊

/-- The `do ... while` loop of `generateAnonymousName` entered with the given value
of `attempts`: the name it leaves in `name` and the final value of `attempts`.
`existingNames` is the set as a list, `has` being membership. -/
def generateLoop (rand : Nat → ℚ) (existingNames : List String) (attempts : Nat) :
    String × Nat :=
  let name := drawName rand attempts
  let attempts' := attempts + 1
  if attempts' > 50 then (name, attempts')
  else if name ∈ existingNames then generateLoop rand existingNames attempts'
  else (name, attempts')
termination_by 51 - attempts
decreasing_by
  simp_wf
  omega

/-- The function `generateAnonymousName(existingNames)`. -/
def generateAnonymousName (rand : Nat → ℚ) (existingNames : List String) : String :=
  (generateLoop rand existingNames 0).1

/-! ## podUtils.js: the two phases of a join -/

/-- A call of `assignUserToPod` that has run its queries and its loop (lines 23
to 63) and not yet its writes: the loaded user and the loop's `bestMatch` and
`bestScore`. -/
structure PendingJoin where
  user : User
  bestMatch : Option Pod
  bestScore : Nat
deriving DecidableEq, Repr

/-- Lines 23 to 63 of `assignUserToPod` on the store as it is when they run; `none`
when the call ends there, by the early return or by throwing. -/
def assignQuery (st : Store) (userId : ObjectId) : Option PendingJoin :=
  match findUserById st userId with
  | none => none
  | some user =>
    match findPodByMember st userId with
    | some _ => none
    | none =>
      match findBestMatch userId user.personality
        (findCandidatePods st user.selectedSkills.head?) with
      | .error _ => none
      | .ok best => some { user := user, bestMatch := best.1, bestScore := best.2 }

/-- Lines 65 to 96 of `assignUserToPod` on the store as it is when they run, for
the `bestMatch` the earlier lines chose. -/
def assignWrite (st : Store) (userId : ObjectId) (pending : PendingJoin) :
    Except String (AssignResult × Store) :=
  match pending.bestMatch with
  | some bestMatch =>
    match findPodByIdAndAddMember st.pods bestMatch._id userId with
    | (_, none) => .error "Cannot read properties of null"
    | (pods', some pod) =>
      let st' := saveUser { st with pods := pods' }
        { pending.user with currentPod := some pod._id }
      .ok ({ success := true, pod := pod, message := none,
             isNew := false, matchScore := some (some pending.bestScore) }, st')
  | none =>
    match pending.user.selectedSkills.head? with
    | none => .error "Pod validation failed: skill is required"
    | some skill =>
      if skill = "" then .error "Pod validation failed: skill is required"
      else
        let pod : Pod :=
          { _id := freshPodId st.pods, skill := skill,
            personalitySummary := minimize pending.user.personality, members := [userId] }
        let st' := saveUser { st with pods := st.pods ++ [pod] }
          { pending.user with currentPod := some pod._id }
        .ok ({ success := true, pod := pod, message := none,
               isNew := true, matchScore := some none }, st')

/-- A step of a run of concurrent joins: the queries of the call for a user, or
the writes of that call. -/
inductive JoinEvent where
  | query (userId : ObjectId)
  | write (userId : ObjectId)
deriving DecidableEq, Repr

/-- The store and the calls between their queries and their writes, after a
sequence of steps.  A write step of a call that is not pending does nothing; a
call that throws in its writes leaves the store as it was. -/
def runJoinEvents : Store × List (ObjectId × PendingJoin) → List JoinEvent →
    Store × List (ObjectId × PendingJoin)
  | state, [] => state
  | (st, pending), JoinEvent.query userId :: rest =>
    match assignQuery st userId with
    | some p => runJoinEvents (st, pending ++ [(userId, p)]) rest
    | none => runJoinEvents (st, pending) rest
  | (st, pending), JoinEvent.write userId :: rest =>
    match pending.find? (fun q => q.1 == userId) with
    | none => runJoinEvents (st, pending) rest
    | some q =>
      let pending' := pending.eraseP (fun q => q.1 == userId)
      match assignWrite st userId q.2 with
      | .ok (_, st') => runJoinEvents (st', pending') rest
      | .error _ => runJoinEvents (st, pending') rest

/-! ## models/Message.js and routes/pods.js -/

/-- A document of `models/Message.js`: `content` is stored trimmed, `createdAt`
is the timestamp of the save. -/
structure Message where
  _id : ObjectId
  podId : ObjectId
  userId : ObjectId
  content : String
  type : String
  isDeleted : Bool := false
  createdAt : Time
deriving DecidableEq, Repr

/-- The three collections of the store, and the messages. -/
structure World extends Database where
  messages : List Message := []
deriving DecidableEq, Repr

/-- Whether an optional string is truthy: present and not empty. -/
def truthy (s : Option String) : Bool :=
  match s with
  | none => false
  | some s => s != ""

/-- The helper `ensureAnonymousName(userId, pod)` of `routes/pods.js`, with the
random source of the generator: the name it returns and the store afterwards. -/
def ensureAnonymousName (st : Store) (rand : Nat → ℚ) (userId : ObjectId)
    (pod : Option Pod) : Except String (Option String × Store) :=
  match findUserById st userId with
  | none => .error "User not found"
  | some user =>
    if !truthy user.anonymousName then
      let existingNames : List String :=
        match pod with
        | none => []
        | some pod =>
          (st.users.filter (fun u => decide (u._id ∈ pod.members))).filterMap
            (fun u => if truthy u.anonymousName then u.anonymousName else none)
      let name := generateAnonymousName rand existingNames
      .ok (some name, saveUser st { user with anonymousName := some name })
    else .ok (user.anonymousName, st)

/-- The setter `trim: true` of the path `content`: the string without its
leading and trailing whitespace (space, tab, carriage return, line feed). -/
def trimContent (content : String) : String :=
  String.mk ((content.data.dropWhile Char.isWhitespace).reverse.dropWhile
    Char.isWhitespace).reverse

/-- The array `validTypes` of the message route. -/
def validTypes : List String :=
  ["text", "resource", "feedback", "reaction", "checkin", "milestone", "progress"]

/-- The `_id` a new message receives: one no stored message carries. -/
def freshMessageId (messages : List Message) : ObjectId :=
  messages.foldl (fun m c => max m c._id) 0 + 1

/-- The update `Pod.findByIdAndUpdate(podId, \x7b 'analytics.lastActivity': new Date() \x7d)`. -/
def touchPod : List Pod → ObjectId → Time → List Pod
  | [], _, _ => []
  | p :: ps, podId, now =>
    if p._id = podId then { p with lastActivity := some now } :: ps
    else p :: touchPod ps podId now

/-- The second participation update of the message route (lines 306 to 318)
on the loaded document, up to `save`. -/
def participationUpdate (messageType : String) (user : User) : User :=
  let user := if user.podParticipation.isNone then
      { user with podParticipation := some { messagesCount := 0, resourcesShared := 0 } }
    else user
  let user := if messageType ∈ ["text", "progress", "feedback", "checkin", "milestone"] then
      { user with podParticipation := user.podParticipation.map (fun pp =>
          { pp with messagesCount := pp.messagesCount + 1 }) }
    else user
  if messageType = "resource" then
    { user with podParticipation := user.podParticipation.map (fun pp =>
        { pp with resourcesShared := pp.resourcesShared + 1 }) }
  else user

/-- The handler of `POST /:podId/messages` at clock reading `now`, for the caller
`userId` and the body `content`, `type` (`content` is `""` when the body has
none, `type` is `none` when the body has none).  An exception inside `try` is
the response 500: the missing user of `ensureAnonymousName`, and the
validation error of `message.save()` for a content that trims to nothing.  The
two updates after the save swallow their exceptions. -/
def postMessage (w : World) (now : Time) (rand : Nat → ℚ) (userId podId : ObjectId)
    (content : String) (type : Option String) : Response × World :=
  if content = "" then ({ status := 400, message := "Content is required" }, w)
  else
    match w.pods.find? (fun p => p._id == podId) with
    | none => ({ status := 404, message := "Pod not found" }, w)
    | some pod =>
      if !decide (userId ∈ pod.members) then
        ({ status := 403, message := "Access denied: Not a member of this pod" }, w)
      else
        match ensureAnonymousName w.toStore rand userId (some pod) with
        | .error _ => ({ status := 500, message := "Failed to create message" }, w)
        | .ok (_, st) =>
          let messageType :=
            match type with
            | some t => if t ≠ "" ∧ t ∈ validTypes then t else "text"
            | none => "text"
          if trimContent content = "" then
            ({ status := 500, message := "Failed to create message" },
              { w with users := st.users, pods := st.pods })
          else
            let message : Message :=
              { _id := freshMessageId w.messages, podId := podId, userId := userId,
                content := trimContent content, type := messageType, createdAt := now }
            let st : Store := { st with pods := touchPod st.pods podId now }
            let st := (updateUserProgress st now userId messageType).2
            let st :=
              match findUserById st userId with
              | none => st
              | some user => saveUser st (participationUpdate messageType user)
            ({ status := 201, message := "Message sent successfully" },
              { w with users := st.users, pods := st.pods,
                       messages := w.messages ++ [message] })

/-- The handler of `POST /:podId/feedback` at clock reading `now`, for the caller
`userId` and the body `toUserId`, `feedback` (`none` and `""` when the body has
none). -/
def postPodFeedback (st : Store) (now : Time) (userId podId : ObjectId)
    (toUserId : Option ObjectId) (feedback : String) : Response × Store :=
  match toUserId with
  | none => ({ status := 400, message := "Recipient and feedback message are required." }, st)
  | some toUserId =>
    if feedback = "" then
      ({ status := 400, message := "Recipient and feedback message are required." }, st)
    else
      match st.pods.find? (fun p => p._id == podId) with
      | none => ({ status := 404, message := "Pod not found." }, st)
      | some pod =>
        if !decide (userId ∈ pod.members) then
          ({ status := 403, message := "You are not a member of this pod." }, st)
        else if !decide (toUserId ∈ pod.members) then
          ({ status := 403, message := "Recipient is not a member of this pod." }, st)
        else
          match findUserById st toUserId with
          | none => ({ status := 404, message := "Recipient user not found." }, st)
          | some recipient =>
            let recipient := { recipient with
              feedbackReceived := recipient.feedbackReceived + 1,
              feedbackHistory := recipient.feedbackHistory ++
                [{ fromUserId := userId, feedbackMessage := feedback, timestamp := now }] }
            let st := saveUser st recipient
            let st := (updateUserProgress st now userId "feedback").2
            let st := (updateUserProgress st now toUserId "feedback").2
            ({ status := 200, message := "Feedback given successfully." }, st)

/-! ## routes/connections.js: unlock, and the scheduled reset of server.js -/

/-- The handler of `POST /unlock` for the caller `userId`. -/
def postUnlock (st : Store) (userId : ObjectId) : Response × Store :=
  match findUserById st userId with
  | none => ({ status := 404, message := "User not found" }, st)
  | some user =>
    match checkConnectionEligibility st user._id with
    | .error _ => ({ status := 500, message := "Error unlocking 1:1 connection" }, st)
    | .ok eligibility =>
      if !eligibility.eligible then
        ({ status := 403, message := "Not eligible to unlock connection" }, st)
      else
        ({ status := 200, message := "1:1 connection unlocked successfully" },
          saveUser st { user with connectionUnlocked := true })

/-- The job `cron.schedule` of `server.js` runs, at clock reading `now`: every
stored user document gets zero weekly counters and a new `nextWeeklyReset`, and
is saved.  The property `weeklyConnectionsLeft` it also sets is no path of the
schema and is not saved. -/
def weeklyProgressReset (st : Store) (now : Time) : Store :=
  { st with users := st.users.map (fun user =>
      { user with progress := { messages := 0, resources := 0, points := 0 },
                  nextWeeklyReset := now + sevenDays }) }

/-- A call of one of the operations that write user documents or connections. -/
inductive EngineOp where
  | updateProgress (userId : ObjectId) (type : String)
  | sendMessage (rand : Nat → ℚ) (userId podId : ObjectId) (content : String)
      (type : Option String)
  | podFeedback (userId podId : ObjectId) (toUserId : Option ObjectId) (feedback : String)
  | bulkReset
  | connection (op : ConnectionOp)
  | unlock (userId : ObjectId)

/-- The world after one operation at clock reading `now`. -/
def applyEngineOp (mongooseBound : Bool) (w : World) (now : Time) : EngineOp → World
  | .updateProgress userId type =>
    let st := (updateUserProgress w.toStore now userId type).2
    { w with users := st.users, pods := st.pods }
  | .sendMessage rand userId podId content type =>
    (postMessage w now rand userId podId content type).2
  | .podFeedback userId podId toUserId feedback =>
    let st := (postPodFeedback w.toStore now userId podId toUserId feedback).2
    { w with users := st.users, pods := st.pods }
  | .bulkReset =>
    let st := weeklyProgressReset w.toStore now
    { w with users := st.users, pods := st.pods }
  | .connection op =>
    let db := applyConnectionOp mongooseBound w.toDatabase now op
    { w with users := db.users, pods := db.pods, connections := db.connections }
  | .unlock userId =>
    let st := (postUnlock w.toStore userId).2
    { w with users := st.users, pods := st.pods }

/-- The world after a sequence of operations, each at its own clock reading. -/
def runEngine (mongooseBound : Bool) : World → List (Time × EngineOp) → World
  | w, [] => w
  | w, (now, op) :: rest => runEngine mongooseBound (applyEngineOp mongooseBound w now op) rest

/-- The stored `progressPoints` of the user with the given `_id`, if there is one. -/
def pointsOf (st : Store) (id : ObjectId) : Option Nat :=
  (findUserById st id).map (fun user => user.progressPoints)

/-! ## The weights of `personalityMatchScore` as doubles -/

/-- The double written `0.4`, as an exact rational: `0x1999999999999A / 2^54`. -/
def double040 : ℚ := 7205759403792794 / 18014398509481984

/-- The double written `0.35`, as an exact rational: `0x16666666666666 / 2^54`. -/
def double035 : ℚ := 6305039478318694 / 18014398509481984

/-- The double written `0.25`, as an exact rational. -/
def double025 : ℚ := 1 / 4

/-- The sum of the doubles `0.35` and `0.25`, the double written `0.6`. -/
def double060 : ℚ := 5404319552844595 / 9007199254740992

/-- The sum of the doubles `0.4` and `0.25`, the double written `0.65`. -/
def double065 : ℚ := 5854679515581645 / 9007199254740992

/-! ## Sequences of calls and sample stores -/

/-- Sequential calls `assignUserToPod(u)` for the ids of a list, in order; a call
that throws leaves the store as it was. -/
def assignAll : Store → List ObjectId → Store
  | st, [] => st
  | st, userId :: rest =>
    match assignUserToPod st userId with
    | .ok (_, st') => assignAll st' rest
    | .error _ => assignAll st rest

/-- A profile used by the sample stores. -/
def visualProfile : Personality :=
  { learningStyle := some "visual", motivation := some "collaborative",
    timeCommitment := some "regular" }

/-- A guitar learner with the sample profile, in no pod. -/
def guitarUser : User :=
  { _id := 1, selectedSkills := ["Guitar"], personality := visualProfile }

/-- A store with one user and one open guitar pod of the same profile. -/
def guitarStore : Store :=
  { users := [guitarUser],
    pods := [{ _id := 10, skill := "Guitar", members := [2],
               personalitySummary := some visualProfile }] }

/-- A store whose only pod lists its member twice, as data written before
`$addToSet` was used can (the case `cleanDuplicateMembers` repairs). -/
def duplicateStore : Store :=
  { users := [{ _id := 1, selectedSkills := ["Guitar"], currentPod := some 10 }],
    pods := [{ _id := 10, skill := "Guitar", members := [1, 1] }] }

/-- A store in which the pod lists the user, but the user document has no
`currentPod`. -/
def staleStore : Store :=
  { users := [{ _id := 1, selectedSkills := ["Guitar"], currentPod := none }],
    pods := [{ _id := 10, skill := "Guitar", members := [1] }] }

/-- A store whose only guitar pod is inactive. -/
def inactiveStore : Store :=
  { users := [guitarUser],
    pods := [{ _id := 10, skill := "Guitar", members := [2],
               personalitySummary := some visualProfile, isActive := false }] }

/-- A store whose only user has the empty string as the one selected skill, which
the check `!selectedSkills.length` of the registration lets through; there is
no pod. -/
def blankSkillStore : Store :=
  { users := [{ _id := 1, selectedSkills := [""], personality := visualProfile }] }

/-- A store with `guitarUser` and two open guitar pods: pod 10, stored without
`personalitySummary`, and after it pod 11 with the profile of the user. -/
def summarylessStore : Store :=
  { users := [guitarUser],
    pods := [{ _id := 10, skill := "Guitar", members := [2] },
             { _id := 11, skill := "Guitar", members := [3],
               personalitySummary := some visualProfile }] }

/-- A user in the middle of a week: the reset is due at time `1000`. -/
def activeUser : User :=
  { _id := 1, selectedSkills := ["Guitar"], nextWeeklyReset := 1000,
    progress := { messages := 3, resources := 1, points := 7 },
    podParticipation := some { messagesCount := 10, resourcesShared := 2 } }

/-- A store holding `activeUser` only. -/
def progressStore : Store :=
  { users := [activeUser] }

/-- A user who meets the three thresholds exactly. -/
def eligibleUser : User :=
  { _id := 1, selectedSkills := ["Guitar"], progressPoints := 10,
    podParticipation := some { messagesCount := 5, resourcesShared := 1 } }

/-- A database with `eligibleUser` and two more guitar learners, and no
connection. -/
def peersDb : Database :=
  { users := [eligibleUser, { _id := 2, selectedSkills := ["Guitar"] },
              { _id := 3, selectedSkills := ["Guitar"] }] }

/-- The database `peersDb` after user 1 asked user 2 (at time 100) and user 2
accepted (at time 200): one active connection. -/
def activeDb : Database :=
  (postRespond (postRequest peersDb 100 1 2 "Guitar").db 200 2 1 (some "accept")).2

/-- The database `activeDb` with the feedback of user 1 on connection 1 stored (at
time 300, rating 5), as the `try` block of the feedback handler stores it. -/
def reviewedDb : Database :=
  (feedbackTryBlock activeDb 300 1 1 5 none).2

/-- A profile that differs from `visualProfile` in the learning style only. -/
def readingProfile : Personality :=
  { learningStyle := some "reading", motivation := some "collaborative",
    timeCommitment := some "regular" }

/-- A store with two guitar learners of the sample profile in no pod, and one
guitar pod of that profile with five members. -/
def raceStore : Store :=
  { users := [guitarUser, { guitarUser with _id := 2 }],
    pods := [{ _id := 10, skill := "Guitar", members := [11, 12, 13, 14, 15],
               personalitySummary := some visualProfile }] }

/-- A member of pod 10 with a name, no activity yet, and a weekly reset due at
clock reading 1000. -/
def chatUser : User :=
  { _id := 1, selectedSkills := ["Guitar"], personality := visualProfile,
    currentPod := some 10, nextWeeklyReset := 1000, anonymousName := some "SkyWalker_100" }

/-- A world with the pod 10 of `chatUser` and of a second member, user 2. -/
def chatWorld : World :=
  { users := [chatUser, { chatUser with _id := 2, anonymousName := some "MoonRider_200" }],
    pods := [{ _id := 10, skill := "Guitar", members := [1, 2],
               personalitySummary := some visualProfile }] }

/-! ## Auxiliary facts about the store operations -/

theorem findPodByMember_none {st : Store} {userId : ObjectId}
    (h : findPodByMember st userId = none) : ∀ p ∈ st.pods, userId ∉ p.members := by
  intro p hp
  have := List.find?_eq_none.mp h p hp
  simpa using this

theorem findUserById_id {st : Store} {userId : ObjectId} {user : User}
    (h : findUserById st userId = some user) : user._id = userId := by
  have := List.find?_some h
  simpa using this

theorem saveUser_pods (st : Store) (user : User) : (saveUser st user).pods = st.pods := rfl

theorem findUserById_saveUser {st : Store} {userId : ObjectId} {user user' : User}
    (h : findUserById st userId = some user) (hid : user'._id = user._id) :
    findUserById (saveUser st user') userId = some user' := by
  have hu := findUserById_id h
  unfold findUserById saveUser at *
  simp only
  generalize st.users = us at h
  induction us with
  | nil => simp at h
  | cons v vs ih =>
    simp only [List.find?_cons, List.map_cons] at h ⊢
    by_cases hv : v._id = userId
    · simp [hv, hid, hu]
    · have hv' : (v._id == userId) = false := by simpa using hv
      rw [hv'] at h
      have hne : v._id ≠ user'._id := by rw [hid, hu]; exact hv
      simp only [hne, if_false, hv']
      exact ih h

theorem findCandidatePods_mem {st : Store} {skill : Option String} {p : Pod}
    (h : p ∈ findCandidatePods st skill) :
    p ∈ st.pods ∧ some p.skill = skill ∧ p.members.length < 6 := by
  unfold findCandidatePods at h
  simpa [List.mem_filter, and_assoc] using h

theorem any_member_false {members : List ObjectId} {userId : ObjectId}
    (h : userId ∉ members) : members.any (fun m => m == userId) = false := by
  rw [Bool.eq_false_iff]
  intro hc
  obtain ⟨m, hm, hmu⟩ := List.any_eq_true.mp hc
  have : m = userId := by simpa using hmu
  exact h (this ▸ hm)

/-- One iteration on a pod that does not list the user and has a stored summary. -/
theorem bestMatchStep_summary {userId : ObjectId} {personality : Personality}
    (acc : Option Pod × Nat) {pod : Pod} {podP : Personality}
    (hp : userId ∉ pod.members) (hsum : pod.personalitySummary = some podP) :
    bestMatchStep userId personality acc pod
      = if personalityMatchScore personality podP > acc.2
        then .ok (some pod, personalityMatchScore personality podP) else .ok acc := by
  unfold bestMatchStep
  rw [any_member_false hp, hsum]
  rfl

/-- One iteration on a pod that does not list the user and has no stored summary. -/
theorem bestMatchStep_no_summary {userId : ObjectId} {personality : Personality}
    (acc : Option Pod × Nat) {pod : Pod}
    (hp : userId ∉ pod.members) (hsum : pod.personalitySummary = none) :
    bestMatchStep userId personality acc pod = .error "Cannot read properties of undefined" := by
  unfold bestMatchStep
  rw [any_member_false hp, hsum]
  rfl

/-- The selection loop on candidates none of which lists the user.  If a
candidate has no stored summary the loop throws.  Otherwise either the
accumulator is untouched and no candidate beats the running score, or the result
is the first candidate whose score is maximal, and that score beats the start. -/
theorem bestMatchLoop_spec (userId : ObjectId) (personality : Personality) :
    ∀ (cands : List Pod) (b : Option Pod) (s : Nat),
      (∀ p ∈ cands, userId ∉ p.members) →
      ((∃ p ∈ cands, p.personalitySummary = none) ∧
        ∃ e, bestMatchLoop userId personality cands (b, s) = .error e) ∨
      ((∀ p ∈ cands, p.personalitySummary ≠ none) ∧
        ((bestMatchLoop userId personality cands (b, s) = .ok (b, s) ∧
            ∀ p ∈ cands, ∀ q, p.personalitySummary = some q →
              personalityMatchScore personality q ≤ s) ∨
          ∃ pre c cP post, cands = pre ++ c :: post ∧ c.personalitySummary = some cP ∧
            bestMatchLoop userId personality cands (b, s)
              = .ok (some c, personalityMatchScore personality cP) ∧
            s < personalityMatchScore personality cP ∧
            (∀ p ∈ pre, ∀ q, p.personalitySummary = some q →
              personalityMatchScore personality q < personalityMatchScore personality cP) ∧
            (∀ p ∈ post, ∀ q, p.personalitySummary = some q →
              personalityMatchScore personality q ≤ personalityMatchScore personality cP))) := by
  intro cands
  induction cands with
  | nil =>
    intro b s _
    right
    exact ⟨by simp, Or.inl ⟨rfl, by simp⟩⟩
  | cons p ps ih =>
    intro b s hmem
    have hp : userId ∉ p.members := hmem p (List.mem_cons_self _ _)
    have hps : ∀ q ∈ ps, userId ∉ q.members := fun q hq => hmem q (List.mem_cons_of_mem _ hq)
    cases hsum : p.personalitySummary with
    | none =>
      left
      refine ⟨⟨p, List.mem_cons_self _ _, hsum⟩, "Cannot read properties of undefined", ?_⟩
      rw [bestMatchLoop, bestMatchStep_no_summary (b, s) hp hsum]
    | some pP =>
      have hall : ∀ {qs : List Pod}, (∀ q ∈ qs, q.personalitySummary ≠ none) →
          ∀ q ∈ p :: qs, q.personalitySummary ≠ none := by
        intro qs hqs q hq
        rcases List.mem_cons.mp hq with rfl | hq
        · rw [hsum]; exact Option.some_ne_none _
        · exact hqs q hq
      by_cases hgt : personalityMatchScore personality pP > s
      · have hloop : bestMatchLoop userId personality (p :: ps) (b, s)
            = bestMatchLoop userId personality ps
                (some p, personalityMatchScore personality pP) := by
          rw [bestMatchLoop, bestMatchStep_summary (b, s) hp hsum, if_pos hgt]
        rcases ih (some p) (personalityMatchScore personality pP) hps with
          ⟨⟨q, hq, hqn⟩, e, he⟩ |
          ⟨hsome, ⟨heq, hle⟩ | ⟨pre, c, cP, post, hsplit, hcP, heq, hlt, hpre, hpost⟩⟩
        · left
          exact ⟨⟨q, List.mem_cons_of_mem _ hq, hqn⟩, e, by rw [hloop]; exact he⟩
        · right
          refine ⟨hall hsome, Or.inr ⟨[], p, pP, ps, rfl, hsum, by rw [hloop]; exact heq, hgt,
            by simp, hle⟩⟩
        · right
          refine ⟨hall hsome, Or.inr ⟨p :: pre, c, cP, post, by simp [hsplit], hcP,
            by rw [hloop]; exact heq, lt_trans hgt hlt, ?_, hpost⟩⟩
          intro q hq q' hq'
          rcases List.mem_cons.mp hq with rfl | hq
          · rw [hsum] at hq'
            cases hq'
            exact hlt
          · exact hpre q hq q' hq'
      · have hloop : bestMatchLoop userId personality (p :: ps) (b, s)
            = bestMatchLoop userId personality ps (b, s) := by
          rw [bestMatchLoop, bestMatchStep_summary (b, s) hp hsum, if_neg hgt]
        rcases ih b s hps with
          ⟨⟨q, hq, hqn⟩, e, he⟩ |
          ⟨hsome, ⟨heq, hle⟩ | ⟨pre, c, cP, post, hsplit, hcP, heq, hlt, hpre, hpost⟩⟩
        · left
          exact ⟨⟨q, List.mem_cons_of_mem _ hq, hqn⟩, e, by rw [hloop]; exact he⟩
        · right
          refine ⟨hall hsome, Or.inl ⟨by rw [hloop]; exact heq, ?_⟩⟩
          intro q hq q' hq'
          rcases List.mem_cons.mp hq with rfl | hq
          · rw [hsum] at hq'
            cases hq'
            exact Nat.le_of_not_gt hgt
          · exact hle q hq q' hq'
        · right
          refine ⟨hall hsome, Or.inr ⟨p :: pre, c, cP, post, by simp [hsplit], hcP,
            by rw [hloop]; exact heq, hlt, ?_, hpost⟩⟩
          intro q hq q' hq'
          rcases List.mem_cons.mp hq with rfl | hq
          · rw [hsum] at hq'
            cases hq'
            exact lt_of_le_of_lt (Nat.le_of_not_gt hgt) hlt
          · exact hpre q hq q' hq'

/-- What `findByIdAndUpdate` does to the collection: the first pod with the id is
replaced by its update, which is also the returned document. -/
theorem findPodByIdAndAddMember_some {id userId : ObjectId} :
    ∀ {pods pods' : List Pod} {pod : Pod},
      findPodByIdAndAddMember pods id userId = (pods', some pod) →
      ∃ pre p post, pods = pre ++ p :: post ∧ pods' = pre ++ pod :: post ∧
        p._id = id ∧ (∀ q ∈ pre, q._id ≠ id) ∧
        pod = { p with members := addToSet p.members userId } := by
  intro pods
  induction pods with
  | nil => intro pods' pod h; simp [findPodByIdAndAddMember] at h
  | cons q qs ih =>
    intro pods' pod h
    by_cases hq : q._id = id
    · subst hq
      simp only [findPodByIdAndAddMember, if_true, Prod.mk.injEq, Option.some.injEq] at h
      exact ⟨[], q, qs, rfl, by simp [← h.1, h.2], rfl, by simp, h.2.symm⟩
    · simp only [findPodByIdAndAddMember, hq, if_false, Prod.mk.injEq] at h
      obtain ⟨h1, h2⟩ := h
      have h' : findPodByIdAndAddMember qs id userId
          = ((findPodByIdAndAddMember qs id userId).1, some pod) := by rw [← h2]
      obtain ⟨pre, p, post, hsplit, hsplit', hid, hpre, hpod⟩ := ih h'
      refine ⟨q :: pre, p, post, by simp [hsplit], by simp [← h1, hsplit'], hid, ?_, hpod⟩
      intro r hr
      rcases List.mem_cons.mp hr with rfl | hr
      · exact hq
      · exact hpre r hr

theorem findPodByIdAndAddMember_found {id userId : ObjectId} :
    ∀ {pods : List Pod}, (∃ p ∈ pods, p._id = id) →
      ∃ pod, (findPodByIdAndAddMember pods id userId).2 = some pod := by
  intro pods
  induction pods with
  | nil => intro h; simp at h
  | cons q qs ih =>
    intro h
    by_cases hq : q._id = id
    · exact ⟨{ q with members := addToSet q.members userId },
        by simp [findPodByIdAndAddMember, hq]⟩
    · obtain ⟨p, hp, hpid⟩ := h
      rcases List.mem_cons.mp hp with rfl | hp
      · exact absurd hpid hq
      · obtain ⟨pod, hpod⟩ := ih ⟨p, hp, hpid⟩
        exact ⟨pod, by simp [findPodByIdAndAddMember, hq, hpod]⟩

theorem le_foldl_max_id (pods : List Pod) :
    ∀ (m : Nat), m ≤ pods.foldl (fun m p => max m p._id) m ∧
      ∀ p ∈ pods, p._id ≤ pods.foldl (fun m p => max m p._id) m := by
  induction pods with
  | nil => intro m; simp
  | cons q qs ih =>
    intro m
    simp only [List.foldl_cons]
    obtain ⟨h1, h2⟩ := ih (max m q._id)
    refine ⟨le_trans (le_max_left _ _) h1, ?_⟩
    intro p hp
    rcases List.mem_cons.mp hp with rfl | hp
    · exact le_trans (le_max_right _ _) h1
    · exact h2 p hp

theorem freshPodId_fresh (pods : List Pod) : ∀ p ∈ pods, p._id ≠ freshPodId pods := by
  intro p hp
  have h := (le_foldl_max_id pods 0).2 p hp
  unfold freshPodId
  exact Nat.ne_of_lt (Nat.lt_succ_of_le h)

/-- The three ways in which `assignUserToPod` returns. -/
theorem assignUserToPod_ok {st st' : Store} {userId : ObjectId} {r : AssignResult}
    (h : assignUserToPod st userId = .ok (r, st')) :
    ∃ user, findUserById st userId = some user ∧
      ((∃ existingPod, findPodByMember st userId = some existingPod ∧ st' = st ∧
          r = { success := true, pod := existingPod, message := some "User already in a pod",
                isNew := false, matchScore := none }) ∨
       (findPodByMember st userId = none ∧ ∃ bestMatch bestScore pods' pod,
          findBestMatch userId user.personality
            (findCandidatePods st user.selectedSkills.head?) = .ok (some bestMatch, bestScore) ∧
          findPodByIdAndAddMember st.pods bestMatch._id userId = (pods', some pod) ∧
          st' = saveUser { st with pods := pods' } { user with currentPod := some pod._id } ∧
          r = { success := true, pod := pod, message := none, isNew := false,
                matchScore := some (some bestScore) }) ∨
       (findPodByMember st userId = none ∧
          (∃ bestScore, findBestMatch userId user.personality
            (findCandidatePods st user.selectedSkills.head?) = .ok (none, bestScore)) ∧
          ∃ skill, user.selectedSkills.head? = some skill ∧ skill ≠ "" ∧
            st' = saveUser { st with pods := st.pods ++
                [{ _id := freshPodId st.pods, skill := skill,
                   personalitySummary := minimize user.personality, members := [userId] }] }
              { user with currentPod := some (freshPodId st.pods) } ∧
            r = { success := true,
                  pod := { _id := freshPodId st.pods, skill := skill,
                           personalitySummary := minimize user.personality,
                           members := [userId] },
                  message := none, isNew := true, matchScore := some none })) := by
  unfold assignUserToPod at h
  split at h
  · simp at h
  · rename_i user huser
    refine ⟨user, huser, ?_⟩
    split at h
    · rename_i existingPod hex
      left
      simp only [Except.ok.injEq, Prod.mk.injEq] at h
      exact ⟨existingPod, hex, h.2.symm, h.1.symm⟩
    · rename_i hnone
      right
      simp only at h
      split at h
      · simp at h
      · rename_i bestMatch bestScore hbest
        left
        split at h
        · simp at h
        · rename_i pods' pod hupd
          simp only [Except.ok.injEq, Prod.mk.injEq] at h
          exact ⟨hnone, bestMatch, bestScore, pods', pod, hbest, hupd, h.2.symm, h.1.symm⟩
      · rename_i bestScore hbest
        right
        split at h
        · simp at h
        · rename_i skill hskill
          split at h
          · simp at h
          · rename_i hne
            simp only [Except.ok.injEq, Prod.mk.injEq] at h
            exact ⟨hnone, ⟨bestScore, hbest⟩, skill, hskill, hne, h.2.symm, h.1.symm⟩

theorem assignUserToPod_existing {st : Store} {userId : ObjectId} {user : User} {existingPod : Pod}
    (huser : findUserById st userId = some user)
    (hex : findPodByMember st userId = some existingPod) :
    assignUserToPod st userId
      = .ok ({ success := true, pod := existingPod, message := some "User already in a pod",
               isNew := false, matchScore := none }, st) := by
  simp [assignUserToPod, huser, hex]

theorem assignUserToPod_join {st : Store} {userId : ObjectId} {user : User}
    {bestMatch pod : Pod} {bestScore : Nat} {pods' : List Pod}
    (huser : findUserById st userId = some user)
    (hnone : findPodByMember st userId = none)
    (hbest : findBestMatch userId user.personality
      (findCandidatePods st user.selectedSkills.head?) = .ok (some bestMatch, bestScore))
    (hupd : findPodByIdAndAddMember st.pods bestMatch._id userId = (pods', some pod)) :
    assignUserToPod st userId
      = .ok ({ success := true, pod := pod, message := none, isNew := false,
               matchScore := some (some bestScore) },
             saveUser { st with pods := pods' } { user with currentPod := some pod._id }) := by
  simp [assignUserToPod, huser, hnone, hbest, hupd]

theorem assignUserToPod_create {st : Store} {userId : ObjectId} {user : User} {skill : String}
    {bestScore : Nat}
    (huser : findUserById st userId = some user)
    (hnone : findPodByMember st userId = none)
    (hbest : findBestMatch userId user.personality
      (findCandidatePods st user.selectedSkills.head?) = .ok (none, bestScore))
    (hskill : user.selectedSkills.head? = some skill) (hne : skill ≠ "") :
    assignUserToPod st userId
      = .ok ({ success := true,
               pod := { _id := freshPodId st.pods, skill := skill,
                        personalitySummary := minimize user.personality, members := [userId] },
               message := none, isNew := true, matchScore := some none },
             saveUser { st with pods := st.pods ++
                [{ _id := freshPodId st.pods, skill := skill,
                   personalitySummary := minimize user.personality, members := [userId] }] }
              { user with currentPod := some (freshPodId st.pods) }) := by
  have hbest' := hbest
  rw [hskill] at hbest'
  simp [assignUserToPod, huser, hnone, hskill, hbest', hne]

theorem eq_of_id_eq {pods : List Pod} (hids : (pods.map (fun p => p._id)).Nodup)
    {p c : Pod} (hp : p ∈ pods) (hc : c ∈ pods) (h : p._id = c._id) : p = c :=
  List.inj_on_of_nodup_map hids hp hc h

theorem findCandidatePods_not_member {st : Store} {userId : ObjectId}
    (hnone : findPodByMember st userId = none) (skill : Option String) :
    ∀ p ∈ findCandidatePods st skill, userId ∉ p.members :=
  fun p hp => findPodByMember_none hnone p (findCandidatePods_mem hp).1

/-- The loop of `assignUserToPod` for a user who is in no pod: it throws when a
candidate has no stored summary; otherwise it ends with no match when no
candidate scores above 0.5, and with the first candidate of maximal score when
one does. -/
theorem findBestMatch_cases {st : Store} {userId : ObjectId} (user : User)
    (hnone : findPodByMember st userId = none) :
    ((∃ p ∈ findCandidatePods st user.selectedSkills.head?, p.personalitySummary = none) ∧
      ∃ e, findBestMatch userId user.personality
        (findCandidatePods st user.selectedSkills.head?) = .error e) ∨
    ((∀ p ∈ findCandidatePods st user.selectedSkills.head?, p.personalitySummary ≠ none) ∧
      ((findBestMatch userId user.personality
            (findCandidatePods st user.selectedSkills.head?) = .ok (none, 50) ∧
          ∀ p ∈ findCandidatePods st user.selectedSkills.head?, ∀ q,
            p.personalitySummary = some q → personalityMatchScore user.personality q ≤ 50) ∨
        ∃ pre c cP post,
          findCandidatePods st user.selectedSkills.head? = pre ++ c :: post ∧
          c.personalitySummary = some cP ∧
          findBestMatch userId user.personality
            (findCandidatePods st user.selectedSkills.head?)
              = .ok (some c, personalityMatchScore user.personality cP) ∧
          50 < personalityMatchScore user.personality cP ∧
          (∀ p ∈ pre, ∀ q, p.personalitySummary = some q →
            personalityMatchScore user.personality q
              < personalityMatchScore user.personality cP) ∧
          (∀ p ∈ post, ∀ q, p.personalitySummary = some q →
            personalityMatchScore user.personality q
              ≤ personalityMatchScore user.personality cP))) :=
  bestMatchLoop_spec userId user.personality _ none 50
    (findCandidatePods_not_member hnone user.selectedSkills.head?)

/-- The selection made by the loop of `assignUserToPod` for a user who is in no
pod, read off the result of `findBestMatch`. -/
theorem findBestMatch_some {st : Store} {userId : ObjectId} {user : User} {bestMatch : Pod}
    {bestScore : Nat}
    (hnone : findPodByMember st userId = none)
    (hbest : findBestMatch userId user.personality
      (findCandidatePods st user.selectedSkills.head?) = .ok (some bestMatch, bestScore)) :
    ∃ pre post bmP, findCandidatePods st user.selectedSkills.head? = pre ++ bestMatch :: post ∧
      bestMatch.personalitySummary = some bmP ∧
      bestScore = personalityMatchScore user.personality bmP ∧
      50 < personalityMatchScore user.personality bmP ∧
      (∀ p ∈ pre, ∀ q, p.personalitySummary = some q →
        personalityMatchScore user.personality q
          < personalityMatchScore user.personality bmP) ∧
      (∀ p ∈ post, ∀ q, p.personalitySummary = some q →
        personalityMatchScore user.personality q
          ≤ personalityMatchScore user.personality bmP) := by
  rcases findBestMatch_cases user hnone with
    ⟨_, e, he⟩ | ⟨_, ⟨heq, _⟩ | ⟨pre, c, cP, post, hsplit, hcP, heq, hlt, hpre, hpost⟩⟩
  · rw [he] at hbest; cases hbest
  · rw [heq] at hbest; simp at hbest
  · rw [heq] at hbest
    simp only [Except.ok.injEq, Prod.mk.injEq, Option.some.injEq] at hbest
    obtain ⟨hc, hs⟩ := hbest
    subst hc
    exact ⟨pre, post, cP, hsplit, hcP, hs.symm, hlt, hpre, hpost⟩

theorem findBestMatch_none {st : Store} {userId : ObjectId} {user : User} {bestScore : Nat}
    (hnone : findPodByMember st userId = none)
    (hbest : findBestMatch userId user.personality
      (findCandidatePods st user.selectedSkills.head?) = .ok (none, bestScore)) :
    ∀ p ∈ findCandidatePods st user.selectedSkills.head?, ∀ q,
      p.personalitySummary = some q → personalityMatchScore user.personality q ≤ 50 := by
  rcases findBestMatch_cases user hnone with
    ⟨_, e, he⟩ | ⟨_, ⟨_, hle⟩ | ⟨pre, c, cP, post, _, _, heq, _, _, _⟩⟩
  · rw [he] at hbest; cases hbest
  · exact hle
  · rw [heq] at hbest; simp at hbest

/-- A candidate stored without `personalitySummary` makes the call for a user who
is in no pod throw, which it does before any write. -/
theorem assignUserToPod_no_summary {st : Store} {userId : ObjectId} {user : User}
    (huser : findUserById st userId = some user)
    (hnone : findPodByMember st userId = none)
    (hsum : ∃ c ∈ findCandidatePods st user.selectedSkills.head?, c.personalitySummary = none) :
    ∃ e, assignUserToPod st userId = .error e := by
  rcases findBestMatch_cases user hnone with ⟨_, e, he⟩ | ⟨hall, _⟩
  · exact ⟨e, by simp [assignUserToPod, huser, hnone, he]⟩
  · obtain ⟨c, hc, hcn⟩ := hsum
    exact absurd hcn (hall c hc)

/-- C1, amended: for a user who is in no pod and candidate pods that all have a
stored `personalitySummary`, `assignUserToPod` adds the user to an existing pod
exactly when some candidate pod scores strictly above 0.5 (50 hundredths)
against the user; the pod then joined is a candidate whose score is at least
that of every candidate and strictly above that of every candidate listed
before it, that is, the first candidate of maximal score. -/
theorem assignUserToPod_joins_first_best (st : Store) (userId : ObjectId) (user : User)
    (hids : (st.pods.map (fun p => p._id)).Nodup)
    (huser : findUserById st userId = some user)
    (hnone : findPodByMember st userId = none)
    (hsum : ∀ c ∈ findCandidatePods st user.selectedSkills.head?,
      c.personalitySummary ≠ none) :
    ((∃ r st', assignUserToPod st userId = .ok (r, st') ∧ r.isNew = false) ↔
      ∃ c ∈ findCandidatePods st user.selectedSkills.head?, ∃ cP,
        c.personalitySummary = some cP ∧
        50 < personalityMatchScore user.personality cP) ∧
    (∀ r st', assignUserToPod st userId = .ok (r, st') → r.isNew = false →
      ∃ pre c cP post, findCandidatePods st user.selectedSkills.head? = pre ++ c :: post ∧
        c.personalitySummary = some cP ∧
        r.pod = { c with members := c.members ++ [userId] } ∧
        (∃ before after, st.pods = before ++ c :: after ∧
          st'.pods = before ++ r.pod :: after) ∧
        (∀ p ∈ findCandidatePods st user.selectedSkills.head?, ∀ pP,
          p.personalitySummary = some pP →
          personalityMatchScore user.personality pP
            ≤ personalityMatchScore user.personality cP) ∧
        (∀ p ∈ pre, ∀ pP, p.personalitySummary = some pP →
          personalityMatchScore user.personality pP
            < personalityMatchScore user.personality cP)) := by
  refine ⟨⟨?_, ?_⟩, ?_⟩
  · rintro ⟨r, st', hok, hnew⟩
    obtain ⟨user', huser', hcases⟩ := assignUserToPod_ok hok
    rw [huser] at huser'
    cases huser'
    rcases hcases with ⟨ex, hex, _, _⟩ | ⟨_, bm, score, pods', pod, hbest, _, _, _⟩ |
      ⟨_, _, skill, _, _, _, hr⟩
    · rw [hnone] at hex; cases hex
    · obtain ⟨pre, post, bmP, hsplit, hbmP, _, hlt, _, _⟩ := findBestMatch_some hnone hbest
      exact ⟨bm, by rw [hsplit]; simp, bmP, hbmP, hlt⟩
    · rw [hr] at hnew; cases hnew
  · rintro ⟨c, hc, cP, hcP, hlt⟩
    rcases findBestMatch_cases user hnone with
      ⟨⟨q, hq, hqn⟩, _⟩ | ⟨_, ⟨_, hle⟩ | ⟨pre, bm, bmP, post, hsplit, _, hbest, _, _, _⟩⟩
    · exact absurd hqn (hsum q hq)
    · exact absurd (hle c hc cP hcP) (Nat.not_le.mpr hlt)
    · have hbm : bm ∈ findCandidatePods st user.selectedSkills.head? := by
        rw [hsplit]; simp
      have hfound : ∃ pod, (findPodByIdAndAddMember st.pods bm._id userId).2 = some pod :=
        findPodByIdAndAddMember_found ⟨bm, (findCandidatePods_mem hbm).1, rfl⟩
      obtain ⟨pod, hpod⟩ := hfound
      have hupd : findPodByIdAndAddMember st.pods bm._id userId
          = ((findPodByIdAndAddMember st.pods bm._id userId).1, some pod) := by
        rw [← hpod]
      exact ⟨_, _, assignUserToPod_join huser hnone hbest hupd, rfl⟩
  · intro r st' hok hnew
    obtain ⟨user', huser', hcases⟩ := assignUserToPod_ok hok
    rw [huser] at huser'
    cases huser'
    rcases hcases with ⟨ex, hex, _, _⟩ | ⟨_, bm, score, pods', pod, hbest, hupd, hst, hr⟩ |
      ⟨_, _, skill, _, _, _, hr⟩
    · rw [hnone] at hex; cases hex
    · obtain ⟨pre, post, bmP, hsplit, hbmP, _, _, hpre, hpost⟩ :=
        findBestMatch_some hnone hbest
      have hbm : bm ∈ findCandidatePods st user.selectedSkills.head? := by
        rw [hsplit]; simp
      obtain ⟨before, p, after, hpods, hpods', hid, _, hpodeq⟩ :=
        findPodByIdAndAddMember_some hupd
      have hp : p = bm :=
        eq_of_id_eq hids (by rw [hpods]; simp) (findCandidatePods_mem hbm).1 hid
      subst hp
      have hnot : userId ∉ p.members := findCandidatePods_not_member hnone _ p hbm
      have hpod : pod = { p with members := p.members ++ [userId] } := by
        rw [hpodeq]; simp [addToSet, hnot]
      refine ⟨pre, p, bmP, post, hsplit, hbmP, by rw [hr]; exact hpod,
        ⟨before, after, hpods, ?_⟩, ?_, hpre⟩
      · rw [hst, saveUser_pods, hr]; exact hpods'
      · intro q hq qP hqP
        rw [hsplit] at hq
        rcases List.mem_append.mp hq with hq | hq
        · exact Nat.le_of_lt (hpre q hq qP hqP)
        · rcases List.mem_cons.mp hq with rfl | hq
          · rw [hbmP] at hqP
            cases hqP
            exact le_refl _
          · exact hpost q hq qP hqP
    · rw [hr] at hnew; cases hnew

/-- C1 as stated fails on `summarylessStore`: the user is in no pod and both pods
are candidates; pod 11 has the profile of the user and scores 1.00, above 0.5,
yet the user is added to no pod: the loop reaches pod 10 first, which is stored
without `personalitySummary`, and the call throws. -/
theorem assignUserToPod_joins_first_best_counterexample :
    findUserById summarylessStore 1 = some guitarUser ∧
    findPodByMember summarylessStore 1 = none ∧
    findCandidatePods summarylessStore guitarUser.selectedSkills.head?
      = summarylessStore.pods ∧
    (summarylessStore.pods.map (fun p =>
        p.personalitySummary.map (personalityMatchScore guitarUser.personality)))
      = [none, some 100] ∧
    assignUserToPod summarylessStore 1 = .error "Cannot read properties of undefined" := by
  refine ⟨by decide, by decide, by decide, by decide, rfl⟩

/-- The hypotheses and conclusion of `assignUserToPod_joins_first_best` on
`guitarStore`. -/
theorem assignUserToPod_joins_first_best_witness :
    findUserById guitarStore 1 = some guitarUser ∧ findPodByMember guitarStore 1 = none ∧
    (∀ c ∈ findCandidatePods guitarStore guitarUser.selectedSkills.head?,
      c.personalitySummary ≠ none) ∧
    ((∃ r st', assignUserToPod guitarStore 1 = .ok (r, st') ∧ r.isNew = false) ↔
      ∃ c ∈ findCandidatePods guitarStore guitarUser.selectedSkills.head?, ∃ cP,
        c.personalitySummary = some cP ∧
        50 < personalityMatchScore guitarUser.personality cP) :=
  ⟨by decide, by decide, by decide,
    (assignUserToPod_joins_first_best guitarStore 1 guitarUser (by decide) (by decide)
      (by decide) (by decide)).1⟩

/-- One successful call keeps pod ids distinct, pods within capacity and member
lists free of duplicates. -/
theorem assignUserToPod_preserves {st st' : Store} {userId : ObjectId} {r : AssignResult}
    (hok : assignUserToPod st userId = .ok (r, st'))
    (hids : (st.pods.map (fun p => p._id)).Nodup)
    (hinv : ∀ p ∈ st.pods, p.members.length ≤ 6 ∧ p.members.Nodup) :
    (st'.pods.map (fun p => p._id)).Nodup ∧
      ∀ p ∈ st'.pods, p.members.length ≤ 6 ∧ p.members.Nodup := by
  obtain ⟨user, huser, hcases⟩ := assignUserToPod_ok hok
  rcases hcases with ⟨ex, _, hst, _⟩ | ⟨hnone, bm, score, pods', pod, hbest, hupd, hst, _⟩ |
    ⟨hnone, _, skill, _, _, hst, _⟩
  · rw [hst]; exact ⟨hids, hinv⟩
  · obtain ⟨pre, post, _, hsplit, _, _, _, _, _⟩ := findBestMatch_some hnone hbest
    have hbm : bm ∈ findCandidatePods st user.selectedSkills.head? := by
      rw [hsplit]; simp
    obtain ⟨before, p, after, hpods, hpods', hid, _, hpodeq⟩ :=
      findPodByIdAndAddMember_some hupd
    have hp : p = bm :=
      eq_of_id_eq hids (by rw [hpods]; simp) (findCandidatePods_mem hbm).1 hid
    subst hp
    have hnot : userId ∉ p.members := findCandidatePods_not_member hnone _ p hbm
    have hlen : p.members.length < 6 := (findCandidatePods_mem hbm).2.2
    have hpod : pod = { p with members := p.members ++ [userId] } := by
      rw [hpodeq]; simp [addToSet, hnot]
    have hpin : p ∈ st.pods := (findCandidatePods_mem hbm).1
    rw [hst, saveUser_pods]
    simp only
    constructor
    · have : pods'.map (fun q => q._id) = st.pods.map (fun q => q._id) := by
        rw [hpods, hpods', hpod]; simp
      rw [this]; exact hids
    · intro q hq
      rw [hpods'] at hq
      rcases List.mem_append.mp hq with hq | hq
      · exact hinv q (by rw [hpods]; exact List.mem_append_left _ hq)
      · rcases List.mem_cons.mp hq with rfl | hq
        · rw [hpod]
          refine ⟨by simp; omega, ?_⟩
          simp only
          exact List.Nodup.append (hinv p hpin).2 (List.nodup_singleton _)
            (by simpa using hnot)
        · exact hinv q (by rw [hpods]; exact List.mem_append_right _ (List.mem_cons_of_mem _ hq))
  · rw [hst, saveUser_pods]
    simp only
    constructor
    · rw [List.map_append, List.nodup_append]
      refine ⟨hids, by simp, ?_⟩
      intro i hi hi'
      simp only [List.map_cons, List.map_nil, List.mem_singleton] at hi'
      obtain ⟨q, hq, hqi⟩ := List.mem_map.mp hi
      exact freshPodId_fresh st.pods q hq (hqi.trans hi')
    · intro q hq
      rcases List.mem_append.mp hq with hq | hq
      · exact hinv q hq
      · simp only [List.mem_singleton] at hq
        subst hq
        simp

/-- A successful call leaves every pod that has six or more members as it is. -/
theorem assignUserToPod_full_untouched {st st' : Store} {userId : ObjectId} {r : AssignResult}
    (hok : assignUserToPod st userId = .ok (r, st'))
    (hids : (st.pods.map (fun p => p._id)).Nodup) :
    ∀ p ∈ st.pods, 6 ≤ p.members.length → p ∈ st'.pods := by
  intro q hq hfull
  obtain ⟨user, huser, hcases⟩ := assignUserToPod_ok hok
  rcases hcases with ⟨ex, _, hst, _⟩ | ⟨hnone, bm, score, pods', pod, hbest, hupd, hst, _⟩ |
    ⟨hnone, _, skill, _, _, hst, _⟩
  · rw [hst]; exact hq
  · obtain ⟨pre, post, _, hsplit, _, _, _, _, _⟩ := findBestMatch_some hnone hbest
    have hbm : bm ∈ findCandidatePods st user.selectedSkills.head? := by
      rw [hsplit]; simp
    obtain ⟨before, p, after, hpods, hpods', hid, _, hpodeq⟩ :=
      findPodByIdAndAddMember_some hupd
    have hp : p = bm :=
      eq_of_id_eq hids (by rw [hpods]; simp) (findCandidatePods_mem hbm).1 hid
    subst hp
    have hlen : p.members.length < 6 := (findCandidatePods_mem hbm).2.2
    rw [hst, saveUser_pods]
    simp only
    rw [hpods] at hq
    rw [hpods']
    rcases List.mem_append.mp hq with hq | hq
    · exact List.mem_append_left _ hq
    · rcases List.mem_cons.mp hq with rfl | hq
      · omega
      · exact List.mem_append_right _ (List.mem_cons_of_mem _ hq)
  · rw [hst, saveUser_pods]
    exact List.mem_append_left _ hq

theorem assignAll_preserves (calls : List ObjectId) :
    ∀ (st : Store), (st.pods.map (fun p => p._id)).Nodup →
      (∀ p ∈ st.pods, p.members.length ≤ 6 ∧ p.members.Nodup) →
      ((assignAll st calls).pods.map (fun p => p._id)).Nodup ∧
        ∀ p ∈ (assignAll st calls).pods, p.members.length ≤ 6 ∧ p.members.Nodup := by
  induction calls with
  | nil => intro st hids hinv; exact ⟨hids, hinv⟩
  | cons userId rest ih =>
    intro st hids hinv
    unfold assignAll
    cases hok : assignUserToPod st userId with
    | error e => exact ih st hids hinv
    | ok v =>
      obtain ⟨r, st'⟩ := v
      obtain ⟨hids', hinv'⟩ := assignUserToPod_preserves hok hids hinv
      exact ih st' hids' hinv'

/-- C2: starting from a store whose pods (with distinct `_id`s) each have at
most 6 members and no duplicate member, every store reached by a sequence of
sequential `assignUserToPod` calls has only pods with at most 6 members and no
duplicate member; and a further call in such a store leaves every pod that has
6 members exactly as it is, so a full pod is never the pod joined. -/
theorem assignAll_capacity_nodup (st : Store) (calls : List ObjectId)
    (hids : (st.pods.map (fun p => p._id)).Nodup)
    (hcap : ∀ p ∈ st.pods, p.members.length ≤ 6)
    (hnodup : ∀ p ∈ st.pods, p.members.Nodup) :
    (∀ p ∈ (assignAll st calls).pods, p.members.length ≤ 6 ∧ p.members.Nodup) ∧
    (∀ userId r st', assignUserToPod (assignAll st calls) userId = .ok (r, st') →
      ∀ p ∈ (assignAll st calls).pods, p.members.length = 6 → p ∈ st'.pods) := by
  obtain ⟨hids', hinv'⟩ :=
    assignAll_preserves calls st hids (fun p hp => ⟨hcap p hp, hnodup p hp⟩)
  refine ⟨hinv', ?_⟩
  intro userId r st' hok p hp hfull
  exact assignUserToPod_full_untouched hok hids' p hp (Nat.le_of_eq hfull.symm)

/-- The hypotheses and conclusion of `assignAll_capacity_nodup` on `guitarStore`
and three calls. -/
theorem assignAll_capacity_nodup_witness :
    (∀ p ∈ guitarStore.pods, p.members.length ≤ 6) ∧
    (∀ p ∈ guitarStore.pods, p.members.Nodup) ∧
    (∀ p ∈ (assignAll guitarStore [1, 1, 3]).pods, p.members.length ≤ 6 ∧ p.members.Nodup) :=
  ⟨by decide, by decide,
    (assignAll_capacity_nodup guitarStore [1, 1, 3] (by decide) (by decide) (by decide)).1⟩

theorem find?_member_split {pods before after : List Pod} {pod : Pod} {userId : ObjectId}
    (hpods : pods = before ++ pod :: after)
    (hbefore : ∀ q ∈ before, userId ∉ q.members) (hpod : userId ∈ pod.members) :
    pods.find? (fun p => decide (userId ∈ p.members)) = some pod := by
  have h1 : before.find? (fun p => decide (userId ∈ p.members)) = none := by
    rw [List.find?_eq_none]
    intro q hq
    simpa using hbefore q hq
  rw [hpods, List.find?_append, h1]
  simp [hpod]

theorem filter_member_of_find? {pods : List Pod} {pod : Pod} {userId : ObjectId}
    (h : pods.find? (fun p => decide (userId ∈ p.members)) = some pod) :
    ∃ rest, pods.filter (fun p => decide (userId ∈ p.members)) = pod :: rest := by
  obtain ⟨hp, as, bs, hsplit, has⟩ := List.find?_eq_some.mp h
  refine ⟨bs.filter (fun p => decide (userId ∈ p.members)), ?_⟩
  have h1 : as.filter (fun p => decide (userId ∈ p.members)) = [] := by
    rw [List.filter_eq_nil_iff]
    intro a ha
    simpa using has a ha
  rw [hsplit, List.filter_append, h1, List.filter_cons, if_pos hp]
  rfl

theorem filter_member_nil {pods : List Pod} {userId : ObjectId}
    (h : ∀ q ∈ pods, userId ∉ q.members) :
    pods.filter (fun p => decide (userId ∈ p.members)) = [] := by
  rw [List.filter_eq_nil_iff]
  intro a ha
  simpa using h a ha

/-- After a successful call the store still holds the user, and the returned
pod is the first pod that lists the user. -/
theorem assignUserToPod_post {st st' : Store} {userId : ObjectId} {r : AssignResult}
    (hok : assignUserToPod st userId = .ok (r, st')) :
    (∃ user', findUserById st' userId = some user') ∧
      findPodByMember st' userId = some r.pod := by
  obtain ⟨user, huser, hcases⟩ := assignUserToPod_ok hok
  rcases hcases with ⟨ex, hex, hst, hr⟩ |
    ⟨hnone, bm, score, pods', pod, hbest, hupd, hst, hr⟩ |
    ⟨hnone, _, skill, _, _, hst, hr⟩
  · rw [hst, hr]; exact ⟨⟨user, huser⟩, hex⟩
  · obtain ⟨before, p, after, hpods, hpods', _, _, hpodeq⟩ :=
      findPodByIdAndAddMember_some hupd
    have hmem : userId ∈ pod.members := by
      rw [hpodeq]
      simp only [addToSet]
      split <;> simp_all
    refine ⟨⟨{ user with currentPod := some pod._id }, ?_⟩, ?_⟩
    · rw [hst]
      exact @findUserById_saveUser { st with pods := pods' } userId user
        { user with currentPod := some pod._id } huser rfl
    · rw [hst, hr]
      unfold findPodByMember
      rw [saveUser_pods]
      exact find?_member_split hpods'
        (fun q hq => findPodByMember_none hnone q (by rw [hpods]; exact List.mem_append_left _ hq))
        hmem
  · refine ⟨⟨{ user with currentPod := some (freshPodId st.pods) }, ?_⟩, ?_⟩
    · rw [hst]
      exact @findUserById_saveUser
        { st with pods := st.pods ++
          [{ _id := freshPodId st.pods, skill := skill,
             personalitySummary := minimize user.personality, members := [userId] }] }
        userId user
        { user with currentPod := some (freshPodId st.pods) } huser rfl
    · rw [hst, hr]
      unfold findPodByMember
      rw [saveUser_pods]
      exact @find?_member_split _ st.pods [] _ userId rfl (findPodByMember_none hnone)
        (by simp)

/-- C3, amended: when `assignUserToPod(userId)` succeeds, a second call right
after succeeds too, returns the same pod, and leaves the whole store as the first
call left it (no pod is created, no member list changes); the user is listed in
that pod, and exactly once whenever the user was in no pod before the first call
or the pod's member list has no duplicates. -/
theorem assignUserToPod_idempotent (st st1 : Store) (userId : ObjectId) (r1 : AssignResult)
    (h1 : assignUserToPod st userId = .ok (r1, st1)) :
    (∃ r2, assignUserToPod st1 userId = .ok (r2, st1) ∧ r2.pod = r1.pod ∧ r2.isNew = false) ∧
    userId ∈ r1.pod.members ∧
    ((findPodByMember st userId = none ∨ r1.pod.members.Nodup) →
      r1.pod.members.count userId = 1) := by
  obtain ⟨⟨user1, huser1⟩, hpod1⟩ := assignUserToPod_post h1
  have hmem : userId ∈ r1.pod.members := by
    have := List.find?_some hpod1
    simpa using this
  refine ⟨⟨_, assignUserToPod_existing huser1 hpod1, rfl, rfl⟩, hmem, ?_⟩
  intro hcond
  obtain ⟨user, huser, hcases⟩ := assignUserToPod_ok h1
  rcases hcases with ⟨ex, hex, hst, hr⟩ |
    ⟨hnone, bm, score, pods', pod, hbest, hupd, hst, hr⟩ |
    ⟨hnone, _, skill, _, _, hst, hr⟩
  · rcases hcond with hnone | hnd
    · rw [hnone] at hex; cases hex
    · exact List.count_eq_one_of_mem hnd hmem
  · obtain ⟨before, p, after, hpods, _, _, _, hpodeq⟩ := findPodByIdAndAddMember_some hupd
    have hnot : userId ∉ p.members := findPodByMember_none hnone p (by rw [hpods]; simp)
    rw [hr]
    simp only
    rw [hpodeq]
    simp [addToSet, hnot, List.count_eq_zero_of_not_mem hnot]
  · rw [hr]
    simp

/-- C3 as stated fails on `duplicateStore`: the call succeeds and writes nothing
(so a second call is the same call again), and the returned pod lists the user
twice. -/
theorem assignUserToPod_idempotent_counterexample :
    assignUserToPod duplicateStore 1
      = .ok ({ success := true,
               pod := { _id := 10, skill := "Guitar", members := [1, 1] },
               message := some "User already in a pod", isNew := false, matchScore := none },
             duplicateStore) ∧
    List.count 1 [1, 1] = 2 := by
  constructor
  · rfl
  · decide

/-- The hypothesis and conclusion of `assignUserToPod_idempotent` on `guitarStore`. -/
theorem assignUserToPod_idempotent_witness :
    (∃ r2, assignUserToPod (assignAll guitarStore [1]) 1 = .ok (r2, assignAll guitarStore [1]) ∧
      r2.pod = { _id := 10, skill := "Guitar", members := [2, 1],
                 personalitySummary := some visualProfile } ∧ r2.isNew = false) :=
  (assignUserToPod_idempotent guitarStore (assignAll guitarStore [1]) 1
    { success := true,
      pod := { _id := 10, skill := "Guitar", members := [2, 1],
               personalitySummary := some visualProfile },
      message := none, isNew := false, matchScore := some (some 100) } rfl).1

/-- C4, amended: in a store where the user is listed by at most one pod, after
`assignUserToPod(userId)` succeeds with pod `P` the pods listing the user are
exactly `P`; if the user was in no pod before the call, the stored user document
has `currentPod = P._id`; if the user was already in `P`, the call writes nothing
(so `currentPod` stays whatever it was). -/
theorem assignUserToPod_single_membership (st st' : Store) (userId : ObjectId)
    (r : AssignResult)
    (hone : (st.pods.filter (fun p => decide (userId ∈ p.members))).length ≤ 1)
    (hok : assignUserToPod st userId = .ok (r, st')) :
    st'.pods.filter (fun p => decide (userId ∈ p.members)) = [r.pod] ∧
    (findPodByMember st userId = none →
      ∃ user', findUserById st' userId = some user' ∧ user'.currentPod = some r.pod._id) ∧
    (findPodByMember st userId ≠ none → st' = st) := by
  obtain ⟨user, huser, hcases⟩ := assignUserToPod_ok hok
  rcases hcases with ⟨ex, hex, hst, hr⟩ |
    ⟨hnone, bm, score, pods', pod, hbest, hupd, hst, hr⟩ |
    ⟨hnone, _, skill, _, _, hst, hr⟩
  · refine ⟨?_, fun hnone => ?_, fun _ => hst⟩
    · obtain ⟨rest, hrest⟩ := filter_member_of_find? hex
      rw [hrest] at hone
      have hnil : rest = [] := by
        cases rest with
        | nil => rfl
        | cons a as => simp at hone
      rw [hst, hr, hrest, hnil]
    · rw [hnone] at hex; cases hex
  · obtain ⟨before, p, after, hpods, hpods', _, _, hpodeq⟩ :=
      findPodByIdAndAddMember_some hupd
    have hall := findPodByMember_none hnone
    have hmem : userId ∈ pod.members := by
      rw [hpodeq]
      simp only [addToSet]
      split <;> simp_all
    refine ⟨?_, fun _ => ⟨{ user with currentPod := some pod._id }, ?_, ?_⟩,
      fun hne => absurd hnone hne⟩
    · rw [hst, saveUser_pods, hr]
      simp only
      rw [hpods', List.filter_append, List.filter_cons, if_pos (by simpa using hmem),
        filter_member_nil (fun q hq => hall q (by rw [hpods]; exact List.mem_append_left _ hq)),
        filter_member_nil (fun q hq => hall q (by
          rw [hpods]; exact List.mem_append_right _ (List.mem_cons_of_mem _ hq)))]
      rfl
    · rw [hst]
      exact @findUserById_saveUser { st with pods := pods' } userId user
        { user with currentPod := some pod._id } huser rfl
    · rw [hr]
  · refine ⟨?_, fun _ => ⟨{ user with currentPod := some (freshPodId st.pods) }, ?_, ?_⟩,
      fun hne => absurd hnone hne⟩
    · rw [hst, saveUser_pods, hr]
      simp only
      rw [List.filter_append, filter_member_nil (findPodByMember_none hnone)]
      simp
    · rw [hst]
      exact @findUserById_saveUser
        { st with pods := st.pods ++
          [{ _id := freshPodId st.pods, skill := skill,
             personalitySummary := minimize user.personality, members := [userId] }] }
        userId user
        { user with currentPod := some (freshPodId st.pods) } huser rfl
    · rw [hr]

/-- C4 as stated fails on `staleStore`, where the user is in exactly one pod: the
call succeeds with pod 10 and the stored user still has no `currentPod`. -/
theorem assignUserToPod_single_membership_counterexample :
    (staleStore.pods.filter (fun p => decide (1 ∈ p.members))).length ≤ 1 ∧
    assignUserToPod staleStore 1
      = .ok ({ success := true, pod := { _id := 10, skill := "Guitar", members := [1] },
               message := some "User already in a pod", isNew := false, matchScore := none },
             staleStore) ∧
    (findUserById staleStore 1).map (fun u => u.currentPod) = some none := by
  refine ⟨by decide, rfl, by decide⟩

/-- The hypotheses and conclusion of `assignUserToPod_single_membership` on
`guitarStore`. -/
theorem assignUserToPod_single_membership_witness :
    (guitarStore.pods.filter (fun p => decide (1 ∈ p.members))).length ≤ 1 ∧
    (assignAll guitarStore [1]).pods.filter (fun p => decide (1 ∈ p.members))
      = [{ _id := 10, skill := "Guitar", members := [2, 1],
           personalitySummary := some visualProfile }] :=
  ⟨by decide,
    (assignUserToPod_single_membership guitarStore (assignAll guitarStore [1]) 1
      { success := true,
        pod := { _id := 10, skill := "Guitar", members := [2, 1],
                 personalitySummary := some visualProfile },
        message := none, isNew := false, matchScore := some (some 100) } (by decide) rfl).1⟩

/-- C5, the code at the failing input `inactiveStore`: the only guitar pod is
inactive, it is taken as a candidate all the same, and the user is added to it. -/
theorem assignUserToPod_joins_inactive_pod :
    findCandidatePods inactiveStore (some "Guitar")
      = [{ _id := 10, skill := "Guitar", members := [2],
           personalitySummary := some visualProfile, isActive := false }] ∧
    (assignUserToPod inactiveStore 1).toOption.map (fun x => x.1.pod)
      = some { _id := 10, skill := "Guitar", members := [2, 1],
               personalitySummary := some visualProfile, isActive := false } := by
  constructor
  · decide
  · rfl

/-- C6, amended: for a user who is in no pod and has a primary skill, and
candidate pods that all have a stored `personalitySummary`: when the primary
skill is not the empty string and no candidate scores above 0.5,
`assignUserToPod` appends exactly one pod, with an unused `_id`,
`skill = selectedSkills[0]`, `members = [userId]`, `isActive = true` and as
`personalitySummary` the user's personality (stored when it has a field, as
`minimize` has it), keeps the existing pods as they are, and returns
`isNew = true`, `matchScore = null`; when some candidate scores above 0.5, it
keeps the list of pod ids as it is and returns `isNew = false` with `matchScore`
the score of the candidate whose id the returned pod carries. -/
theorem assignUserToPod_create_or_join (st : Store) (userId : ObjectId) (user : User)
    (skill : String)
    (huser : findUserById st userId = some user)
    (hnone : findPodByMember st userId = none)
    (hskill : user.selectedSkills.head? = some skill)
    (hsum : ∀ c ∈ findCandidatePods st (some skill), c.personalitySummary ≠ none) :
    (skill ≠ "" →
      (∀ c ∈ findCandidatePods st (some skill), ∀ cP, c.personalitySummary = some cP →
        personalityMatchScore user.personality cP ≤ 50) →
      ∃ r st', assignUserToPod st userId = .ok (r, st') ∧
        r.isNew = true ∧ r.matchScore = some none ∧
        r.pod = { _id := r.pod._id, skill := skill, members := [userId],
                  personalitySummary := minimize user.personality, isActive := true } ∧
        (∀ p ∈ st.pods, p._id ≠ r.pod._id) ∧
        st'.pods = st.pods ++ [r.pod]) ∧
    ((∃ c ∈ findCandidatePods st (some skill), ∃ cP, c.personalitySummary = some cP ∧
        50 < personalityMatchScore user.personality cP) →
      ∃ r st', assignUserToPod st userId = .ok (r, st') ∧
        r.isNew = false ∧
        st'.pods.map (fun p => p._id) = st.pods.map (fun p => p._id) ∧
        ∃ c ∈ findCandidatePods st (some skill), ∃ cP, c.personalitySummary = some cP ∧
          r.pod._id = c._id ∧
          r.matchScore = some (some (personalityMatchScore user.personality cP))) := by
  rw [← hskill] at hsum
  constructor
  · intro hne hle
    rw [← hskill] at hle
    rcases findBestMatch_cases user hnone with
      ⟨⟨q, hq, hqn⟩, _⟩ | ⟨_, ⟨hbest, _⟩ | ⟨pre, bm, bmP, post, hsplit, hbmP, _, hlt, _, _⟩⟩
    · exact absurd hqn (hsum q hq)
    · refine ⟨_, _, assignUserToPod_create huser hnone hbest hskill hne, rfl, rfl, rfl, ?_, ?_⟩
      · exact freshPodId_fresh st.pods
      · rw [saveUser_pods]
    · have hbm : bm ∈ findCandidatePods st user.selectedSkills.head? := by
        rw [hsplit]; simp
      exact absurd (hle bm hbm bmP hbmP) (Nat.not_le.mpr hlt)
  · rintro ⟨c, hc, cP, hcP, hlt⟩
    rw [← hskill] at hc
    rcases findBestMatch_cases user hnone with
      ⟨⟨q, hq, hqn⟩, _⟩ | ⟨_, ⟨_, hle⟩ | ⟨pre, bm, bmP, post, hsplit, hbmP, hbest, _, _, _⟩⟩
    · exact absurd hqn (hsum q hq)
    · exact absurd (hle c hc cP hcP) (Nat.not_le.mpr hlt)
    · have hbm : bm ∈ findCandidatePods st user.selectedSkills.head? := by
        rw [hsplit]; simp
      have hfound : ∃ pod, (findPodByIdAndAddMember st.pods bm._id userId).2 = some pod :=
        findPodByIdAndAddMember_found ⟨bm, (findCandidatePods_mem hbm).1, rfl⟩
      obtain ⟨pod, hpod⟩ := hfound
      have hupd : findPodByIdAndAddMember st.pods bm._id userId
          = ((findPodByIdAndAddMember st.pods bm._id userId).1, some pod) := by
        rw [← hpod]
      obtain ⟨before, p, after, hpods, hpods', hid, _, hpodeq⟩ :=
        findPodByIdAndAddMember_some hupd
      refine ⟨_, _, assignUserToPod_join huser hnone hbest hupd, rfl, ?_, bm, ?_, bmP, hbmP,
        ?_, rfl⟩
      · rw [saveUser_pods]
        simp only
        rw [hpods', hpods, hpodeq]
        simp
      · rw [← hskill]; exact hbm
      · simp only
        rw [hpodeq]
        exact hid

/-- C6 as stated fails on `blankSkillStore`: the user is in no pod and there is no
candidate at all, yet no pod is added: the new pod would have the empty string
as its `skill`, its `save` is refused and the call throws. -/
theorem assignUserToPod_create_or_join_counterexample :
    findUserById blankSkillStore 1
      = some { _id := 1, selectedSkills := [""], personality := visualProfile } ∧
    findPodByMember blankSkillStore 1 = none ∧
    findCandidatePods blankSkillStore (some "") = [] ∧
    assignUserToPod blankSkillStore 1 = .error "Pod validation failed: skill is required" := by
  refine ⟨by decide, by decide, by decide, rfl⟩

/-- The hypotheses and conclusion of `assignUserToPod_create_or_join` on
`guitarStore`. -/
theorem assignUserToPod_create_or_join_witness :
    findUserById guitarStore 1 = some guitarUser ∧ findPodByMember guitarStore 1 = none ∧
    guitarUser.selectedSkills.head? = some "Guitar" ∧
    (∀ c ∈ findCandidatePods guitarStore (some "Guitar"), c.personalitySummary ≠ none) ∧
    ((∃ c ∈ findCandidatePods guitarStore (some "Guitar"), ∃ cP,
        c.personalitySummary = some cP ∧
        50 < personalityMatchScore guitarUser.personality cP) →
      ∃ r st', assignUserToPod guitarStore 1 = .ok (r, st') ∧
        r.isNew = false ∧
        st'.pods.map (fun p => p._id) = guitarStore.pods.map (fun p => p._id) ∧
        ∃ c ∈ findCandidatePods guitarStore (some "Guitar"), ∃ cP,
          c.personalitySummary = some cP ∧ r.pod._id = c._id ∧
          r.matchScore
            = some (some (personalityMatchScore guitarUser.personality cP))) :=
  ⟨by decide, by decide, by decide, by decide,
    (assignUserToPod_create_or_join guitarStore 1 guitarUser "Guitar" (by decide) (by decide)
      (by decide) (by decide)).2⟩

/-! ## The progress ledger -/

theorem weeklyResetCheck_id (now : Time) (user : User) :
    (weeklyResetCheck now user)._id = user._id := by
  unfold weeklyResetCheck
  split <;> rfl

theorem weeklyResetCheck_podParticipation (now : Time) (user : User) :
    (weeklyResetCheck now user).podParticipation = user.podParticipation := by
  unfold weeklyResetCheck
  split <;> rfl

theorem applyActivity_id (now : Time) (type : String) (user : User) :
    (applyActivity now type user)._id = user._id := by
  unfold applyActivity
  dsimp only
  rw [← weeklyResetCheck_id now user]
  split <;> rfl

theorem applyActivity_progress (now : Time) (type : String) (user : User) :
    (applyActivity now type user).progress
      = { messages := (weeklyResetCheck now user).progress.messages + (activityIncrements type).2.1,
          resources := (weeklyResetCheck now user).progress.resources + (activityIncrements type).2.2,
          points := (weeklyResetCheck now user).progress.points + (activityIncrements type).1 } := by
  unfold applyActivity
  dsimp only
  split <;> rfl

theorem applyActivity_nextWeeklyReset (now : Time) (type : String) (user : User) :
    (applyActivity now type user).nextWeeklyReset = (weeklyResetCheck now user).nextWeeklyReset := by
  unfold applyActivity
  dsimp only
  split <;> rfl

theorem applyActivity_podParticipation (now : Time) (type : String) (user : User) :
    (applyActivity now type user).podParticipation
      = some { messagesCount :=
                 (user.podParticipation.getD { messagesCount := 0, resourcesShared := 0 }).messagesCount
                   + (activityIncrements type).2.1,
               resourcesShared :=
                 (user.podParticipation.getD { messagesCount := 0, resourcesShared := 0 }).resourcesShared
                   + (activityIncrements type).2.2 } := by
  have h := weeklyResetCheck_podParticipation now user
  unfold applyActivity
  dsimp only
  cases hpp : user.podParticipation with
  | none => rw [hpp] at h; simp [h]
  | some pp => rw [hpp] at h; simp [h]
theorem weeklyResetCheck_past {now : Time} {user : User} (h : user.nextWeeklyReset < now) :
    (weeklyResetCheck now user).progress = { messages := 0, resources := 0, points := 0 } ∧
      (weeklyResetCheck now user).nextWeeklyReset = now + 7 * 86400000 := by
  unfold weeklyResetCheck
  rw [if_pos h]
  exact ⟨rfl, rfl⟩

theorem weeklyResetCheck_not_past {now : Time} {user : User} (h : now ≤ user.nextWeeklyReset) :
    weeklyResetCheck now user = user := by
  unfold weeklyResetCheck
  rw [if_neg (Nat.not_lt.mpr h)]

/-- On an existing user `updateUserProgress` returns the progress of the updated
document and stores that document. -/
theorem updateUserProgress_found {st : Store} {userId : ObjectId} {user : User}
    (now : Time) (type : String) (huser : findUserById st userId = some user) :
    (updateUserProgress st now userId type).1 = some (applyActivity now type user).progress ∧
    findUserById (updateUserProgress st now userId type).2 userId
      = some (applyActivity now type user) := by
  unfold updateUserProgress
  rw [huser]
  exact ⟨rfl, findUserById_saveUser huser (applyActivity_id now type user)⟩

/-- C7: for an existing user whose `nextWeeklyReset` is strictly earlier than
`now` and every activity type, `updateUserProgress` returns, and stores, the
progress made of the increments of that one activity on top of zero counters,
and stores `nextWeeklyReset = now + 7 days`. -/
theorem updateUserProgress_rollover (st : Store) (now : Time) (userId : ObjectId)
    (type : String) (user : User)
    (huser : findUserById st userId = some user)
    (hpast : user.nextWeeklyReset < now) :
    (updateUserProgress st now userId type).1
      = some { messages := 0 + (activityIncrements type).2.1,
               resources := 0 + (activityIncrements type).2.2,
               points := 0 + (activityIncrements type).1 } ∧
    ∃ user', findUserById (updateUserProgress st now userId type).2 userId = some user' ∧
      user'.progress = { messages := 0 + (activityIncrements type).2.1,
                         resources := 0 + (activityIncrements type).2.2,
                         points := 0 + (activityIncrements type).1 } ∧
      user'.nextWeeklyReset = now + 7 * 86400000 := by
  obtain ⟨hret, hstored⟩ := updateUserProgress_found now type huser
  obtain ⟨hzero, hreset⟩ := weeklyResetCheck_past hpast
  have hprog := applyActivity_progress now type user
  rw [hzero] at hprog
  exact ⟨by rw [hret, hprog], _, hstored, hprog,
    by rw [applyActivity_nextWeeklyReset, hreset]⟩

/-- The hypotheses and conclusion of `updateUserProgress_rollover` on
`progressStore` at time `1001`. -/
theorem updateUserProgress_rollover_witness :
    findUserById progressStore 1 = some activeUser ∧ activeUser.nextWeeklyReset < 1001 ∧
    (updateUserProgress progressStore 1001 1 "resource").1
      = some { messages := 0 + (activityIncrements "resource").2.1,
               resources := 0 + (activityIncrements "resource").2.2,
               points := 0 + (activityIncrements "resource").1 } :=
  ⟨by decide, by decide,
    (updateUserProgress_rollover progressStore 1001 1 "resource" activeUser (by decide)
      (by decide)).1⟩

/-- C8, amended: `updateUserProgress` performs the weekly rollover exactly when
`now > nextWeeklyReset`: then the stored counters are the increments on top of
zero and `nextWeeklyReset` becomes `now + 7 days`; when `now ≤ nextWeeklyReset`,
equality included, the counters are only incremented and `nextWeeklyReset` is
unchanged. -/
theorem updateUserProgress_rollover_strict (st : Store) (now : Time) (userId : ObjectId)
    (type : String) (user : User)
    (huser : findUserById st userId = some user) :
    ∃ user', findUserById (updateUserProgress st now userId type).2 userId = some user' ∧
      (user.nextWeeklyReset < now →
        user'.progress = { messages := 0 + (activityIncrements type).2.1,
                           resources := 0 + (activityIncrements type).2.2,
                           points := 0 + (activityIncrements type).1 } ∧
        user'.nextWeeklyReset = now + 7 * 86400000) ∧
      (now ≤ user.nextWeeklyReset →
        user'.progress
          = { messages := user.progress.messages + (activityIncrements type).2.1,
              resources := user.progress.resources + (activityIncrements type).2.2,
              points := user.progress.points + (activityIncrements type).1 } ∧
        user'.nextWeeklyReset = user.nextWeeklyReset) := by
  obtain ⟨_, hstored⟩ := updateUserProgress_found now type huser
  refine ⟨_, hstored, ?_, ?_⟩
  · intro hpast
    obtain ⟨hzero, hreset⟩ := weeklyResetCheck_past hpast
    have hprog := applyActivity_progress now type user
    rw [hzero] at hprog
    exact ⟨hprog, by rw [applyActivity_nextWeeklyReset, hreset]⟩
  · intro hle
    have hsame := weeklyResetCheck_not_past hle
    have hprog := applyActivity_progress now type user
    rw [hsame] at hprog
    exact ⟨hprog, by rw [applyActivity_nextWeeklyReset, hsame]⟩

/-- C8 as stated fails at `now = nextWeeklyReset = 1000`: the counters
`3, 1, 7` are incremented to `4, 1, 8`, not reset, and `nextWeeklyReset` stays
`1000`. -/
theorem updateUserProgress_rollover_strict_counterexample :
    activeUser.nextWeeklyReset = 1000 ∧
    (updateUserProgress progressStore 1000 1 "text").1
      = some { messages := 4, resources := 1, points := 8 } ∧
    (findUserById (updateUserProgress progressStore 1000 1 "text").2 1).map
      (fun u => u.nextWeeklyReset) = some 1000 := by
  refine ⟨rfl, by decide, by decide⟩

/-- The hypothesis and conclusion of `updateUserProgress_rollover_strict` on
`progressStore` at time `1000`. -/
theorem updateUserProgress_rollover_strict_witness :
    findUserById progressStore 1 = some activeUser ∧
    ∃ user', findUserById (updateUserProgress progressStore 1000 1 "text").2 1 = some user' ∧
      (activeUser.nextWeeklyReset < 1000 →
        user'.progress = { messages := 0 + (activityIncrements "text").2.1,
                           resources := 0 + (activityIncrements "text").2.2,
                           points := 0 + (activityIncrements "text").1 } ∧
        user'.nextWeeklyReset = 1000 + 7 * 86400000) ∧
      (1000 ≤ activeUser.nextWeeklyReset →
        user'.progress
          = { messages := activeUser.progress.messages + (activityIncrements "text").2.1,
              resources := activeUser.progress.resources + (activityIncrements "text").2.2,
              points := activeUser.progress.points + (activityIncrements "text").1 } ∧
        user'.nextWeeklyReset = activeUser.nextWeeklyReset) :=
  ⟨by decide, updateUserProgress_rollover_strict progressStore 1000 1 "text" activeUser
    (by decide)⟩

/-- C9: for an existing user, when no rollover occurs (`now` is not after
`nextWeeklyReset`), `updateUserProgress` returns and stores the old weekly
progress changed by exactly: text, feedback, checkin, milestone, progress:
points +1, messages +1; resource: points +3, resources +1; feedbackReceived:
points +2; reaction: points +2; any other type: points +1, messages +1. -/
theorem updateUserProgress_increments (st : Store) (now : Time) (userId : ObjectId)
    (type : String) (user : User)
    (huser : findUserById st userId = some user)
    (hno : now ≤ user.nextWeeklyReset) :
    ∃ progress', (updateUserProgress st now userId type).1 = some progress' ∧
      (findUserById (updateUserProgress st now userId type).2 userId).map
        (fun u => u.progress) = some progress' ∧
      (type ∈ ["text", "feedback", "checkin", "milestone", "progress"] →
        progress' = { messages := user.progress.messages + 1,
                      resources := user.progress.resources,
                      points := user.progress.points + 1 }) ∧
      (type = "resource" →
        progress' = { messages := user.progress.messages,
                      resources := user.progress.resources + 1,
                      points := user.progress.points + 3 }) ∧
      (type = "feedbackReceived" ∨ type = "reaction" →
        progress' = { messages := user.progress.messages,
                      resources := user.progress.resources,
                      points := user.progress.points + 2 }) ∧
      (type ∉ ["text", "feedback", "checkin", "milestone", "progress", "resource",
          "feedbackReceived", "reaction"] →
        progress' = { messages := user.progress.messages + 1,
                      resources := user.progress.resources,
                      points := user.progress.points + 1 }) := by
  obtain ⟨hret, hstored⟩ := updateUserProgress_found now type huser
  have hprog := applyActivity_progress now type user
  rw [weeklyResetCheck_not_past hno] at hprog
  refine ⟨_, hret, by rw [hstored]; rfl, ?_, ?_, ?_, ?_⟩
  · intro h
    have h' : type = "text" ∨ type = "feedback" ∨ type = "checkin" ∨ type = "milestone"
        ∨ type = "progress" := by simpa using h
    rw [hprog]
    simp [activityIncrements, h']
  · intro h
    subst h
    rw [hprog]
    simp [activityIncrements]
  · intro h
    rw [hprog]
    rcases h with h | h <;> subst h <;> simp [activityIncrements]
  · intro h
    simp only [List.mem_cons, List.mem_singleton, List.not_mem_nil, or_false, not_or] at h
    obtain ⟨h1, h2, h3, h4, h5, h6, h7, h8⟩ := h
    rw [hprog]
    simp [activityIncrements, h1, h2, h3, h4, h5, h6, h7, h8]

/-- The hypotheses and conclusion of `updateUserProgress_increments` on
`progressStore` at time `500`, for a resource. -/
theorem updateUserProgress_increments_witness :
    findUserById progressStore 1 = some activeUser ∧ 500 ≤ activeUser.nextWeeklyReset ∧
    ∃ progress', (updateUserProgress progressStore 500 1 "resource").1 = some progress' ∧
      progress' = { messages := 3, resources := 2, points := 10 } := by
  obtain ⟨progress', hret, _, _, hres, _, _⟩ :=
    updateUserProgress_increments progressStore 500 1 "resource" activeUser (by decide)
      (by decide)
  exact ⟨by decide, by decide, progress', hret, hres rfl⟩

/-- C10: on every call of `updateUserProgress` for an existing user, rollover or
not, the stored `podParticipation.messagesCount` and `resourcesShared` are the
old values (absent counted as 0) plus the message and resource increments of the
activity, the very amounts added to `progress.messages` and `progress.resources`
(on top of 0 after a rollover, of the old value otherwise); so they are never
below their old values. -/
theorem updateUserProgress_participation (st : Store) (now : Time) (userId : ObjectId)
    (type : String) (user : User)
    (huser : findUserById st userId = some user) :
    ∃ user' m r, findUserById (updateUserProgress st now userId type).2 userId = some user' ∧
      m = (activityIncrements type).2.1 ∧ r = (activityIncrements type).2.2 ∧
      user'.podParticipation
        = some { messagesCount :=
                   (user.podParticipation.getD { messagesCount := 0, resourcesShared := 0
                      }).messagesCount + m,
                 resourcesShared :=
                   (user.podParticipation.getD { messagesCount := 0, resourcesShared := 0
                      }).resourcesShared + r } ∧
      user'.progress.messages
        = (if user.nextWeeklyReset < now then 0 else user.progress.messages) + m ∧
      user'.progress.resources
        = (if user.nextWeeklyReset < now then 0 else user.progress.resources) + r ∧
      (∀ pp, user.podParticipation = some pp →
        ∃ pp', user'.podParticipation = some pp' ∧
          pp.messagesCount ≤ pp'.messagesCount ∧ pp.resourcesShared ≤ pp'.resourcesShared) := by
  obtain ⟨_, hstored⟩ := updateUserProgress_found now type huser
  have hpp := applyActivity_podParticipation now type user
  have hprog := applyActivity_progress now type user
  refine ⟨_, _, _, hstored, rfl, rfl, hpp, ?_, ?_, ?_⟩
  · rw [hprog]
    by_cases hpast : user.nextWeeklyReset < now
    · rw [if_pos hpast, (weeklyResetCheck_past hpast).1]
    · rw [if_neg hpast, weeklyResetCheck_not_past (Nat.le_of_not_lt hpast)]
  · rw [hprog]
    by_cases hpast : user.nextWeeklyReset < now
    · rw [if_pos hpast, (weeklyResetCheck_past hpast).1]
    · rw [if_neg hpast, weeklyResetCheck_not_past (Nat.le_of_not_lt hpast)]
  · intro pp hsome
    rw [hsome] at hpp
    exact ⟨_, hpp, Nat.le_add_right _ _, Nat.le_add_right _ _⟩

/-- The hypothesis and conclusion of `updateUserProgress_participation` on
`progressStore` at time `1001`, a call that performs the rollover. -/
theorem updateUserProgress_participation_witness :
    findUserById progressStore 1 = some activeUser ∧
    ∃ user', findUserById (updateUserProgress progressStore 1001 1 "text").2 1 = some user' ∧
      user'.podParticipation = some { messagesCount := 11, resourcesShared := 2 } ∧
      user'.progress.messages = 1 := by
  obtain ⟨user', m, r, hstored, hm, hr, hpp, hmsg, _, _⟩ :=
    updateUserProgress_participation progressStore 1001 1 "text" activeUser (by decide)
  have hm' : m = 1 := by rw [hm]; decide
  have hr' : r = 0 := by rw [hr]; decide
  subst hm' hr'
  exact ⟨by decide, user', hstored, hpp, hmsg⟩

/-! ## Connections: eligibility and the weekly window -/

/-- C11: for an existing user `checkConnectionEligibility` returns a report whose
`eligible` is true exactly when `podParticipation.messagesCount ≥ 5`,
`podParticipation.resourcesShared ≥ 1` and `progressPoints ≥ 10` (an absent
`podParticipation` counting as zeros), and whose `requirements` hold the three
current values with `required` 5, 1 and 10; so the values 5, 1, 10 are eligible,
and 9 points with the other two thresholds met are not. -/
theorem checkConnectionEligibility_thresholds (st : Store) (userId : ObjectId) (user : User)
    (huser : findUserById st userId = some user) :
    ∃ e, checkConnectionEligibility st userId = .ok e ∧
      (e.eligible = true ↔
        5 ≤ (user.podParticipation.getD { messagesCount := 0, resourcesShared := 0
              }).messagesCount ∧
        1 ≤ (user.podParticipation.getD { messagesCount := 0, resourcesShared := 0
              }).resourcesShared ∧
        10 ≤ user.progressPoints) ∧
      e.requirements =
        { messages :=
            { current := (user.podParticipation.getD { messagesCount := 0, resourcesShared := 0
                }).messagesCount, required := 5 },
          resources :=
            { current := (user.podParticipation.getD { messagesCount := 0, resourcesShared := 0
                }).resourcesShared, required := 1 },
          points := { current := user.progressPoints, required := 10 } } ∧
      (user.podParticipation = some { messagesCount := 5, resourcesShared := 1 } →
        user.progressPoints = 10 → e.eligible = true) ∧
      (user.progressPoints = 9 → e.eligible = false) := by
  unfold checkConnectionEligibility
  rw [huser]
  refine ⟨_, rfl, ?_, ?_, ?_, ?_⟩
  · cases hpp : user.podParticipation <;> simp [hpp, and_assoc]
  · cases hpp : user.podParticipation <;> simp [hpp]
  · intro hpp hpoints
    simp [hpp, hpoints]
  · intro hpoints
    simp [hpoints]

/-- The hypothesis and conclusion of `checkConnectionEligibility_thresholds` on
`eligibleUser`. -/
theorem checkConnectionEligibility_thresholds_witness :
    findUserById peersDb.toStore 1 = some eligibleUser ∧
    ∃ e, checkConnectionEligibility peersDb.toStore 1 = .ok e ∧ e.eligible = true := by
  obtain ⟨e, he, _, _, hexact, _⟩ :=
    checkConnectionEligibility_thresholds peersDb.toStore 1 eligibleUser (by decide)
  exact ⟨by decide, e, he, hexact rfl rfl⟩

/-- C12, the code at a failing input: on `peersDb` user 1 sends a request to user
2 at time 100 and one to user 3 at time 101, a millisecond into the same weekly
window; both get the response 201, and the second request adds a second
connection. -/
theorem postRequest_quota_not_enforced :
    (postRequest peersDb 100 1 2 "Guitar").response.status = 201 ∧
    (postRequest (postRequest peersDb 100 1 2 "Guitar").db 101 1 3 "Guitar").response.status
      = 201 ∧
    (postRequest (postRequest peersDb 100 1 2 "Guitar").db 101 1 3 "Guitar").db.connections.map
      (fun c => c.users) = [[1, 2], [1, 3]] ∧
    (loadUser (postRequest peersDb 100 1 2 "Guitar").db 1).map (fun u => u.weeklyConnections)
      = some none := by
  refine ⟨by decide, by decide, by decide, by decide⟩

theorem oneWeekAgo_lt_iff (weekStartDate now : Nat) :
    weekStartDate < now - 7 * 24 * 60 * 60 * 1000 ↔ weekStartDate + 7 * 86400000 < now := by
  omega

/-- C13: at time `now`, `resetWeeklyConnections` sets `weeklyConnections` to
`{count: 0, weekStartDate: now}` when it is absent or its `weekStartDate` is
more than 7 days before `now`, and returns the user unchanged otherwise, also
at exactly 7 days; applied twice at the same time it gives what one application
gives. -/
theorem resetWeeklyConnections_window (now : Time) (user : UserDocument) :
    (user.weeklyConnections = none →
      resetWeeklyConnections now user
        = { user with weeklyConnections := some { count := 0, weekStartDate := now } }) ∧
    (∀ wc, user.weeklyConnections = some wc → wc.weekStartDate + 7 * 86400000 < now →
      resetWeeklyConnections now user
        = { user with weeklyConnections := some { count := 0, weekStartDate := now } }) ∧
    (∀ wc, user.weeklyConnections = some wc → now ≤ wc.weekStartDate + 7 * 86400000 →
      resetWeeklyConnections now user = user) ∧
    resetWeeklyConnections now (resetWeeklyConnections now user)
      = resetWeeklyConnections now user := by
  refine ⟨?_, ?_, ?_, ?_⟩
  · intro h
    simp [resetWeeklyConnections, h]
  · intro wc h hlt
    have : wc.weekStartDate < now - 7 * 24 * 60 * 60 * 1000 :=
      (oneWeekAgo_lt_iff _ _).mpr hlt
    simp [resetWeeklyConnections, h, this]
  · intro wc h hle
    have : ¬ wc.weekStartDate < now - 7 * 24 * 60 * 60 * 1000 :=
      fun hc => Nat.not_lt.mpr hle ((oneWeekAgo_lt_iff _ _).mp hc)
    simp [resetWeeklyConnections, h, this]
  · cases h : user.weeklyConnections with
    | none => simp [resetWeeklyConnections, h]
    | some wc =>
      by_cases hlt : wc.weekStartDate < now - 7 * 24 * 60 * 60 * 1000
      · simp [resetWeeklyConnections, h, hlt]
      · simp [resetWeeklyConnections, h, hlt]

/-- The conclusion of `resetWeeklyConnections_window` for a window that started
exactly 7 days before `now`. -/
theorem resetWeeklyConnections_window_witness :
    resetWeeklyConnections (1000 + 7 * 86400000)
        { stored := eligibleUser, weeklyConnections := some { count := 1, weekStartDate := 1000 } }
      = { stored := eligibleUser, weeklyConnections := some { count := 1, weekStartDate := 1000 } } :=
  (resetWeeklyConnections_window (1000 + 7 * 86400000)
    { stored := eligibleUser, weeklyConnections := some { count := 1, weekStartDate := 1000 } }).2.2.1
    { count := 1, weekStartDate := 1000 } rfl (Nat.le_refl _)

/-- C15, the code at a failing input: on `peersDb` user 1 names user 1 as the
target; the request gets the response 201 and a connection with
`users = [1, 1]` is stored. -/
theorem postRequest_self_target_accepted :
    (postRequest peersDb 100 1 1 "Guitar").response
      = { status := 201, message := "Connection request sent" } ∧
    (postRequest peersDb 100 1 1 "Guitar").db.connections
      = [{ _id := 1, users := [1, 1], sharedSkill := "Guitar", initiatedBy := 1,
           status := ConnectionStatus.pending }] := by
  refine ⟨by decide, by decide⟩

/-- C18, the code at a failing input: on `activeDb`, whose connection 1 is active
between users 1 and 2 and has no feedback, user 1 submits the rating 5; the
handler throws at its line 271 and the connection is as before, with no feedback
entry. -/
theorem submitFeedback_throws :
    submitFeedback activeDb 300 1 1 5 none
      = (.error "ReferenceError: mongoose is not defined", activeDb) ∧
    (findConnectionById activeDb 1).map (fun c => (c.status, c.feedback.length))
      = some (ConnectionStatus.active, 0) := by
  refine ⟨rfl, by decide⟩

/-- The three weights add up without rounding: the exact sum of the doubles `0.4`
and `0.35` is the double `0.75`, and `0.75 + 0.25` is `1`. -/
theorem double_weights_exact :
    (0 : ℚ) + double040 = double040 ∧ double040 + double035 = 3 / 4 ∧
      (3 / 4 : ℚ) + double025 = 1 := by
  refine ⟨by simp, ?_, ?_⟩ <;> norm_num [double040, double035, double025]

/-- C20: the three-factor score of a profile against itself is exactly 1.00 (100
hundredths, the sum of 40, 35 and 25), and the score of any two profiles lies
between 0 and 1.00. -/
theorem personalityMatchScore_self (p userP podP : Personality) :
    personalityMatchScore p p = 40 + 35 + 25 ∧ personalityMatchScore p p = 100 ∧
    0 ≤ personalityMatchScore userP podP ∧ personalityMatchScore userP podP ≤ 100 := by
  refine ⟨by simp [personalityMatchScore], by simp [personalityMatchScore], Nat.zero_le _, ?_⟩
  unfold personalityMatchScore
  dsimp only
  split <;> split <;> split <;> omega

/-! ## Connections: requests -/

theorem checkConnectionEligibility_ok {st : Store} {userId : ObjectId} {user : User}
    (huser : findUserById st userId = some user) :
    ∃ e, checkConnectionEligibility st userId = .ok e := by
  unfold checkConnectionEligibility
  rw [huser]
  exact ⟨_, rfl⟩

/-- The predicate of the query `Connection.findOne` in `POST /request`. -/
theorem find?_existing_none {db : Database} {userId targetUserId : ObjectId} :
    db.connections.find? (fun c =>
        decide (userId ∈ c.users) && decide (targetUserId ∈ c.users) &&
        (decide (c.status = ConnectionStatus.pending) ||
          decide (c.status = ConnectionStatus.active))) = none ↔
      ∀ c ∈ db.connections, userId ∈ c.users → targetUserId ∈ c.users →
        c.status ≠ ConnectionStatus.pending ∧ c.status ≠ ConnectionStatus.active := by
  rw [List.find?_eq_none]
  constructor
  · intro h c hc hu ht
    have := h c hc
    simp [hu, ht] at this
    exact this
  · intro h c hc
    by_cases hu : userId ∈ c.users <;> by_cases ht : targetUserId ∈ c.users <;> simp [hu, ht]
    exact h c hc hu ht

/-- The handler of `POST /request` for an existing requester and target, as one
case distinction. -/
theorem postRequest_eq {db : Database} {userId targetUserId : ObjectId} {user target : User}
    {e : Eligibility} (now : Time) (sharedSkill : String)
    (huser : findUserById db.toStore userId = some user)
    (htarget : findUserById db.toStore targetUserId = some target)
    (he : checkConnectionEligibility db.toStore userId = .ok e) :
    postRequest db now userId targetUserId sharedSkill =
      if e.eligible = false then
        { response := { status := 403, message := "Not eligible" },
          user := some { stored := user }, db := db }
      else if (db.connections.find? (fun c =>
          decide (userId ∈ c.users) && decide (targetUserId ∈ c.users) &&
          (decide (c.status = ConnectionStatus.pending) ||
            decide (c.status = ConnectionStatus.active)))).isSome then
        { response := { status := 400, message := "Connection already exists" },
          user := some (resetWeeklyConnections now { stored := user }), db := db }
      else if ¬ (sharedSkill ∈ user.selectedSkills ∧ sharedSkill ∈ target.selectedSkills) then
        { response := { status := 400, message := "Skill not shared by both users" },
          user := some (resetWeeklyConnections now { stored := user }), db := db }
      else
        { response := { status := 201, message := "Connection request sent" },
          user := some { stored := user,
                         weeklyConnections := some { count := 0 + 1, weekStartDate := now } },
          db := { db with connections := db.connections ++
            [{ _id := freshConnectionId db.connections, users := [userId, targetUserId],
               sharedSkill := sharedSkill, initiatedBy := userId,
               status := ConnectionStatus.pending }] } } := by
  unfold postRequest loadUser
  rw [htarget, huser, he]
  cases hel : e.eligible
  · simp [hel]
  · cases hex : db.connections.find? (fun c =>
          decide (userId ∈ c.users) && decide (targetUserId ∈ c.users) &&
          (decide (c.status = ConnectionStatus.pending) ||
            decide (c.status = ConnectionStatus.active)))
    · by_cases h1 : sharedSkill ∈ user.selectedSkills <;>
        by_cases h2 : sharedSkill ∈ target.selectedSkills <;>
        simp [resetWeeklyConnections, h1, h2, hel, hex]
    · simp [resetWeeklyConnections, hel, hex]

theorem le_foldl_max_connection_id (connections : List Connection) :
    ∀ (m : Nat), m ≤ connections.foldl (fun m c => max m c._id) m ∧
      ∀ c ∈ connections, c._id ≤ connections.foldl (fun m c => max m c._id) m := by
  induction connections with
  | nil => intro m; simp
  | cons q qs ih =>
    intro m
    simp only [List.foldl_cons]
    obtain ⟨h1, h2⟩ := ih (max m q._id)
    refine ⟨le_trans (le_max_left _ _) h1, ?_⟩
    intro c hc
    rcases List.mem_cons.mp hc with rfl | hc
    · exact le_trans (le_max_right _ _) h1
    · exact h2 c hc

theorem freshConnectionId_fresh (connections : List Connection) :
    ∀ c ∈ connections, c._id ≠ freshConnectionId connections := by
  intro c hc
  have h := (le_foldl_max_connection_id connections 0).2 c hc
  unfold freshConnectionId
  exact Nat.ne_of_lt (Nat.lt_succ_of_le h)

/-- For an existing requester and an existing target, `POST /request` answers 201
exactly when the requester is eligible per `checkConnectionEligibility`, no
pending or active connection lists both users, and `sharedSkill` is among the
selected skills of both; no weekly count is part of the condition.  On success
exactly one connection is appended, under an unused `_id`, with
`users = [requester, target]`, `initiatedBy = requester`, status pending and no
feedback, and users and pods are untouched.  On any other answer the database
is unchanged. -/
theorem postRequest_created_iff (db : Database) (now : Time) (userId targetUserId : ObjectId)
    (sharedSkill : String) (user target : User)
    (huser : findUserById db.toStore userId = some user)
    (htarget : findUserById db.toStore targetUserId = some target) :
    ((postRequest db now userId targetUserId sharedSkill).response.status = 201 ↔
      (∃ e, checkConnectionEligibility db.toStore userId = .ok e ∧ e.eligible = true) ∧
      (∀ c ∈ db.connections, userId ∈ c.users → targetUserId ∈ c.users →
        c.status ≠ ConnectionStatus.pending ∧ c.status ≠ ConnectionStatus.active) ∧
      sharedSkill ∈ user.selectedSkills ∧ sharedSkill ∈ target.selectedSkills) ∧
    ((postRequest db now userId targetUserId sharedSkill).response.status = 201 →
      (postRequest db now userId targetUserId sharedSkill).db.toStore = db.toStore ∧
      (∃ conn, (postRequest db now userId targetUserId sharedSkill).db.connections
            = db.connections ++ [conn] ∧
          (∀ c ∈ db.connections, c._id ≠ conn._id) ∧
          conn.users = [userId, targetUserId] ∧ conn.initiatedBy = userId ∧
          conn.status = ConnectionStatus.pending ∧ conn.sharedSkill = sharedSkill ∧
          conn.feedback = [])) ∧
    ((postRequest db now userId targetUserId sharedSkill).response.status ≠ 201 →
      (postRequest db now userId targetUserId sharedSkill).db = db) := by
  obtain ⟨e, he⟩ := checkConnectionEligibility_ok huser
  have hfresh := freshConnectionId_fresh db.connections
  have hval := postRequest_eq now sharedSkill huser htarget he
  cases hel : e.eligible
  · rw [hel] at hval
    simp only [if_true] at hval
    rw [hval]
    refine ⟨⟨fun h => by simp at h, fun h => ?_⟩, fun h => by simp at h, fun _ => rfl⟩
    obtain ⟨⟨e', he', hel'⟩, _⟩ := h
    rw [he] at he'
    cases he'
    rw [hel] at hel'
    cases hel'
  · rw [hel] at hval
    simp only [Bool.true_eq_false, if_false] at hval
    cases hex : db.connections.find? (fun c =>
          decide (userId ∈ c.users) && decide (targetUserId ∈ c.users) &&
          (decide (c.status = ConnectionStatus.pending) ||
            decide (c.status = ConnectionStatus.active)))
    · have hnone := find?_existing_none.mp hex
      rw [hex] at hval
      simp only [Option.isSome_none, Bool.false_eq_true, if_false] at hval
      by_cases hshared : sharedSkill ∈ user.selectedSkills ∧ sharedSkill ∈ target.selectedSkills
      · rw [if_neg (not_not.mpr hshared)] at hval
        rw [hval]
        exact ⟨⟨fun _ => ⟨⟨e, he, hel⟩, hnone, hshared⟩, fun _ => rfl⟩,
          fun _ => ⟨rfl, ⟨_, rfl, hfresh, rfl, rfl, rfl, rfl, rfl⟩⟩,
          fun h => absurd rfl h⟩
      · rw [if_pos hshared] at hval
        rw [hval]
        exact ⟨⟨fun h => by simp at h, fun h => absurd h.2.2 hshared⟩,
          fun h => by simp at h, fun _ => rfl⟩
    · have hsome : ¬ ∀ c ∈ db.connections, userId ∈ c.users → targetUserId ∈ c.users →
          c.status ≠ ConnectionStatus.pending ∧ c.status ≠ ConnectionStatus.active := by
        intro hc
        rw [find?_existing_none.mpr hc] at hex
        cases hex
      rw [hex] at hval
      simp only [Option.isSome_some, if_true] at hval
      rw [hval]
      exact ⟨⟨fun h => by simp at h, fun h => absurd h.2.1 hsome⟩,
        fun h => by simp at h, fun _ => rfl⟩

/-! ## Connections: responses -/

theorem findConnectionById_some {db : Database} {id : ObjectId} {conn : Connection}
    (h : findConnectionById db id = some conn) : conn ∈ db.connections ∧ conn._id = id := by
  unfold findConnectionById at h
  refine ⟨List.mem_of_find?_eq_some h, ?_⟩
  have := List.find?_some h
  simpa using this

theorem eq_of_connection_id_eq {connections : List Connection}
    (hids : (connections.map (fun c => c._id)).Nodup) {c c' : Connection}
    (hc : c ∈ connections) (hc' : c' ∈ connections) (h : c._id = c'._id) : c = c' :=
  List.inj_on_of_nodup_map hids hc hc' h

theorem mem_saveConnection {db : Database} {conn c : Connection}
    (h : c ∈ (saveConnection db conn).connections) :
    c = conn ∨ (c ∈ db.connections ∧ c._id ≠ conn._id) := by
  unfold saveConnection at h
  simp only [List.mem_map] at h
  obtain ⟨x, hx, hxc⟩ := h
  by_cases hid : x._id = conn._id
  · rw [if_pos hid] at hxc
    exact Or.inl hxc.symm
  · rw [if_neg hid] at hxc
    subst hxc
    exact Or.inr ⟨hx, hid⟩

theorem saveConnection_mem_of_ne {db : Database} {conn c : Connection}
    (hc : c ∈ db.connections) (hne : c._id ≠ conn._id) :
    c ∈ (saveConnection db conn).connections := by
  unfold saveConnection
  simp only [List.mem_map]
  exact ⟨c, hc, by rw [if_neg hne]⟩

theorem saveConnection_mem_self {db : Database} {conn old : Connection}
    (hold : old ∈ db.connections) (hid : old._id = conn._id) :
    conn ∈ (saveConnection db conn).connections := by
  unfold saveConnection
  simp only [List.mem_map]
  exact ⟨old, hold, by rw [if_pos hid]⟩

theorem saveConnection_ids (db : Database) (conn : Connection) :
    (saveConnection db conn).connections.map (fun c => c._id)
      = db.connections.map (fun c => c._id) := by
  unfold saveConnection
  simp only [List.map_map]
  apply List.map_congr_left
  intro x _
  simp only [Function.comp]
  split
  · rename_i h; exact h.symm
  · rfl

theorem mem_eraseP_connection_id (id : ObjectId) :
    ∀ {connections : List Connection}, (connections.map (fun c => c._id)).Nodup →
      ∀ c, c ∈ connections.eraseP (fun c => c._id == id) ↔ c ∈ connections ∧ c._id ≠ id := by
  intro connections
  induction connections with
  | nil => intro _ c; simp
  | cons a t ih =>
    intro hids c
    rw [List.map_cons, List.nodup_cons] at hids
    by_cases ha : a._id = id
    · have he : (a :: t).eraseP (fun c => c._id == id) = t := by
        simp [List.eraseP_cons, ha]
      rw [he]
      constructor
      · intro hc
        refine ⟨List.mem_cons_of_mem _ hc, ?_⟩
        intro hcid
        exact hids.1 (List.mem_map.mpr ⟨c, hc, by rw [hcid, ha]⟩)
      · rintro ⟨hc, hcid⟩
        rcases List.mem_cons.mp hc with rfl | hc
        · exact absurd ha hcid
        · exact hc
    · have he : (a :: t).eraseP (fun c => c._id == id)
          = a :: t.eraseP (fun c => c._id == id) := by
        simp [List.eraseP_cons, ha]
      rw [he, List.mem_cons, ih hids.2 c, List.mem_cons]
      constructor
      · rintro (rfl | ⟨hc, hcid⟩)
        · exact ⟨Or.inl rfl, ha⟩
        · exact ⟨Or.inr hc, hcid⟩
      · rintro ⟨rfl | hc, hcid⟩
        · exact Or.inl rfl
        · exact Or.inr ⟨hc, hcid⟩

/-- The handler of `POST /:connectionId/respond` on a caller who may respond. -/
theorem postRespond_allowed {db : Database} {userId connectionId : ObjectId}
    {conn : Connection} (now : Time) (response : Option String)
    (hconn : findConnectionById db connectionId = some conn)
    (hmem : userId ∈ conn.users) (hinit : conn.initiatedBy ≠ userId) :
    postRespond db now userId connectionId response =
      if response = some "accept" then
        ({ status := 200, message := "Connection accepted" },
          saveConnection db { conn with
            status := ConnectionStatus.active,
            evaluationPeriod := { conn.evaluationPeriod with startDate := some now } })
      else
        ({ status := 200, message := "Connection rejected" },
          { db with connections := db.connections.eraseP (fun c => c._id == connectionId) }) := by
  unfold postRespond
  rw [hconn]
  simp [hmem, hinit]

/-- The handler of `POST /:connectionId/respond` on a caller who may not respond. -/
theorem postRespond_denied {db : Database} {userId connectionId : ObjectId}
    {conn : Connection} (now : Time) (response : Option String)
    (hconn : findConnectionById db connectionId = some conn)
    (hdenied : userId ∉ conn.users ∨ conn.initiatedBy = userId) :
    (postRespond db now userId connectionId response).2 = db ∧
      ((postRespond db now userId connectionId response).1.status = 403 ∨
        (postRespond db now userId connectionId response).1.status = 400) := by
  unfold postRespond
  rw [hconn]
  by_cases hmem : userId ∈ conn.users
  · rcases hdenied with h | h
    · exact absurd hmem h
    · simp [hmem, h]
  · simp [hmem]

theorem postRespond_not_found {db : Database} {userId connectionId : ObjectId}
    (now : Time) (response : Option String)
    (hconn : findConnectionById db connectionId = none) :
    (postRespond db now userId connectionId response).2 = db := by
  unfold postRespond
  rw [hconn]

theorem findConnectionById_saveConnection {db : Database} {id : ObjectId}
    {conn conn' : Connection} (h : findConnectionById db id = some conn)
    (hid : conn'._id = conn._id) :
    findConnectionById (saveConnection db conn') id = some conn' := by
  have hc := (findConnectionById_some h).2
  unfold findConnectionById saveConnection at *
  simp only
  generalize db.connections = cs at h
  induction cs with
  | nil => simp at h
  | cons v vs ih =>
    simp only [List.find?_cons, List.map_cons] at h ⊢
    by_cases hv : v._id = id
    · simp [hv, hid, hc]
    · have hv' : (v._id == id) = false := by simpa using hv
      rw [hv'] at h
      have hne : v._id ≠ conn'._id := by rw [hid, hc]; exact hv
      simp only [hne, if_false, hv']
      exact ih h

/-- C16: for an existing connection (connection `_id`s being distinct), a
response by a caller who is not one of its users, or who is its `initiatedBy`,
is answered with an error status and leaves the database unchanged.  For a
caller who is one of its users and not its `initiatedBy`: `accept` stores
`status = active` and `evaluationPeriod.startDate = now` on that connection,
with `users`, `sharedSkill`, `initiatedBy`, `feedback` and the end date as they
were, and keeps every other connection; `reject` leaves no connection with that
`_id` in the store and keeps exactly the others. -/
theorem postRespond_authorized (db : Database) (now : Time) (userId connectionId : ObjectId)
    (response : Option String) (conn : Connection)
    (hids : (db.connections.map (fun c => c._id)).Nodup)
    (hconn : findConnectionById db connectionId = some conn) :
    ((userId ∉ conn.users ∨ conn.initiatedBy = userId) →
      (postRespond db now userId connectionId response).2 = db ∧
      (postRespond db now userId connectionId response).1.status ≠ 200) ∧
    (userId ∈ conn.users → conn.initiatedBy ≠ userId →
      (postRespond db now userId connectionId response).2.toStore = db.toStore ∧
      (response = some "accept" →
        (∃ conn', findConnectionById (postRespond db now userId connectionId response).2
              connectionId = some conn' ∧
            conn'.status = ConnectionStatus.active ∧
            conn'.evaluationPeriod.startDate = some now ∧
            conn'.evaluationPeriod.endDate = conn.evaluationPeriod.endDate ∧
            conn'.users = conn.users ∧ conn'.sharedSkill = conn.sharedSkill ∧
            conn'.initiatedBy = conn.initiatedBy ∧ conn'.feedback = conn.feedback) ∧
        (∀ c ∈ db.connections, c._id ≠ connectionId →
          c ∈ (postRespond db now userId connectionId response).2.connections) ∧
        (postRespond db now userId connectionId response).2.connections.map (fun c => c._id)
          = db.connections.map (fun c => c._id)) ∧
      (response = some "reject" →
        findConnectionById (postRespond db now userId connectionId response).2 connectionId
          = none ∧
        ∀ c, c ∈ (postRespond db now userId connectionId response).2.connections ↔
          c ∈ db.connections ∧ c._id ≠ connectionId)) := by
  have hcid := (findConnectionById_some hconn).2
  constructor
  · intro hdenied
    obtain ⟨hdb, hstatus⟩ := postRespond_denied now response hconn hdenied
    refine ⟨hdb, ?_⟩
    rcases hstatus with h | h <;> rw [h] <;> decide
  · intro hmem hinit
    rw [postRespond_allowed now response hconn hmem hinit]
    refine ⟨?_, ?_, ?_⟩
    · split <;> rfl
    · intro hacc
      rw [if_pos hacc]
      refine ⟨⟨_, findConnectionById_saveConnection hconn rfl, rfl, rfl, rfl, rfl, rfl, rfl, rfl⟩,
        ?_, saveConnection_ids _ _⟩
      intro c hc hne
      exact saveConnection_mem_of_ne hc (by rw [hcid]; exact hne)
    · intro hrej
      have hne : response ≠ some "accept" := by rw [hrej]; decide
      rw [if_neg hne]
      have hmemErase := mem_eraseP_connection_id connectionId hids
      refine ⟨?_, hmemErase⟩
      unfold findConnectionById
      rw [List.find?_eq_none]
      intro c hc
      have := ((hmemErase c).mp hc).2
      simpa using this

/-- The hypotheses and part of the conclusion of `postRespond_authorized` on the
pending request of user 1 to user 2, accepted by user 2 at time 200. -/
theorem postRespond_authorized_witness :
    findConnectionById (postRequest peersDb 100 1 2 "Guitar").db 1
      = some { _id := 1, users := [1, 2], sharedSkill := "Guitar", initiatedBy := 1 } ∧
    ∃ conn', findConnectionById
          (postRespond (postRequest peersDb 100 1 2 "Guitar").db 200 2 1 (some "accept")).2 1
          = some conn' ∧
        conn'.status = ConnectionStatus.active ∧
        conn'.evaluationPeriod.startDate = some 200 ∧
        conn'.evaluationPeriod.endDate = none ∧
        conn'.users = [1, 2] ∧ conn'.sharedSkill = "Guitar" ∧
        conn'.initiatedBy = 1 ∧ conn'.feedback = [] :=
  ⟨by decide,
    (((postRespond_authorized (postRequest peersDb 100 1 2 "Guitar").db 200 2 1 (some "accept")
      { _id := 1, users := [1, 2], sharedSkill := "Guitar", initiatedBy := 1 }
      (by decide) (by decide)).2 (by decide) (by decide)).2.1 rfl).1⟩

/-! ## Connections: feedback -/

theorem pushFeedback_id (connection : Connection) (now : Time) (userId : ObjectId)
    (rating : Nat) (comment : Option String) :
    (pushFeedback connection now userId rating comment)._id = connection._id := by
  unfold pushFeedback
  dsimp only
  split <;> rfl

theorem pushFeedback_users (connection : Connection) (now : Time) (userId : ObjectId)
    (rating : Nat) (comment : Option String) :
    (pushFeedback connection now userId rating comment).users = connection.users := by
  unfold pushFeedback
  dsimp only
  split <;> rfl

theorem pushFeedback_feedback (connection : Connection) (now : Time) (userId : ObjectId)
    (rating : Nat) (comment : Option String) :
    (pushFeedback connection now userId rating comment).feedback
      = connection.feedback ++
        [{ fromUser := userId, rating := rating, comment := comment.getD "",
           isAnonymous := true, createdAt := now }] := by
  unfold pushFeedback
  dsimp only
  split <;> rfl

theorem pushFeedback_status (connection : Connection) (now : Time) (userId : ObjectId)
    (rating : Nat) (comment : Option String) :
    (connection.feedback.length + 1 < 2 →
      (pushFeedback connection now userId rating comment).status = connection.status ∧
      (pushFeedback connection now userId rating comment).evaluationPeriod
        = connection.evaluationPeriod) ∧
    (2 ≤ connection.feedback.length + 1 →
      (pushFeedback connection now userId rating comment).status = ConnectionStatus.completed ∧
      (pushFeedback connection now userId rating comment).evaluationPeriod
        = { connection.evaluationPeriod with endDate := some now }) := by
  unfold pushFeedback
  dsimp only
  constructor
  · intro h
    rw [if_neg (by simp only [List.length_append, List.length_singleton]; omega)]
    exact ⟨rfl, rfl⟩
  · intro h
    rw [if_pos (by simp only [List.length_append, List.length_singleton]; omega)]
    exact ⟨rfl, rfl⟩

theorem pushFeedback_status_or (connection : Connection) (now : Time) (userId : ObjectId)
    (rating : Nat) (comment : Option String) :
    (pushFeedback connection now userId rating comment).status = connection.status ∨
      (pushFeedback connection now userId rating comment).status = ConnectionStatus.completed := by
  by_cases h : connection.feedback.length + 1 < 2
  · exact Or.inl ((pushFeedback_status connection now userId rating comment).1 h).1
  · exact Or.inr ((pushFeedback_status connection now userId rating comment).2
      (Nat.le_of_not_lt h)).1

/-- The `try` block: either nothing is written and the answer is an error status,
or the caller is a participant without an entry and the block saves the
connection with the new entry. -/
theorem feedbackTryBlock_cases (db : Database) (now : Time) (userId connectionId : ObjectId)
    (rating : Nat) (comment : Option String) :
    ((feedbackTryBlock db now userId connectionId rating comment).2 = db ∧
      ((feedbackTryBlock db now userId connectionId rating comment).1.status = 404 ∨
       (feedbackTryBlock db now userId connectionId rating comment).1.status = 403 ∨
       (feedbackTryBlock db now userId connectionId rating comment).1.status = 400)) ∨
    ∃ conn, findConnectionById db connectionId = some conn ∧ userId ∈ conn.users ∧
      (∀ f ∈ conn.feedback, f.fromUser ≠ userId) ∧
      feedbackTryBlock db now userId connectionId rating comment
        = ({ status := 200, message := "Feedback submitted successfully" },
            saveConnection db (pushFeedback conn now userId rating comment)) := by
  unfold feedbackTryBlock
  cases hconn : findConnectionById db connectionId with
  | none => left; exact ⟨rfl, Or.inl rfl⟩
  | some conn =>
    by_cases hmem : userId ∈ conn.users
    · cases hfb : conn.feedback.find? (fun f => f.fromUser == userId) with
      | some f => left; simp [hmem, hfb]
      | none =>
        right
        refine ⟨conn, rfl, hmem, ?_, by simp [hmem, hfb]⟩
        intro f hf
        have := List.find?_eq_none.mp hfb f hf
        simpa using this
    · left; simp [hmem]

/-- The whole handler: either nothing is written, or the identifier is bound and
the `try` block saves the connection with the new entry. -/
theorem feedbackHandler_cases (mongooseBound : Bool) (db : Database) (now : Time)
    (userId connectionId : ObjectId) (rating : Nat) (comment : Option String) :
    (feedbackHandler mongooseBound db now userId connectionId rating comment).2 = db ∨
    (mongooseBound = true ∧
      ∃ conn, findConnectionById db connectionId = some conn ∧ userId ∈ conn.users ∧
        (∀ f ∈ conn.feedback, f.fromUser ≠ userId) ∧
        (feedbackHandler mongooseBound db now userId connectionId rating comment).2
          = saveConnection db (pushFeedback conn now userId rating comment)) := by
  unfold feedbackHandler
  by_cases hr : rating = 0 ∨ rating < 1 ∨ rating > 5
  · left; rw [if_pos hr]
  · rw [if_neg hr]
    cases mongooseBound with
    | false => left; rfl
    | true =>
      simp only [Bool.not_true, Bool.false_eq_true, if_false]
      rcases feedbackTryBlock_cases db now userId connectionId rating comment with
        ⟨h, _⟩ | ⟨conn, hconn, hmem, hnew, heq⟩
      · left; exact h
      · right
        exact ⟨trivial, conn, hconn, hmem, hnew, by rw [heq]⟩

/-- One submission keeps, on every connection, the authors of the feedback
entries distinct and among the users of the connection. -/
theorem feedbackHandler_preserves (mongooseBound : Bool) (db : Database) (now : Time)
    (userId connectionId : ObjectId) (rating : Nat) (comment : Option String)
    (hinv : ∀ c ∈ db.connections,
      (c.feedback.map (fun f => f.fromUser)).Nodup ∧ ∀ f ∈ c.feedback, f.fromUser ∈ c.users) :
    ∀ c ∈ (feedbackHandler mongooseBound db now userId connectionId rating comment).2.connections,
      (c.feedback.map (fun f => f.fromUser)).Nodup ∧ ∀ f ∈ c.feedback, f.fromUser ∈ c.users := by
  rcases feedbackHandler_cases mongooseBound db now userId connectionId rating comment with
    h | ⟨_, conn, hconn, hmem, hnew, heq⟩
  · rw [h]; exact hinv
  · rw [heq]
    intro c hc
    rcases mem_saveConnection hc with rfl | ⟨hold, _⟩
    · obtain ⟨hnd, hsub⟩ := hinv conn (findConnectionById_some hconn).1
      rw [pushFeedback_feedback, pushFeedback_users]
      constructor
      · rw [List.map_append]
        refine List.Nodup.append hnd (by simp) ?_
        intro u hu hu'
        simp only [List.map_cons, List.map_nil, List.mem_singleton] at hu'
        obtain ⟨f, hf, hfu⟩ := List.mem_map.mp hu
        exact hnew f hf (hfu.trans hu')
      · intro f hf
        rcases List.mem_append.mp hf with hf | hf
        · exact hsub f hf
        · simp only [List.mem_singleton] at hf
          subst hf
          exact hmem
    · exact hinv c hold

theorem submitFeedbackAll_preserves (mongooseBound : Bool)
    (calls : List (Time × ObjectId × ObjectId × Nat)) :
    ∀ (db : Database), (∀ c ∈ db.connections,
        (c.feedback.map (fun f => f.fromUser)).Nodup ∧ ∀ f ∈ c.feedback, f.fromUser ∈ c.users) →
      ∀ c ∈ (submitFeedbackAll mongooseBound db calls).connections,
        (c.feedback.map (fun f => f.fromUser)).Nodup ∧
          ∀ f ∈ c.feedback, f.fromUser ∈ c.users := by
  induction calls with
  | nil => intro db hinv; exact hinv
  | cons call rest ih =>
    intro db hinv
    obtain ⟨now, userId, connectionId, rating⟩ := call
    unfold submitFeedbackAll
    exact ih _ (feedbackHandler_preserves mongooseBound db now userId connectionId rating none hinv)

/-- Whether or not the identifier `mongoose` is bound, a feedback submission
by a user who already has an entry on the connection, or by a user who is not
one of its users, leaves the database unchanged, and where the handler answers
the answer is 400 or 403.  Hence, from a store in which on
every connection each user has at most one entry and every entry is by one of
its users (as on a new connection, which has none), every sequence of
submissions leads to a store with the same property, and a connection with two
users has at most 2 entries. -/
theorem feedbackHandler_rejects_duplicates (mongooseBound : Bool) (db : Database) :
    (∀ now userId connectionId rating comment conn,
      findConnectionById db connectionId = some conn →
      ((∃ f ∈ conn.feedback, f.fromUser = userId) ∨ userId ∉ conn.users) →
      (feedbackHandler mongooseBound db now userId connectionId rating comment).2 = db ∧
      ∀ resp, (feedbackHandler mongooseBound db now userId connectionId rating comment).1
          = .ok resp → resp.status = 400 ∨ resp.status = 403) ∧
    (∀ calls,
      (∀ c ∈ db.connections,
        (∀ u, (c.feedback.map (fun f => f.fromUser)).count u ≤ 1) ∧
        ∀ f ∈ c.feedback, f.fromUser ∈ c.users) →
      ∀ c ∈ (submitFeedbackAll mongooseBound db calls).connections,
        (∀ u, (c.feedback.map (fun f => f.fromUser)).count u ≤ 1) ∧
        (∀ f ∈ c.feedback, f.fromUser ∈ c.users) ∧
        (c.users.length = 2 → c.feedback.length ≤ 2)) := by
  constructor
  · intro now userId connectionId rating comment conn hconn hrej
    have hdb : (feedbackHandler mongooseBound db now userId connectionId rating comment).2
        = db := by
      rcases feedbackHandler_cases mongooseBound db now userId connectionId rating comment with
        h | ⟨_, conn', hconn', hmem, hnew, _⟩
      · exact h
      · rw [hconn] at hconn'
        cases hconn'
        rcases hrej with ⟨f, hf, hfu⟩ | hnot
        · exact absurd hfu (hnew f hf)
        · exact absurd hmem hnot
    refine ⟨hdb, ?_⟩
    intro resp hresp
    unfold feedbackHandler at hresp
    by_cases hr : rating = 0 ∨ rating < 1 ∨ rating > 5
    · rw [if_pos hr] at hresp
      simp only [Except.ok.injEq] at hresp
      rw [← hresp]
      exact Or.inl rfl
    · rw [if_neg hr] at hresp
      cases mongooseBound with
      | false => simp at hresp
      | true =>
        simp only [Bool.not_true, Bool.false_eq_true, if_false, Except.ok.injEq] at hresp
        rw [← hresp]
        rcases feedbackTryBlock_cases db now userId connectionId rating comment with
          ⟨_, h404 | h403 | h400⟩ | ⟨conn', hconn', hmem, hnew, _⟩
        · exfalso
          unfold feedbackTryBlock at h404
          rw [hconn] at h404
          by_cases hmem : userId ∈ conn.users
          · cases hfb : conn.feedback.find? (fun f => f.fromUser == userId) <;>
              simp [hmem, hfb] at h404
          · simp [hmem] at h404
        · exact Or.inr h403
        · exact Or.inl h400
        · rw [hconn] at hconn'
          cases hconn'
          rcases hrej with ⟨f, hf, hfu⟩ | hnot
          · exact absurd hfu (hnew f hf)
          · exact absurd hmem hnot
  · intro calls hinv c hc
    have hinv' : ∀ c ∈ db.connections,
        (c.feedback.map (fun f => f.fromUser)).Nodup ∧
          ∀ f ∈ c.feedback, f.fromUser ∈ c.users :=
      fun c hc => ⟨List.nodup_iff_count_le_one.mpr (hinv c hc).1, (hinv c hc).2⟩
    obtain ⟨hnd, hsub⟩ := submitFeedbackAll_preserves mongooseBound calls db hinv' c hc
    refine ⟨List.nodup_iff_count_le_one.mp hnd, hsub, ?_⟩
    intro hlen
    have hsubset : c.feedback.map (fun f => f.fromUser) ⊆ c.users := by
      intro u hu
      obtain ⟨f, hf, hfu⟩ := List.mem_map.mp hu
      exact hfu ▸ hsub f hf
    have := (List.subperm_of_subset hnd hsubset).length_le
    rw [List.length_map, hlen] at this
    exact this

/-- The conclusion of `feedbackHandler_rejects_duplicates` on `activeDb`, with the
identifier bound: after four submissions, two of them repeats or by an
outsider, connection 1 has two entries. -/
theorem feedbackHandler_rejects_duplicates_bound :
    (∀ c ∈ activeDb.connections,
      (∀ u, (c.feedback.map (fun f => f.fromUser)).count u ≤ 1) ∧
      ∀ f ∈ c.feedback, f.fromUser ∈ c.users) ∧
    ∀ c ∈ (submitFeedbackAll true activeDb
        [(300, 1, 1, 5), (301, 1, 1, 4), (302, 2, 1, 3), (303, 3, 1, 3)]).connections,
      (∀ u, (c.feedback.map (fun f => f.fromUser)).count u ≤ 1) ∧
      (∀ f ∈ c.feedback, f.fromUser ∈ c.users) ∧
      (c.users.length = 2 → c.feedback.length ≤ 2) := by
  have hempty : ∀ c ∈ activeDb.connections, c.feedback = [] := by decide
  have hinv : ∀ c ∈ activeDb.connections,
      (∀ u, (c.feedback.map (fun f => f.fromUser)).count u ≤ 1) ∧
      ∀ f ∈ c.feedback, f.fromUser ∈ c.users := by
    intro c hc
    rw [hempty c hc]
    simp
  exact ⟨hinv, (feedbackHandler_rejects_duplicates true activeDb).2
    [(300, 1, 1, 5), (301, 1, 1, 4), (302, 2, 1, 3), (303, 3, 1, 3)] hinv⟩

/-! ## Connections: how the status moves -/

/-- The handler of `POST /request` writes nothing, or appends one pending
connection under an unused `_id`. -/
theorem postRequest_db (db : Database) (now : Time) (userId targetUserId : ObjectId)
    (sharedSkill : String) :
    (postRequest db now userId targetUserId sharedSkill).db = db ∨
    ∃ conn, conn._id = freshConnectionId db.connections ∧
      conn.status = ConnectionStatus.pending ∧
      (postRequest db now userId targetUserId sharedSkill).db
        = { db with connections := db.connections ++ [conn] } := by
  unfold postRequest
  dsimp only
  repeat' split
  all_goals first
    | exact Or.inl rfl
    | exact Or.inr ⟨_, rfl, rfl, rfl⟩

theorem findConnectionById_of_mem {db : Database} {c : Connection}
    (hids : (db.connections.map (fun c => c._id)).Nodup) (hc : c ∈ db.connections) :
    findConnectionById db c._id = some c := by
  cases h : findConnectionById db c._id with
  | none =>
    unfold findConnectionById at h
    have := List.find?_eq_none.mp h c hc
    simp at this
  | some x =>
    obtain ⟨hx, hxid⟩ := findConnectionById_some h
    rw [eq_of_connection_id_eq hids hx hc hxid]

/-- C17, amended: for every connection `c` of a store with distinct connection
`_id`s and every call of the request, respond and feedback routes (the
identifier `mongoose` bound or not): the connection with the `_id` of `c` never
has status pending after the call unless `c` had it before; a request leaves
`c` as it is; a feedback submission keeps a connection with that `_id` and the
same users, whose status is that of `c` or completed; a response by a user of
`c` other than its `initiatedBy` makes the status active on `accept` and
removes the connection on any other response, whatever the status of `c` is. -/
theorem applyConnectionOp_status (mongooseBound : Bool) (db : Database) (now : Time)
    (c : Connection)
    (hids : (db.connections.map (fun c => c._id)).Nodup)
    (hc : c ∈ db.connections) :
    (∀ op, ∀ c' ∈ (applyConnectionOp mongooseBound db now op).connections,
      c'._id = c._id → c'.status = ConnectionStatus.pending →
      c.status = ConnectionStatus.pending) ∧
    (∀ userId targetUserId sharedSkill,
      c ∈ (applyConnectionOp mongooseBound db now
        (ConnectionOp.request userId targetUserId sharedSkill)).connections) ∧
    (∀ userId connectionId rating comment,
      ∃ c' ∈ (applyConnectionOp mongooseBound db now
          (ConnectionOp.feedback userId connectionId rating comment)).connections,
        c'._id = c._id ∧ c'.users = c.users ∧
        (c'.status = c.status ∨ c'.status = ConnectionStatus.completed)) ∧
    (∀ userId response, userId ∈ c.users → c.initiatedBy ≠ userId →
      (response = some "accept" →
        ∃ c' ∈ (applyConnectionOp mongooseBound db now
            (ConnectionOp.respond userId c._id response)).connections,
          c'._id = c._id ∧ c'.status = ConnectionStatus.active) ∧
      (response ≠ some "accept" →
        ∀ c' ∈ (applyConnectionOp mongooseBound db now
            (ConnectionOp.respond userId c._id response)).connections,
          c'._id ≠ c._id)) := by
  have hsame : ∀ c' ∈ db.connections, c'._id = c._id → c' = c :=
    fun c' hc' hid => eq_of_connection_id_eq hids hc' hc hid
  refine ⟨?_, ?_, ?_, ?_⟩
  · intro op c' hc' hid hpending
    cases op with
    | request userId targetUserId sharedSkill =>
      simp only [applyConnectionOp] at hc'
      rcases postRequest_db db now userId targetUserId sharedSkill with h | ⟨conn, hcid, _, h⟩
      · rw [h] at hc'
        rw [← hsame c' hc' hid]; exact hpending
      · rw [h] at hc'
        rcases List.mem_append.mp hc' with hold | hnew
        · rw [← hsame c' hold hid]; exact hpending
        · simp only [List.mem_singleton] at hnew
          subst hnew
          exact absurd (hid.symm.trans hcid) (freshConnectionId_fresh db.connections c hc)
    | respond userId connectionId response =>
      simp only [applyConnectionOp] at hc'
      cases hconn : findConnectionById db connectionId with
      | none =>
        rw [postRespond_not_found now response hconn] at hc'
        rw [← hsame c' hc' hid]; exact hpending
      | some conn =>
        by_cases hallowed : userId ∈ conn.users ∧ conn.initiatedBy ≠ userId
        · rw [postRespond_allowed now response hconn hallowed.1 hallowed.2] at hc'
          by_cases hacc : response = some "accept"
          · rw [if_pos hacc] at hc'
            rcases mem_saveConnection hc' with rfl | ⟨hold, _⟩
            · cases hpending
            · rw [← hsame c' hold hid]; exact hpending
          · rw [if_neg hacc] at hc'
            have hold := ((mem_eraseP_connection_id connectionId hids c').mp hc').1
            rw [← hsame c' hold hid]; exact hpending
        · have hdenied : userId ∉ conn.users ∨ conn.initiatedBy = userId := by
            by_cases hmem : userId ∈ conn.users
            · right
              by_contra hne
              exact hallowed ⟨hmem, hne⟩
            · exact Or.inl hmem
          rw [(postRespond_denied now response hconn hdenied).1] at hc'
          rw [← hsame c' hc' hid]; exact hpending
    | feedback userId connectionId rating comment =>
      simp only [applyConnectionOp] at hc'
      rcases feedbackHandler_cases mongooseBound db now userId connectionId rating comment with
        h | ⟨_, conn, hconn, _, _, h⟩
      · rw [h] at hc'
        rw [← hsame c' hc' hid]; exact hpending
      · rw [h] at hc'
        rcases mem_saveConnection hc' with rfl | ⟨hold, _⟩
        · rw [pushFeedback_id] at hid
          have hcc := hsame conn (findConnectionById_some hconn).1 hid
          subst hcc
          rcases pushFeedback_status_or conn now userId rating comment with hs | hs
          · rw [← hs]; exact hpending
          · rw [hs] at hpending; cases hpending
        · rw [← hsame c' hold hid]; exact hpending
  · intro userId targetUserId sharedSkill
    simp only [applyConnectionOp]
    rcases postRequest_db db now userId targetUserId sharedSkill with h | ⟨conn, _, _, h⟩
    · rw [h]; exact hc
    · rw [h]; exact List.mem_append_left _ hc
  · intro userId connectionId rating comment
    simp only [applyConnectionOp]
    rcases feedbackHandler_cases mongooseBound db now userId connectionId rating comment with
      h | ⟨_, conn, hconn, _, _, h⟩
    · rw [h]; exact ⟨c, hc, rfl, rfl, Or.inl rfl⟩
    · rw [h]
      by_cases hid : conn._id = c._id
      · have hcc := hsame conn (findConnectionById_some hconn).1 hid
        subst hcc
        exact ⟨_, saveConnection_mem_self hc (pushFeedback_id conn now userId rating comment).symm,
          pushFeedback_id _ _ _ _ _, pushFeedback_users _ _ _ _ _,
          pushFeedback_status_or _ _ _ _ _⟩
      · refine ⟨c, saveConnection_mem_of_ne hc ?_, rfl, rfl, Or.inl rfl⟩
        rw [pushFeedback_id]
        exact fun h => hid h.symm
  · intro userId response hmem hinit
    simp only [applyConnectionOp]
    rw [postRespond_allowed now response (findConnectionById_of_mem hids hc) hmem hinit]
    constructor
    · intro hacc
      rw [if_pos hacc]
      exact ⟨_, saveConnection_mem_self hc rfl, rfl, rfl⟩
    · intro hrej
      rw [if_neg hrej]
      intro c' hc'
      exact ((mem_eraseP_connection_id c._id hids c').mp hc').2

/-- C17 as stated fails on `activeDb`, the store reached by a request of user 1 to
user 2 and the acceptance by user 2: its connection is active, and a `reject`
response by user 2 removes it. -/
theorem applyConnectionOp_status_counterexample :
    (findConnectionById activeDb 1).map (fun c => c.status) = some ConnectionStatus.active ∧
    (postRespond activeDb 300 2 1 (some "reject")).1
      = { status := 200, message := "Connection rejected" } ∧
    (postRespond activeDb 300 2 1 (some "reject")).2.connections = [] := by
  refine ⟨by decide, by decide, by decide⟩

/-- The hypotheses and part of the conclusion of `applyConnectionOp_status` on the
active connection of `activeDb`. -/
theorem applyConnectionOp_status_witness :
    (activeDb.connections.map (fun c => c._id)).Nodup ∧
    ∀ c' ∈ (applyConnectionOp false activeDb 300
        (ConnectionOp.respond 2 1 (some "reject"))).connections, c'._id ≠ 1 :=
  ⟨by decide,
    ((applyConnectionOp_status false activeDb 300
      { _id := 1, users := [1, 2], sharedSkill := "Guitar", initiatedBy := 1,
        status := ConnectionStatus.active, evaluationPeriod := { startDate := some 200 } }
      (by decide) (by decide)).2.2.2 2 (some "reject") (by decide) (by decide)).2 (by decide)⟩

/-- With the identifier `mongoose` bound, a valid rating by a participant who has
no entry yet is stored. -/
theorem feedbackHandler_bound_accept {db : Database} {userId connectionId : ObjectId}
    {conn : Connection} (now : Time) (rating : Nat) (comment : Option String)
    (hconn : findConnectionById db connectionId = some conn)
    (hmem : userId ∈ conn.users) (hnew : ∀ f ∈ conn.feedback, f.fromUser ≠ userId)
    (hrating : 1 ≤ rating ∧ rating ≤ 5) :
    feedbackHandler true db now userId connectionId rating comment
      = (.ok { status := 200, message := "Feedback submitted successfully" },
          saveConnection db (pushFeedback conn now userId rating comment)) := by
  have hr : ¬ (rating = 0 ∨ rating < 1 ∨ rating > 5) := by omega
  have hfind : conn.feedback.find? (fun f => f.fromUser == userId) = none := by
    rw [List.find?_eq_none]
    intro f hf
    simpa using hnew f hf
  unfold feedbackHandler feedbackTryBlock
  rw [if_neg hr, hconn]
  simp [hmem, hfind]

/-- With the identifier `mongoose` bound, the handler does what its `try` block
says: on an active connection between two distinct users `a` and `b` without
feedback, a valid submission by `a` stores one entry and keeps status and
evaluation period, and a valid submission by `b` after it stores the second
entry, status completed and `evaluationPeriod.endDate`. -/
theorem feedbackHandler_bound_completion (db : Database) (now later : Time)
    (a b connectionId : ObjectId) (ratingA ratingB : Nat) (conn : Connection)
    (hconn : findConnectionById db connectionId = some conn)
    (husers : conn.users = [a, b]) (hab : a ≠ b) (hfb : conn.feedback = [])
    (hA : 1 ≤ ratingA ∧ ratingA ≤ 5) (hB : 1 ≤ ratingB ∧ ratingB ≤ 5) :
    (∃ c1, findConnectionById (feedbackHandler true db now a connectionId ratingA none).2
          connectionId = some c1 ∧
        c1.feedback.length = 1 ∧ c1.status = conn.status ∧
        c1.evaluationPeriod = conn.evaluationPeriod) ∧
    (∃ c2, findConnectionById
          (feedbackHandler true (feedbackHandler true db now a connectionId ratingA none).2
            later b connectionId ratingB none).2 connectionId = some c2 ∧
        c2.feedback.length = 2 ∧ c2.status = ConnectionStatus.completed ∧
        c2.evaluationPeriod.endDate = some later) := by
  have h1 := @feedbackHandler_bound_accept db a connectionId conn now ratingA none hconn
    (by rw [husers]; simp) (by rw [hfb]; simp) hA
  have hfind1 : findConnectionById (saveConnection db (pushFeedback conn now a ratingA none))
      connectionId = some (pushFeedback conn now a ratingA none) :=
    findConnectionById_saveConnection hconn (pushFeedback_id _ _ _ _ _)
  have hfb1 : (pushFeedback conn now a ratingA none).feedback
      = [{ fromUser := a, rating := ratingA, comment := "", isAnonymous := true,
           createdAt := now }] := by
    rw [pushFeedback_feedback, hfb]; rfl
  have hst1 := (pushFeedback_status conn now a ratingA none).1 (by rw [hfb]; decide)
  have h2 := @feedbackHandler_bound_accept _ b connectionId _ later ratingB none hfind1
    (by rw [pushFeedback_users, husers]; simp)
    (by
      rw [hfb1]
      intro f hf
      simp only [List.mem_singleton] at hf
      subst hf
      exact hab) hB
  rw [h1]
  refine ⟨⟨_, hfind1, by rw [hfb1]; rfl, hst1.1, hst1.2⟩, ?_⟩
  rw [h2]
  refine ⟨_, findConnectionById_saveConnection hfind1
      (by rw [pushFeedback_id, pushFeedback_id]), ?_, ?_, ?_⟩
  · rw [pushFeedback_feedback, hfb1]; rfl
  · exact ((pushFeedback_status _ later b ratingB none).2
      (by rw [hfb1]; exact Nat.le_refl 2)).1
  · rw [((pushFeedback_status _ later b ratingB none).2
      (by rw [hfb1]; exact Nat.le_refl 2)).2]

/-! ## The compatibility scores -/

/-- The score of `podUtils.js` as the sum of its three exact-match terms. -/
theorem personalityMatchScore_eq (userP podP : Personality) :
    personalityMatchScore userP podP
      = (if userP.learningStyle = podP.learningStyle then 40 else 0)
        + (if userP.motivation = podP.motivation then 35 else 0)
        + (if userP.timeCommitment = podP.timeCommitment then 25 else 0) := by
  unfold personalityMatchScore
  dsimp only
  split <;> split <;> split <;> rfl

theorem calculateCompatibilityScore_single (userP memberP : Personality) :
    calculateCompatibilityScore userP [some memberP] = (memberScore userP memberP : ℚ) := by
  simp [calculateCompatibilityScore]

theorem commitment_adjacent (x y : Option String) :
    (match commitmentLevel x, commitmentLevel y with
      | some a, some b => if a - b = 1 ∨ b - a = 1 then 10 else 0
      | _, _ => 0)
      = if (x, y) ∈ [(some "casual", some "regular"), (some "regular", some "casual"),
          (some "regular", some "intensive"), (some "intensive", some "regular")]
        then 10 else 0 := by
  by_cases hx1 : x = some "casual"
  · subst hx1
    by_cases hy1 : y = some "casual" <;> by_cases hy2 : y = some "regular" <;>
      by_cases hy3 : y = some "intensive" <;> simp_all [commitmentLevel]
  · by_cases hx2 : x = some "regular"
    · subst hx2
      by_cases hy1 : y = some "casual" <;> by_cases hy2 : y = some "regular" <;>
        by_cases hy3 : y = some "intensive" <;> simp_all [commitmentLevel]
    · by_cases hx3 : x = some "intensive"
      · subst hx3
        by_cases hy1 : y = some "casual" <;> by_cases hy2 : y = some "regular" <;>
          by_cases hy3 : y = some "intensive" <;> simp_all [commitmentLevel]
      · simp [commitmentLevel, hx1, hx2, hx3]

/-- C21, amended: `personalityMatchScore(u, p)` is the exact-match part of the
formula only (0.40, 0.35 and 0.25 for equal fields, nothing otherwise); the
score `calculateCompatibilityScore` computes for a pod whose single member has
personality `p` is the per-member score, which adds the partial credits (0.20
for the visual/reading pair, 0.15 when `u` is collaborative and `p` is not
competitive, 0.10 for adjacent commitment levels) where a field differs; so
`personalityMatchScore(u, p)` is at most that score, and equal to it exactly
when no partial credit applies. -/
theorem personalityMatchScore_le_memberScore (u p : Personality) :
    calculateCompatibilityScore u [some p] = (memberScore u p : ℚ) ∧
    personalityMatchScore u p
      = (if u.learningStyle = p.learningStyle then 40 else 0)
        + (if u.motivation = p.motivation then 35 else 0)
        + (if u.timeCommitment = p.timeCommitment then 25 else 0) ∧
    memberScore u p
      = personalityMatchScore u p
        + (if u.learningStyle ≠ p.learningStyle ∧
              ((u.learningStyle = some "visual" ∧ p.learningStyle = some "reading") ∨
               (u.learningStyle = some "reading" ∧ p.learningStyle = some "visual"))
            then 20 else 0)
        + (if u.motivation ≠ p.motivation ∧ u.motivation = some "collaborative" ∧
              p.motivation ≠ some "competitive" then 15 else 0)
        + (if u.timeCommitment ≠ p.timeCommitment ∧
              (u.timeCommitment, p.timeCommitment) ∈
                [(some "casual", some "regular"), (some "regular", some "casual"),
                 (some "regular", some "intensive"), (some "intensive", some "regular")]
            then 10 else 0) ∧
    personalityMatchScore u p ≤ memberScore u p := by
  have hpm := personalityMatchScore_eq u p
  have hmember : memberScore u p
      = personalityMatchScore u p
        + (if u.learningStyle ≠ p.learningStyle ∧
              ((u.learningStyle = some "visual" ∧ p.learningStyle = some "reading") ∨
               (u.learningStyle = some "reading" ∧ p.learningStyle = some "visual"))
            then 20 else 0)
        + (if u.motivation ≠ p.motivation ∧ u.motivation = some "collaborative" ∧
              p.motivation ≠ some "competitive" then 15 else 0)
        + (if u.timeCommitment ≠ p.timeCommitment ∧
              (u.timeCommitment, p.timeCommitment) ∈
                [(some "casual", some "regular"), (some "regular", some "casual"),
                 (some "regular", some "intensive"), (some "intensive", some "regular")]
            then 10 else 0) := by
    have h1 : learningStyleCredit u p
        = (if u.learningStyle = p.learningStyle then 40 else 0)
          + (if u.learningStyle ≠ p.learningStyle ∧
              ((u.learningStyle = some "visual" ∧ p.learningStyle = some "reading") ∨
               (u.learningStyle = some "reading" ∧ p.learningStyle = some "visual"))
            then 20 else 0) := by
      unfold learningStyleCredit
      by_cases h : u.learningStyle = p.learningStyle
      · simp [h]
      · simp [h]
    have h2 : motivationCredit u p
        = (if u.motivation = p.motivation then 35 else 0)
          + (if u.motivation ≠ p.motivation ∧ u.motivation = some "collaborative" ∧
              p.motivation ≠ some "competitive" then 15 else 0) := by
      unfold motivationCredit
      by_cases h : u.motivation = p.motivation
      · simp [h]
      · simp [h]
    have h3 : timeCommitmentCredit u p
        = (if u.timeCommitment = p.timeCommitment then 25 else 0)
          + (if u.timeCommitment ≠ p.timeCommitment ∧
              (u.timeCommitment, p.timeCommitment) ∈
                [(some "casual", some "regular"), (some "regular", some "casual"),
                 (some "regular", some "intensive"), (some "intensive", some "regular")]
            then 10 else 0) := by
      unfold timeCommitmentCredit
      by_cases h : u.timeCommitment = p.timeCommitment
      · simp [h]
      · rw [if_neg h, if_neg h, commitment_adjacent]
        simp [h]
    unfold memberScore
    rw [h1, h2, h3, hpm]
    omega
  refine ⟨calculateCompatibilityScore_single u p, hpm, hmember, ?_⟩
  rw [hmember]
  omega

/-- C21 as stated fails on a visual user against a reading pod profile with the
other two fields equal: `personalityMatchScore` is 0.60, the score
`calculateCompatibilityScore` gives a pod with that single member is 0.80. -/
theorem personalityMatchScore_le_memberScore_counterexample :
    personalityMatchScore visualProfile readingProfile = 60 ∧
    memberScore visualProfile readingProfile = 80 ∧
    calculateCompatibilityScore visualProfile [some readingProfile] = 80 := by
  refine ⟨by decide, by decide, ?_⟩
  rw [calculateCompatibilityScore_single]
  have : memberScore visualProfile readingProfile = 80 := by decide
  rw [this]
  norm_num

/-- The hypothesis-free statement `personalityMatchScore_le_memberScore` on a
pair of profiles for which no partial credit applies: the two scores agree. -/
theorem personalityMatchScore_le_memberScore_witness :
    personalityMatchScore visualProfile visualProfile ≤ memberScore visualProfile visualProfile ∧
    memberScore visualProfile visualProfile = 100 :=
  ⟨(personalityMatchScore_le_memberScore visualProfile visualProfile).2.2.2, by decide⟩

/-- C22, amended: a field that is absent from exactly one of the two profiles
adds nothing to `personalityMatchScore`, and nothing to the learning-style and
time-commitment terms of the per-member score of `calculateCompatibilityScore`;
its motivation term is then 0.15 when the user's motivation is `collaborative`
(the member's being absent) and 0 otherwise.  A field that is absent from both
profiles counts as equal and adds its full weight (0.40, 0.35, 0.25) to both
scores. -/
theorem missing_field_credit (u p : Personality) :
    (u.learningStyle ≠ p.learningStyle → (u.learningStyle = none ∨ p.learningStyle = none) →
      personalityMatchScore u p
        = (if u.motivation = p.motivation then 35 else 0)
          + (if u.timeCommitment = p.timeCommitment then 25 else 0) ∧
      learningStyleCredit u p = 0) ∧
    (u.motivation ≠ p.motivation → (u.motivation = none ∨ p.motivation = none) →
      personalityMatchScore u p
        = (if u.learningStyle = p.learningStyle then 40 else 0)
          + (if u.timeCommitment = p.timeCommitment then 25 else 0) ∧
      motivationCredit u p = if u.motivation = some "collaborative" then 15 else 0) ∧
    (u.timeCommitment ≠ p.timeCommitment → (u.timeCommitment = none ∨ p.timeCommitment = none) →
      personalityMatchScore u p
        = (if u.learningStyle = p.learningStyle then 40 else 0)
          + (if u.motivation = p.motivation then 35 else 0) ∧
      timeCommitmentCredit u p = 0) ∧
    (u.learningStyle = none → p.learningStyle = none →
      personalityMatchScore u p
        = 40 + (if u.motivation = p.motivation then 35 else 0)
          + (if u.timeCommitment = p.timeCommitment then 25 else 0) ∧
      learningStyleCredit u p = 40) ∧
    (u.motivation = none → p.motivation = none →
      personalityMatchScore u p
        = (if u.learningStyle = p.learningStyle then 40 else 0) + 35
          + (if u.timeCommitment = p.timeCommitment then 25 else 0) ∧
      motivationCredit u p = 35) ∧
    (u.timeCommitment = none → p.timeCommitment = none →
      personalityMatchScore u p
        = (if u.learningStyle = p.learningStyle then 40 else 0)
          + (if u.motivation = p.motivation then 35 else 0) + 25 ∧
      timeCommitmentCredit u p = 25) := by
  have hpm := personalityMatchScore_eq u p
  refine ⟨?_, ?_, ?_, ?_, ?_, ?_⟩
  · intro hne hnone
    refine ⟨by rw [hpm, if_neg hne]; omega, ?_⟩
    unfold learningStyleCredit
    rcases hnone with h | h
    · rw [h] at hne ⊢
      simp [hne]
    · rw [h] at hne ⊢
      simp [hne]
  · intro hne hnone
    refine ⟨by rw [hpm, if_neg hne]; omega, ?_⟩
    unfold motivationCredit
    rcases hnone with h | h
    · rw [h] at hne ⊢
      simp [hne]
    · rw [h] at hne ⊢
      simp [hne]
  · intro hne hnone
    refine ⟨by rw [hpm, if_neg hne]; omega, ?_⟩
    unfold timeCommitmentCredit
    rw [if_neg hne]
    rcases hnone with h | h <;> simp [h, commitmentLevel]
  · intro h1 h2
    refine ⟨by rw [hpm, if_pos (h1.trans h2.symm)], ?_⟩
    simp [learningStyleCredit, h1, h2]
  · intro h1 h2
    refine ⟨by rw [hpm, if_pos (h1.trans h2.symm)], ?_⟩
    simp [motivationCredit, h1, h2]
  · intro h1 h2
    refine ⟨by rw [hpm, if_pos (h1.trans h2.symm)], ?_⟩
    simp [timeCommitmentCredit, h1, h2]

/-- C22 as stated fails on two profiles without any field, where all three fields
are absent from both: `personalityMatchScore` and the per-member score are both
1.00, not 0; and a collaborative user against a member without motivation gets
0.15 for that field. -/
theorem missing_field_credit_counterexample :
    personalityMatchScore {} {} = 100 ∧ memberScore {} {} = 100 ∧
    motivationCredit { motivation := some "collaborative" } {} = 15 := by
  refine ⟨by decide, by decide, by decide⟩

/-- The statement `missing_field_credit` on a profile with a learning style
against one without: the field adds nothing. -/
theorem missing_field_credit_witness :
    personalityMatchScore { learningStyle := some "visual" } {} = 35 + 25 ∧
    learningStyleCredit { learningStyle := some "visual" } {} = 0 :=
  (missing_field_credit { learningStyle := some "visual" } {}).1 (by decide) (Or.inr rfl)

/-- C23: in `GET /discover` the score of a candidate is the three-factor
exact-match sum plus `min(n * 0.10, 0.30)`, where `n` counts the caller's skills
the candidate has too; it is at most 1.30, it is above 1.00 whenever the two
personalities are identical and `n ≥ 1`, and it is 1.30, unclamped, when they
are identical and `n ≥ 3`. -/
theorem scoreCandidate_score (user p : User) :
    (scoreCandidate user p).sharedSkills
      = user.selectedSkills.filter (fun skill => decide (skill ∈ p.selectedSkills)) ∧
    (scoreCandidate user p).compatibilityScore
      = personalityMatchScore user.personality p.personality
        + min ((scoreCandidate user p).sharedSkills.length * 10) 30 ∧
    (scoreCandidate user p).compatibilityScore ≤ 130 ∧
    (user.personality = p.personality → 1 ≤ (scoreCandidate user p).sharedSkills.length →
      100 < (scoreCandidate user p).compatibilityScore) ∧
    (user.personality = p.personality → 3 ≤ (scoreCandidate user p).sharedSkills.length →
      (scoreCandidate user p).compatibilityScore = 130) := by
  have hscore : (scoreCandidate user p).compatibilityScore
      = personalityMatchScore user.personality p.personality
        + min ((scoreCandidate user p).sharedSkills.length * 10) 30 := by
    unfold scoreCandidate personalityMatchScore
    dsimp only
  have hle : personalityMatchScore user.personality p.personality ≤ 100 := by
    rw [personalityMatchScore_eq]
    split <;> split <;> split <;> omega
  refine ⟨rfl, hscore, ?_, ?_, ?_⟩
  · rw [hscore]; omega
  · intro hsame hn
    have hself : personalityMatchScore user.personality p.personality = 100 := by
      rw [hsame, personalityMatchScore_eq]; simp
    rw [hscore, hself]; omega
  · intro hsame hn
    have hself : personalityMatchScore user.personality p.personality = 100 := by
      rw [hsame, personalityMatchScore_eq]; simp
    rw [hscore, hself]; omega

/-- The statement `scoreCandidate_score` on two guitar learners of the same
profile: one shared skill, score 1.10. -/
theorem scoreCandidate_score_witness :
    100 < (scoreCandidate guitarUser { guitarUser with _id := 2 }).compatibilityScore ∧
    (scoreCandidate guitarUser { guitarUser with _id := 2 }).compatibilityScore = 110 :=
  ⟨(scoreCandidate_score guitarUser { guitarUser with _id := 2 }).2.2.2.1 rfl (by decide),
    by decide⟩

/-- The sums of two weights the score can stop at are doubles too: `0.35 + 0.25`
is the double `0.6` and `0.4 + 0.25` the double `0.65`. -/
theorem double_sums_exact :
    double035 + double025 = double060 ∧ double040 + double025 = double065 := by
  constructor <;> norm_num [double040, double035, double025, double060, double065]

/-- C29: `personalityMatchScore` only takes the values 0, 0.25, 0.35, 0.40, 0.60,
0.65, 0.75 and 1.00, never 0.5; it is above 0.5 exactly when at least two of
the three fields are equal, and it is above 0.5 exactly when it is at least
0.5; so a pod that does not list the user replaces an empty `bestMatch` at the
initial `bestScore = 0.5` exactly when it has a stored `personalitySummary` at
least two fields of which equal the user's. -/
theorem personalityMatchScore_values (u p : Personality) (userId : ObjectId) (pod : Pod) :
    personalityMatchScore u p ∈ [0, 25, 35, 40, 60, 65, 75, 100] ∧
    personalityMatchScore u p ≠ 50 ∧
    (50 < personalityMatchScore u p ↔
      (u.learningStyle = p.learningStyle ∧ u.motivation = p.motivation) ∨
      (u.learningStyle = p.learningStyle ∧ u.timeCommitment = p.timeCommitment) ∨
      (u.motivation = p.motivation ∧ u.timeCommitment = p.timeCommitment)) ∧
    (50 < personalityMatchScore u p ↔ 50 ≤ personalityMatchScore u p) ∧
    (userId ∉ pod.members →
      ((∃ bestScore, bestMatchStep userId u (none, 50) pod = .ok (some pod, bestScore)) ↔
        ∃ q, pod.personalitySummary = some q ∧
          ((u.learningStyle = q.learningStyle ∧ u.motivation = q.motivation) ∨
           (u.learningStyle = q.learningStyle ∧ u.timeCommitment = q.timeCommitment) ∨
           (u.motivation = q.motivation ∧ u.timeCommitment = q.timeCommitment)))) := by
  have htwo : ∀ q : Personality, (50 < personalityMatchScore u q ↔
      (u.learningStyle = q.learningStyle ∧ u.motivation = q.motivation) ∨
      (u.learningStyle = q.learningStyle ∧ u.timeCommitment = q.timeCommitment) ∨
      (u.motivation = q.motivation ∧ u.timeCommitment = q.timeCommitment)) := by
    intro q
    rw [personalityMatchScore_eq]
    by_cases h1 : u.learningStyle = q.learningStyle <;>
      by_cases h2 : u.motivation = q.motivation <;>
      by_cases h3 : u.timeCommitment = q.timeCommitment <;> simp [h1, h2, h3]
  refine ⟨?_, ?_, htwo p, ?_, ?_⟩
  · rw [personalityMatchScore_eq]
    split <;> split <;> split <;> simp
  · rw [personalityMatchScore_eq]
    split <;> split <;> split <;> simp
  · rw [personalityMatchScore_eq]
    split <;> split <;> split <;> simp
  · intro hnot
    cases hsum : pod.personalitySummary with
    | none =>
      rw [bestMatchStep_no_summary (none, 50) hnot hsum]
      simp
    | some q =>
      rw [bestMatchStep_summary (none, 50) hnot hsum]
      constructor
      · rintro ⟨bestScore, h⟩
        refine ⟨q, rfl, (htwo q).mp ?_⟩
        by_cases hgt : personalityMatchScore u q > 50
        · exact hgt
        · rw [if_neg hgt] at h
          simp at h
      · rintro ⟨q', hq', h⟩
        cases hq'
        exact ⟨_, by rw [if_pos ((htwo q).mpr h)]⟩

/-- The statement `personalityMatchScore_values` on `guitarUser` and the pod of
`guitarStore`, which does not list the user: the pod becomes the best match. -/
theorem personalityMatchScore_values_witness :
    ∃ bestScore, bestMatchStep 1 visualProfile (none, 50)
        { _id := 10, skill := "Guitar", members := [2],
          personalitySummary := some visualProfile }
      = .ok (some { _id := 10, skill := "Guitar", members := [2],
                    personalitySummary := some visualProfile }, bestScore) :=
  ((personalityMatchScore_values visualProfile visualProfile 1
    { _id := 10, skill := "Guitar", members := [2],
      personalitySummary := some visualProfile }).2.2.2.2
    (by decide)).mpr ⟨visualProfile, rfl, Or.inl ⟨rfl, rfl⟩⟩

/-- C30: for a caller who is one of the users of the connection and not its
`initiatedBy`, every response other than the exact string `accept` (the string
`reject`, a missing value, a misspelling) is answered `Connection rejected` and
removes the connection: with distinct connection `_id`s no connection with that
`_id` is left, the other connections are kept, users and pods are untouched;
the status of the connection plays no part. -/
theorem postRespond_other_response_deletes (db : Database) (now : Time)
    (userId connectionId : ObjectId) (response : Option String) (conn : Connection)
    (hids : (db.connections.map (fun c => c._id)).Nodup)
    (hconn : findConnectionById db connectionId = some conn)
    (hmem : userId ∈ conn.users) (hinit : conn.initiatedBy ≠ userId)
    (hother : response ≠ some "accept") :
    (postRespond db now userId connectionId response).1
      = { status := 200, message := "Connection rejected" } ∧
    findConnectionById (postRespond db now userId connectionId response).2 connectionId = none ∧
    (∀ c, c ∈ (postRespond db now userId connectionId response).2.connections ↔
      c ∈ db.connections ∧ c._id ≠ connectionId) ∧
    (postRespond db now userId connectionId response).2.toStore = db.toStore := by
  rw [postRespond_allowed now response hconn hmem hinit, if_neg hother]
  have hmemErase := mem_eraseP_connection_id connectionId hids
  refine ⟨rfl, ?_, hmemErase, rfl⟩
  unfold findConnectionById
  rw [List.find?_eq_none]
  intro c hc
  have := ((hmemErase c).mp hc).2
  simpa using this

/-- The hypotheses and conclusion of `postRespond_other_response_deletes` on the
active connection of `activeDb`, for a response without a value and for a
misspelt one. -/
theorem postRespond_other_response_deletes_witness :
    (findConnectionById activeDb 1).map (fun c => c.status) = some ConnectionStatus.active ∧
    findConnectionById (postRespond activeDb 300 2 1 none).2 1 = none ∧
    findConnectionById (postRespond activeDb 300 2 1 (some "acept")).2 1 = none :=
  ⟨by decide,
    (postRespond_other_response_deletes activeDb 300 2 1 none
      { _id := 1, users := [1, 2], sharedSkill := "Guitar", initiatedBy := 1,
        status := ConnectionStatus.active, evaluationPeriod := { startDate := some 200 } }
      (by decide) (by decide) (by decide) (by decide) (by decide)).2.1,
    (postRespond_other_response_deletes activeDb 300 2 1 (some "acept")
      { _id := 1, users := [1, 2], sharedSkill := "Guitar", initiatedBy := 1,
        status := ConnectionStatus.active, evaluationPeriod := { startDate := some 200 } }
      (by decide) (by decide) (by decide) (by decide) (by decide)).2.1⟩

/-! ## The anonymous names -/

theorem getRandomElement_mem (arr : List String) (r : ℚ) (harr : 0 < arr.length)
    (h0 : 0 ≤ r) (h1 : r < 1) : getRandomElement arr r ∈ arr := by
  unfold getRandomElement
  have hlen : (0 : ℚ) < (arr.length : ℚ) := by exact_mod_cast harr
  have hidx : ⌊r * (arr.length : ℚ)⌋₊ < arr.length := by
    rw [Nat.floor_lt (mul_nonneg h0 (le_of_lt hlen))]
    calc r * (arr.length : ℚ) < 1 * (arr.length : ℚ) := by
          exact mul_lt_mul_of_pos_right h1 hlen
      _ = (arr.length : ℚ) := one_mul _
  rw [List.getD_eq_getElem _ _ hidx]
  exact List.getElem_mem _

theorem number_range (r : ℚ) (h0 : 0 ≤ r) (h1 : r < 1) :
    100 ≤ ⌊100 + r * 900⌋₊ ∧ ⌊100 + r * 900⌋₊ ≤ 999 := by
  have hpos : (0 : ℚ) ≤ 100 + r * 900 := by positivity
  constructor
  · rw [Nat.le_floor_iff hpos]
    push_cast
    nlinarith
  · have : ⌊100 + r * 900⌋₊ < 1000 := by
      rw [Nat.floor_lt hpos]
      push_cast
      nlinarith
    omega

/-- The loop entered with `attempts ≤ 50`: it stops after at most `51` passes in
all, its result is the name of the last pass, the names of the passes before
collide, and a result reached within the first `50` passes does not. -/
theorem generateLoop_spec (rand : Nat → ℚ) (existingNames : List String) :
    ∀ (n attempts : Nat), 50 - attempts = n → attempts ≤ 50 →
      attempts < (generateLoop rand existingNames attempts).2 ∧
      (generateLoop rand existingNames attempts).2 ≤ 51 ∧
      (generateLoop rand existingNames attempts).1
        = drawName rand ((generateLoop rand existingNames attempts).2 - 1) ∧
      (∀ k, attempts ≤ k → k < (generateLoop rand existingNames attempts).2 - 1 →
        drawName rand k ∈ existingNames) ∧
      ((generateLoop rand existingNames attempts).2 ≤ 50 →
        (generateLoop rand existingNames attempts).1 ∉ existingNames) := by
  intro n
  induction n with
  | zero =>
    intro attempts hn hle
    have h50 : attempts = 50 := by omega
    subst h50
    rw [generateLoop]
    simp only [gt_iff_lt, Nat.lt_add_one, if_true, Nat.add_sub_cancel, true_and]
    exact ⟨Nat.le_refl _, fun k hk hk' => absurd hk (Nat.not_le.mpr hk'),
      fun h => absurd h (by decide)⟩
  | succ n ih =>
    intro attempts hn hle
    have hlt : ¬ attempts + 1 > 50 := by omega
    rw [generateLoop]
    simp only [hlt, if_false]
    by_cases hmem : drawName rand attempts ∈ existingNames
    · rw [if_pos hmem]
      obtain ⟨h1, h2, h3, h4, h5⟩ := ih (attempts + 1) (by omega) (by omega)
      refine ⟨by omega, h2, h3, ?_, h5⟩
      intro k hk hk'
      by_cases hka : k = attempts
      · rw [hka]; exact hmem
      · exact h4 k (by omega) hk'
    · rw [if_neg hmem]
      refine ⟨by omega, by omega, by simp, ?_, fun _ => hmem⟩
      intro k hk hk'
      simp only [Nat.add_sub_cancel] at hk'
      omega

/-- C24: `generateAnonymousName` is a total function of the random source and of
the existing names.  For every random source and every list of names it draws
at most 51 names, the first draw and at most 50 retries; its result is the last
draw; every draw before it is in `existingNames`; if the result is one of the
first 50 draws it is not in `existingNames`, so it is the first draw that does
not collide, and otherwise it is the 51st draw, colliding or not.  For a
random source with values in `[0, 1)` every drawn name is an adjective of the
list, a noun of the list, an underscore and a number between 100 and 999. -/
theorem generateAnonymousName_spec (rand : Nat → ℚ) (existingNames : List String) :
    generateAnonymousName rand existingNames
      = drawName rand ((generateLoop rand existingNames 0).2 - 1) ∧
    1 ≤ (generateLoop rand existingNames 0).2 ∧ (generateLoop rand existingNames 0).2 ≤ 51 ∧
    (∀ k, k < (generateLoop rand existingNames 0).2 - 1 → drawName rand k ∈ existingNames) ∧
    ((generateLoop rand existingNames 0).2 ≤ 50 →
      generateAnonymousName rand existingNames ∉ existingNames) ∧
    ((∀ i, 0 ≤ rand i ∧ rand i < 1) →
      ∀ k, ∃ adjective ∈ adjectives, ∃ noun ∈ nouns, ∃ number : Nat,
        100 ≤ number ∧ number ≤ 999 ∧
        drawName rand k = adjective ++ noun ++ "_" ++ toString number) := by
  obtain ⟨h1, h2, h3, h4, h5⟩ := generateLoop_spec rand existingNames 50 0 rfl (by omega)
  refine ⟨h3, by omega, h2, fun k hk => h4 k (Nat.zero_le _) hk, h5, ?_⟩
  intro hrand k
  refine ⟨_, getRandomElement_mem adjectives (rand (3 * k)) (by decide) (hrand _).1 (hrand _).2,
    _, getRandomElement_mem nouns (rand (3 * k + 1)) (by decide) (hrand _).1 (hrand _).2,
    ⌊100 + rand (3 * k + 2) * 900⌋₊, (number_range _ (hrand _).1 (hrand _).2).1,
    (number_range _ (hrand _).1 (hrand _).2).2, rfl⟩

/-- The statement `generateAnonymousName_spec` on the constant source `1 / 2`,
which draws `DreamFlier_550` every time, against a pod that has that name:
every drawn name has the form, and all 51 draws are made. -/
theorem generateAnonymousName_spec_witness :
    (∀ i : Nat, (0 : ℚ) ≤ (fun _ => (1 / 2 : ℚ)) i ∧ (fun _ => (1 / 2 : ℚ)) i < 1) ∧
    (∀ k, ∃ adjective ∈ adjectives, ∃ noun ∈ nouns, ∃ number : Nat,
      100 ≤ number ∧ number ≤ 999 ∧
      drawName (fun _ => (1 / 2 : ℚ)) k = adjective ++ noun ++ "_" ++ toString number) ∧
    (generateLoop (fun _ => (1 / 2 : ℚ)) ["DreamFlier_550"] 0).2 ≤ 51 :=
  ⟨fun _ => ⟨by norm_num, by norm_num⟩,
    (generateAnonymousName_spec (fun _ => (1 / 2 : ℚ)) ["DreamFlier_550"]).2.2.2.2.2
      (fun _ => ⟨by norm_num, by norm_num⟩),
    (generateAnonymousName_spec (fun _ => (1 / 2 : ℚ)) ["DreamFlier_550"]).2.2.1⟩

/-! ## Concurrent joins -/

/-- A call whose queries and writes run back to back is `assignUserToPod`. -/
theorem assignUserToPod_eq_phases {st : Store} {userId : ObjectId} {pending : PendingJoin}
    (h : assignQuery st userId = some pending) :
    assignUserToPod st userId = assignWrite st userId pending := by
  unfold assignQuery at h
  unfold assignUserToPod assignWrite
  cases huser : findUserById st userId with
  | none => rw [huser] at h; cases h
  | some user =>
    rw [huser] at h
    cases hex : findPodByMember st userId with
    | some ex => rw [hex] at h; cases h
    | none =>
      rw [hex] at h
      simp only at h ⊢
      cases hbest : findBestMatch userId user.personality
          (findCandidatePods st user.selectedSkills.head?) with
      | error e => rw [hbest] at h; cases h
      | ok best =>
        rw [hbest] at h
        simp only [Option.some.injEq] at h
        subst h
        obtain ⟨bestMatch, bestScore⟩ := best
        cases bestMatch <;> rfl

/-- C25, the code at a failing interleaving: on `raceStore` the calls for users 1
and 2 both run their queries before either writes.  Both find the pod with 5
members below capacity and choose it, both append, and the stored pod ends
with 7 members; run one after the other, the same two calls leave it with 6. -/
theorem runJoinEvents_over_capacity :
    (∀ p ∈ raceStore.pods, p.members.length ≤ 6) ∧
    (runJoinEvents (raceStore, [])
        [JoinEvent.query 1, JoinEvent.query 2, JoinEvent.write 1, JoinEvent.write 2]).1.pods.map
      (fun p => p.members) = [[11, 12, 13, 14, 15, 1, 2]] ∧
    (runJoinEvents (raceStore, [])
        [JoinEvent.query 1, JoinEvent.write 1, JoinEvent.query 2, JoinEvent.write 2]).1.pods.map
      (fun p => p.members) = [[11, 12, 13, 14, 15, 1], [2]] := by
  refine ⟨by decide, by decide, by decide⟩

/-! ## The routes of the pods -/

/-- C26, the code at a failing input: in `chatWorld` user 1 has no activity and
no weekly reset due at clock reading 5.  A text message is answered 201 and
leaves `progress.messages = 1` and `podParticipation.messagesCount = 2`; a
resource message is answered 201 and leaves `progress.resources = 1` and
`podParticipation.resourcesShared = 2`. -/
theorem postMessage_counts_twice :
    (findUserById chatWorld.toStore 1).map
        (fun u => (u.progress, u.podParticipation, decide (5 ≤ u.nextWeeklyReset)))
      = some ({ messages := 0, resources := 0, points := 0 },
          some { messagesCount := 0, resourcesShared := 0 }, true) ∧
    (postMessage chatWorld 5 (fun _ => 0) 1 10 "hello" (some "text")).1.status = 201 ∧
    (findUserById (postMessage chatWorld 5 (fun _ => 0) 1 10 "hello" (some "text")).2.toStore 1).map
        (fun u => (u.progress, u.podParticipation))
      = some ({ messages := 1, resources := 0, points := 1 },
          some { messagesCount := 2, resourcesShared := 0 }) ∧
    (postMessage chatWorld 5 (fun _ => 0) 1 10 "a link" (some "resource")).1.status = 201 ∧
    (findUserById
        (postMessage chatWorld 5 (fun _ => 0) 1 10 "a link" (some "resource")).2.toStore 1).map
        (fun u => (u.progress, u.podParticipation))
      = some ({ messages := 0, resources := 1, points := 3 },
          some { messagesCount := 0, resourcesShared := 2 }) := by
  refine ⟨by decide, by decide, by decide, by decide, by decide⟩

/-- C27, the code at a failing input: in `chatWorld` user 1 gives feedback to user
2, who has no activity and no weekly reset due at clock reading 5.  The request
is answered 200 and the receiver ends with `progress.points = 1`,
`progress.messages = 1` and `podParticipation.messagesCount = 1`: the credit of
the type `feedback`, not the 2 points and no message of `feedbackReceived`. -/
theorem postPodFeedback_receiver_credit :
    (findUserById chatWorld.toStore 2).map
        (fun u => (u.progress, u.podParticipation, decide (5 ≤ u.nextWeeklyReset)))
      = some ({ messages := 0, resources := 0, points := 0 },
          some { messagesCount := 0, resourcesShared := 0 }, true) ∧
    (postPodFeedback chatWorld.toStore 5 1 10 (some 2) "well done").1.status = 200 ∧
    (findUserById (postPodFeedback chatWorld.toStore 5 1 10 (some 2) "well done").2 2).map
        (fun u => (u.progress, u.podParticipation, u.feedbackReceived))
      = some ({ messages := 1, resources := 0, points := 1 },
          some { messagesCount := 1, resourcesShared := 0 }, 1) ∧
    activityIncrements "feedbackReceived" = (2, 0, 0) := by
  refine ⟨by decide, by decide, by decide, by decide⟩

/-! ## The path `progressPoints` -/

theorem findUserById_saveUser_ne (st : Store) (user' : User) (id : ObjectId)
    (hne : id ≠ user'._id) :
    findUserById (saveUser st user') id = findUserById st id := by
  unfold findUserById saveUser
  simp only
  generalize st.users = us
  induction us with
  | nil => rfl
  | cons v vs ih =>
    simp only [List.map_cons, List.find?_cons]
    by_cases hv : v._id = user'._id
    · have h1 : (user'._id == id) = false := by simpa using fun h => hne h.symm
      have h2 : (v._id == id) = false := by rw [hv]; exact h1
      simp only [hv, if_true, h1, h2]
      exact ih
    · simp only [hv, if_false]
      cases hvid : (v._id == id)
      · exact ih
      · rfl

theorem pointsOf_users {st st' : Store} (h : st'.users = st.users) (id : ObjectId) :
    pointsOf st' id = pointsOf st id := by
  unfold pointsOf findUserById
  rw [h]

/-- Saving a loaded document with its `progressPoints` as loaded changes the
`progressPoints` of no user. -/
theorem pointsOf_saveUser {st : Store} {userId : ObjectId} {user user' : User}
    (h : findUserById st userId = some user) (hid : user'._id = user._id)
    (hp : user'.progressPoints = user.progressPoints) (id : ObjectId) :
    pointsOf (saveUser st user') id = pointsOf st id := by
  have hu := findUserById_id h
  by_cases hid' : id = userId
  · subst hid'
    unfold pointsOf
    rw [findUserById_saveUser h hid, h]
    simp [hp]
  · unfold pointsOf
    rw [findUserById_saveUser_ne st user' id (by rw [hid, hu]; exact hid')]

theorem weeklyResetCheck_progressPoints (now : Time) (user : User) :
    (weeklyResetCheck now user).progressPoints = user.progressPoints := by
  unfold weeklyResetCheck
  split <;> rfl

theorem applyActivity_progressPoints (now : Time) (type : String) (user : User) :
    (applyActivity now type user).progressPoints = user.progressPoints := by
  unfold applyActivity
  dsimp only
  rw [← weeklyResetCheck_progressPoints now user]
  split <;> rfl

theorem participationUpdate_id (messageType : String) (user : User) :
    (participationUpdate messageType user)._id = user._id := by
  unfold participationUpdate
  dsimp only
  repeat' split
  all_goals rfl

theorem participationUpdate_progressPoints (messageType : String) (user : User) :
    (participationUpdate messageType user).progressPoints = user.progressPoints := by
  unfold participationUpdate
  dsimp only
  repeat' split
  all_goals rfl

theorem updateUserProgress_pointsOf (st : Store) (now : Time) (userId : ObjectId)
    (type : String) (id : ObjectId) :
    pointsOf (updateUserProgress st now userId type).2 id = pointsOf st id := by
  unfold updateUserProgress
  cases huser : findUserById st userId with
  | none => rfl
  | some user =>
    exact pointsOf_saveUser huser (applyActivity_id now type user)
      (applyActivity_progressPoints now type user) id

theorem ensureAnonymousName_pointsOf {st st' : Store} {rand : Nat → ℚ} {userId : ObjectId}
    {pod : Option Pod} {name : Option String}
    (h : ensureAnonymousName st rand userId pod = .ok (name, st')) (id : ObjectId) :
    pointsOf st' id = pointsOf st id := by
  unfold ensureAnonymousName at h
  cases huser : findUserById st userId with
  | none => rw [huser] at h; cases h
  | some user =>
    rw [huser] at h
    dsimp only at h
    split at h
    · cases h
      refine pointsOf_saveUser huser ?_ ?_ id <;> rfl
    · cases h
      rfl

theorem postMessage_pointsOf (w : World) (now : Time) (rand : Nat → ℚ)
    (userId podId : ObjectId) (content : String) (type : Option String) (id : ObjectId) :
    pointsOf (postMessage w now rand userId podId content type).2.toStore id
      = pointsOf w.toStore id := by
  unfold postMessage
  split
  · rfl
  · split
    · rfl
    · rename_i pod _
      split
      · rfl
      · split
        · rfl
        · rename_i name st hens
          have h1 := ensureAnonymousName_pointsOf hens id
          dsimp only
          split
          · rw [← h1]
          · rw [← h1]
            generalize hmt : (match type with
              | some t => if t ≠ "" ∧ t ∈ validTypes then t else "text"
              | none => "text") = messageType
            have h2 : pointsOf ({ st with pods := touchPod st.pods podId now } : Store) id
                = pointsOf st id := pointsOf_users rfl id
            have h3 := updateUserProgress_pointsOf
              ({ st with pods := touchPod st.pods podId now } : Store) now userId messageType id
            rw [← h2, ← h3]
            generalize (updateUserProgress ({ st with pods := touchPod st.pods podId now } : Store)
              now userId messageType).2 = st3
            cases huser : findUserById st3 userId with
            | none => exact pointsOf_users rfl id
            | some user =>
              rw [← pointsOf_saveUser huser (participationUpdate_id messageType user)
                (participationUpdate_progressPoints messageType user) id]

theorem postPodFeedback_pointsOf (st : Store) (now : Time) (userId podId : ObjectId)
    (toUserId : Option ObjectId) (feedback : String) (id : ObjectId) :
    pointsOf (postPodFeedback st now userId podId toUserId feedback).2 id = pointsOf st id := by
  unfold postPodFeedback
  repeat' split
  all_goals first
    | rfl
    | (rename_i recipient hrec
       dsimp only
       rw [updateUserProgress_pointsOf, updateUserProgress_pointsOf]
       refine pointsOf_saveUser hrec ?_ ?_ id <;> rfl)

theorem postUnlock_pointsOf (st : Store) (userId : ObjectId) (id : ObjectId) :
    pointsOf (postUnlock st userId).2 id = pointsOf st id := by
  unfold postUnlock
  cases huser : findUserById st userId with
  | none => rfl
  | some user =>
    dsimp only
    repeat' split
    all_goals first
      | rfl
      | (show pointsOf (saveUser st { user with connectionUnlocked := true }) id = pointsOf st id
         refine pointsOf_saveUser huser ?_ ?_ id <;> rfl)

theorem weeklyProgressReset_pointsOf (st : Store) (now : Time) (id : ObjectId) :
    pointsOf (weeklyProgressReset st now) id = pointsOf st id := by
  unfold pointsOf findUserById weeklyProgressReset
  simp only
  generalize st.users = us
  induction us with
  | nil => rfl
  | cons v vs ih =>
    simp only [List.map_cons, List.find?_cons]
    cases hv : (v._id == id)
    · exact ih
    · rfl

theorem postRespond_users (db : Database) (now : Time) (userId connectionId : ObjectId)
    (response : Option String) :
    (postRespond db now userId connectionId response).2.users = db.users := by
  unfold postRespond
  repeat' split
  all_goals rfl

theorem applyConnectionOp_users (mongooseBound : Bool) (db : Database) (now : Time)
    (op : ConnectionOp) : (applyConnectionOp mongooseBound db now op).users = db.users := by
  cases op with
  | request userId targetUserId sharedSkill =>
    show (postRequest db now userId targetUserId sharedSkill).db.users = db.users
    rcases postRequest_db db now userId targetUserId sharedSkill with h | ⟨conn, _, _, h⟩
    · rw [h]
    · rw [h]
  | respond userId connectionId response =>
    exact postRespond_users db now userId connectionId response
  | feedback userId connectionId rating comment =>
    show (feedbackHandler mongooseBound db now userId connectionId rating comment).2.users
      = db.users
    rcases feedbackHandler_cases mongooseBound db now userId connectionId rating comment with
      h | ⟨_, conn, _, _, _, h⟩
    · rw [h]
    · rw [h]; rfl

/-- One operation changes the `progressPoints` of no user. -/
theorem applyEngineOp_pointsOf (mongooseBound : Bool) (w : World) (now : Time)
    (op : EngineOp) (id : ObjectId) :
    pointsOf (applyEngineOp mongooseBound w now op).toStore id = pointsOf w.toStore id := by
  cases op with
  | updateProgress userId type =>
    rw [← updateUserProgress_pointsOf w.toStore now userId type id]
    exact pointsOf_users rfl id
  | sendMessage rand userId podId content type =>
    exact postMessage_pointsOf w now rand userId podId content type id
  | podFeedback userId podId toUserId feedback =>
    rw [← postPodFeedback_pointsOf w.toStore now userId podId toUserId feedback id]
    exact pointsOf_users rfl id
  | bulkReset =>
    rw [← weeklyProgressReset_pointsOf w.toStore now id]
    exact pointsOf_users rfl id
  | connection op =>
    exact pointsOf_users (applyConnectionOp_users mongooseBound w.toDatabase now op) id
  | unlock userId =>
    rw [← postUnlock_pointsOf w.toStore userId id]
    exact pointsOf_users rfl id

theorem runEngine_pointsOf (mongooseBound : Bool) (ops : List (Time × EngineOp)) :
    ∀ (w : World) (id : ObjectId),
      pointsOf (runEngine mongooseBound w ops).toStore id = pointsOf w.toStore id := by
  induction ops with
  | nil => intro w id; rfl
  | cons op rest ih =>
    intro w id
    obtain ⟨now, op⟩ := op
    unfold runEngine
    rw [ih, applyEngineOp_pointsOf]

/-- C28: after every sequence of engine operations (`updateUserProgress`, the
message route, the pod feedback route, the scheduled reset, the three
connection routes, unlock), each at its own clock reading and whether or not
`mongoose` is bound in the feedback route, a user of the initial store is
still stored and has the `progressPoints` it had; and if those were 0,
`checkConnectionEligibility` returns for that user with `eligible = false`.
The points of an activity go to `progress.points`: `updateUserProgress` adds
them there, on top of the weekly reset check, and leaves `progressPoints`. -/
theorem runEngine_progressPoints (mongooseBound : Bool) (w : World)
    (ops : List (Time × EngineOp)) (userId : ObjectId) (user : User)
    (huser : findUserById w.toStore userId = some user) :
    (∃ user', findUserById (runEngine mongooseBound w ops).toStore userId = some user' ∧
      user'.progressPoints = user.progressPoints) ∧
    (user.progressPoints = 0 →
      ∃ e, checkConnectionEligibility (runEngine mongooseBound w ops).toStore userId = .ok e ∧
        e.eligible = false) ∧
    (∀ (now : Time) (type : String),
      (applyActivity now type user).progressPoints = user.progressPoints ∧
      (applyActivity now type user).progress.points
        = (weeklyResetCheck now user).progress.points + (activityIncrements type).1) := by
  have hactivity : ∀ (now : Time) (type : String),
      (applyActivity now type user).progressPoints = user.progressPoints ∧
      (applyActivity now type user).progress.points
        = (weeklyResetCheck now user).progress.points + (activityIncrements type).1 := by
    intro now type
    exact ⟨applyActivity_progressPoints now type user, by rw [applyActivity_progress]⟩
  have h := runEngine_pointsOf mongooseBound ops w userId
  unfold pointsOf at h
  rw [huser] at h
  cases hafter : findUserById (runEngine mongooseBound w ops).toStore userId with
  | none => rw [hafter] at h; cases h
  | some user' =>
    rw [hafter] at h
    have hp : user'.progressPoints = user.progressPoints := by simpa using h
    refine ⟨⟨user', rfl, hp⟩, ?_, hactivity⟩
    intro hzero
    unfold checkConnectionEligibility
    rw [hafter]
    refine ⟨_, rfl, ?_⟩
    simp [hp, hzero]

theorem runEngine_progressPoints_witness :
    findUserById chatWorld.toStore 1 = some chatUser ∧
    ∃ e, checkConnectionEligibility
        (runEngine false chatWorld
          [(5, EngineOp.sendMessage (fun _ => 0) 1 10 "hello" (some "text")),
           (6, EngineOp.podFeedback 2 10 (some 1) "well done"),
           (7, EngineOp.bulkReset),
           (8, EngineOp.unlock 1)]).toStore 1 = .ok e ∧ e.eligible = false :=
  ⟨by decide,
    (runEngine_progressPoints false chatWorld
      [(5, EngineOp.sendMessage (fun _ => 0) 1 10 "hello" (some "text")),
       (6, EngineOp.podFeedback 2 10 (some 1) "well done"),
       (7, EngineOp.bulkReset),
       (8, EngineOp.unlock 1)] 1 chatUser (by decide)).2.1 rfl⟩

/-! ## Connections: the weekly count and the rejections of feedback -/

/-- No request is answered 429: the count the handler tests is the one
`resetWeeklyConnections` has just set to `0` on a document loaded without
`weeklyConnections`. -/
theorem postRequest_never_429 (db : Database) (now : Time) (userId targetUserId : ObjectId)
    (sharedSkill : String) :
    (postRequest db now userId targetUserId sharedSkill).response.status ≠ 429 := by
  cases htarget : findUserById db.toStore targetUserId with
  | none => simp [postRequest, htarget]
  | some target =>
    cases huser : findUserById db.toStore userId with
    | none => simp [postRequest, htarget, checkConnectionEligibility, huser]
    | some user =>
      obtain ⟨e, he⟩ := checkConnectionEligibility_ok huser
      rw [postRequest_eq now sharedSkill huser htarget he]
      split_ifs <;> simp

/-- The handler of `POST /request` writes no user document. -/
theorem postRequest_users (db : Database) (now : Time) (userId targetUserId : ObjectId)
    (sharedSkill : String) :
    (postRequest db now userId targetUserId sharedSkill).db.users = db.users := by
  rcases postRequest_db db now userId targetUserId sharedSkill with h | ⟨conn, _, _, h⟩
  · rw [h]
  · rw [h]

/-- C14, the code at a failing input: on `peersDb` the request of user 1 to user
2 at time 100 is answered 201 and the count on the handler's user object is 1,
but no user document is written.  At time 200, in the same weekly window, the
requester is eligible, shares the skill with user 3 and has no connection with
user 3, and has sent a request this week: the second request is answered 201
and stores a second connection, where the claimed condition `count < 1` fails.
For every input the handler answers no 429 and writes no user document. -/
theorem postRequest_count_not_stored :
    (postRequest peersDb 100 1 2 "Guitar").response.status = 201 ∧
    ((postRequest peersDb 100 1 2 "Guitar").user.bind (fun u => u.weeklyConnections)).map
        (fun wc => wc.count) = some 1 ∧
    (postRequest peersDb 100 1 2 "Guitar").db.users = peersDb.users ∧
    (postRequest (postRequest peersDb 100 1 2 "Guitar").db 200 1 3 "Guitar").response
      = { status := 201, message := "Connection request sent" } ∧
    (postRequest (postRequest peersDb 100 1 2 "Guitar").db 200 1 3 "Guitar").db.connections.length
      = 2 ∧
    (∀ (db : Database) (now : Time) (userId targetUserId : ObjectId) (sharedSkill : String),
      (postRequest db now userId targetUserId sharedSkill).response.status ≠ 429 ∧
      (postRequest db now userId targetUserId sharedSkill).db.users = db.users) := by
  refine ⟨by decide, by decide, by decide, by decide, by decide, ?_⟩
  intro db now userId targetUserId sharedSkill
  exact ⟨postRequest_never_429 db now userId targetUserId sharedSkill,
    postRequest_users db now userId targetUserId sharedSkill⟩

/-- C19, the code at a failing input: on `activeDb`, whose connection 1 is between
users 1 and 2, user 3 submits the rating 5; and on `reviewedDb`, where user 1
already has an entry on connection 1, user 1 submits the rating 4.  Both times
the handler throws at its line 271 and sends no answer; the connection is
unchanged.  With the identifier bound the same two submissions are answered
403 and 400. -/
theorem submitFeedback_rejection_throws :
    (findConnectionById activeDb 1).map (fun c => (c.users, c.feedback.length))
      = some ([1, 2], 0) ∧
    submitFeedback activeDb 300 3 1 5 none
      = (.error "ReferenceError: mongoose is not defined", activeDb) ∧
    (feedbackHandler true activeDb 300 3 1 5 none).1
      = .ok { status := 403,
              message := "Not authorized to submit feedback for this connection" } ∧
    (findConnectionById reviewedDb 1).map (fun c => c.feedback.map (fun f => f.fromUser))
      = some [1] ∧
    submitFeedback reviewedDb 301 1 1 4 none
      = (.error "ReferenceError: mongoose is not defined", reviewedDb) ∧
    (feedbackHandler true reviewedDb 301 1 1 4 none).1
      = .ok { status := 400, message := "Feedback already submitted for this connection" } := by
  refine ⟨by decide, rfl, rfl, by decide, rfl, rfl⟩

end Amorfly
